import Mathlib

/-!
The PAL machine (pal.cpp, Memory_cell.cpp): a shallow embedding

The interpreter of the pseudo assembly language is embedded as pure functions
over an explicit machine state.

Modelling decisions, each visible in the definitions below:

* The C++ `float` type and the `iostream` extraction operators are library
  code, not code of the repository.  They are taken as a parameter
  (`Platform`), so every theorem holds for every float arithmetic and every
  input stream behaviour.
* `data_store` and `code_store` are C arrays indexed by `int`.  The source
  never checks an index; the stores are modelled as total functions on `Int`
  (an access outside the array, undefined behaviour in C++, is an ordinary
  cell of the model).
* The arithmetic of OPR 2 .. OPR 7 on `int` cell values is 32-bit two's
  complement arithmetic (`wrap_int`).  Register and address arithmetic
  (`top_of_stack + 1`, `base_register - 5`, ...) indexes the stores and is
  left unwrapped.
* `abort()`, an exception that leaves `execute_code` uncaught, and a loop that
  has used all the fuel it was given are the three abnormal results of
  `Outcome`.
* The loader works on the lines `getline` delivers, each a list of
  characters.  `std::stoi` is modelled as the C++ standard defines it;
  `std::stof` is a parameter of `load`.
-/

namespace PAL

/-! ## Memory_cell -/

/-- Types known to the PAL machine (`Memory_cell::types`). -/
inductive types where
  | types_UNDEF
  | types_BOOLEAN
  | types_INT
  | types_REAL
  | types_STRING
  deriving DecidableEq, Repr

/-- The class `Memory_cell`: a tag and one private field per type.  A setter
writes the tag and its own field only, the other fields keep their old
contents, exactly as in the source.  `F` is the carrier of C++ `float`. -/
structure Memory_cell (F : Type) where
  type : types
  bvalue : Bool
  ivalue : Int
  rvalue : F
  svalue : String

namespace Memory_cell

variable {F : Type}

def set_boolean (c : Memory_cell F) (b : Bool) : Memory_cell F :=
  { c with type := types.types_BOOLEAN, bvalue := b }

def set_int (c : Memory_cell F) (i : Int) : Memory_cell F :=
  { c with type := types.types_INT, ivalue := i }

def set_real (c : Memory_cell F) (f : F) : Memory_cell F :=
  { c with type := types.types_REAL, rvalue := f }

def set_string (c : Memory_cell F) (s : String) : Memory_cell F :=
  { c with type := types.types_STRING, svalue := s }

def set_undef (c : Memory_cell F) : Memory_cell F :=
  { c with type := types.types_UNDEF }

/-- The members as their default member initialisers leave them; `zero` is the
float literal `0.0`. -/
def fresh (zero : F) : Memory_cell F :=
  { type := types.types_UNDEF, bvalue := false, ivalue := 0, rvalue := zero, svalue := "" }

/-- Constructor `Memory_cell()`. -/
def mk_undef (zero : F) : Memory_cell F := set_undef (fresh zero)

/-- Constructor `Memory_cell(bool b)`. -/
def mk_boolean (zero : F) (b : Bool) : Memory_cell F := (fresh zero).set_boolean b

/-- Constructor `Memory_cell(int i)`. -/
def mk_int (zero : F) (i : Int) : Memory_cell F := (fresh zero).set_int i

/-- Constructor `Memory_cell(float f)`. -/
def mk_real (zero : F) (f : F) : Memory_cell F := (fresh zero).set_real f

/-- Constructor `Memory_cell(string s)`. -/
def mk_string (zero : F) (s : String) : Memory_cell F := (fresh zero).set_string s

def is_undef (c : Memory_cell F) : Bool := c.type == types.types_UNDEF

def is_boolean (c : Memory_cell F) : Bool := c.type == types.types_BOOLEAN

def is_int (c : Memory_cell F) : Bool := c.type == types.types_INT

def is_real (c : Memory_cell F) : Bool := c.type == types.types_REAL

def is_string (c : Memory_cell F) : Bool := c.type == types.types_STRING

def get_type (c : Memory_cell F) : types := c.type

/-- The text every typed getter throws on a tag mismatch. -/
def illegal_access : String := "Illegal access of value in memory cell"

def get_boolean (c : Memory_cell F) : Except String Bool :=
  if c.type = types.types_BOOLEAN then .ok c.bvalue else .error illegal_access

def get_int (c : Memory_cell F) : Except String Int :=
  if c.type = types.types_INT then .ok c.ivalue else .error illegal_access

def get_real (c : Memory_cell F) : Except String F :=
  if c.type = types.types_REAL then .ok c.rvalue else .error illegal_access

def get_string (c : Memory_cell F) : Except String String :=
  if c.type = types.types_STRING then .ok c.svalue else .error illegal_access

/-- The method `Memory_cell::to_string`; `f_to_string` is `std::to_string(float)`.
`std::to_string(bool)` prints the promoted integer. -/
def to_string (f_to_string : F → String) (c : Memory_cell F) : String :=
  if c.is_undef then "UNDEF   "
  else if c.is_boolean then "BOOLEAN " ++ (if c.bvalue then "1" else "0")
  else if c.is_int then "INT     " ++ toString c.ivalue
  else if c.is_real then "REAL    " ++ f_to_string c.rvalue
  else if c.is_string then "STRING  " ++ c.svalue
  else ""

end Memory_cell

/-! ## The C++ run time the interpreter is compiled against -/

/-- The float arithmetic and the standard input stream: `F` is the set of
`float` values, `In` the set of states of `cin`. -/
structure Platform (F In : Type) where
  /-- The conversion `float(i)`; also the literals `0.0` and `1`. -/
  f_of_int : Int → F
  f_neg : F → F
  f_add : F → F → F
  f_sub : F → F → F
  f_mul : F → F → F
  f_div : F → F → F
  f_eq : F → F → Bool
  f_lt : F → F → Bool
  f_le : F → F → Bool
  /-- The conversion `int(f)`. -/
  f_to_int : F → Int
  /-- The function `std::to_string(float)`. -/
  f_to_string : F → String
  /-- What `cout << f` prints. -/
  f_put : F → String
  /-- The statement `cin >> temp` for an `int temp`: the value left in `temp`
  and the new stream state. -/
  cin_int : In → Int × In
  /-- The statement `cin >> temp` for a `float temp`. -/
  cin_real : In → F × In
  /-- The call `cin.eof()`. -/
  cin_eof : In → Bool

/-! ## Machine integers -/

/-- The value of a mathematical integer as a 32-bit two's complement `int`. -/
def wrap_int (z : Int) : Int := (z + 2147483648) % 4294967296 - 2147483648

/-- The values an `int` can hold. -/
def in_int_range (z : Int) : Prop := -2147483648 ≤ z ∧ z ≤ 2147483647

instance (z : Int) : Decidable (in_int_range z) := by
  unfold in_int_range; infer_instance

/-! ## Instructions and the machine state -/

/-- Function codes in the PAL instruction set. -/
inductive fun_code where
  | fun_MST | fun_CAL | fun_INC | fun_JIF | fun_JMP | fun_LCI | fun_LCR
  | fun_LCS | fun_LDA | fun_LDI | fun_LDV | fun_LDU | fun_OPR | fun_RDI
  | fun_RDR | fun_STI | fun_STO | fun_SIG | fun_REH | fun_DBG
  deriving DecidableEq, Repr

/-- Description of a single instruction. -/
structure instruction (F : Type) where
  f : fun_code
  l : Int
  a : Memory_cell F

def re_raise_exception : Int := 0

def program_abort_exception : Int := 1

def no_return_in_function_exception : Int := 2

def input_error_exception : Int := 3

def end_error_exception : Int := 4

def abort_program_exception : Int := 5

def other_exception : Int := 6

/-- One piece of text on standard output, with the statement that wrote it:
`program` for OPR 20 and OPR 21, `listing` for stack dumps and the debugging
listing. -/
inductive Output where
  | program (text : String)
  | listing (text : String)
  deriving DecidableEq, Repr

def Output.text : Output → String
  | .program t => t
  | .listing t => t

/-- The global variables of pal.cpp together with the three standard streams. -/
structure State (F In : Type) where
  debugging_pal_code : Bool
  data_store : Int → Memory_cell F
  code_store : Int → instruction F
  pal_exception : Int
  last_instruction : Int
  program_counter : Int
  base_register : Int
  top_of_stack : Int
  instruction_register : instruction F
  cin : In
  cout : List Output
  cerr : String

/-- The characters on standard output, in order. -/
def State.stdout {F In : Type} (s : State F In) : String :=
  String.join (s.cout.map Output.text)

/-- The characters OPR 20 and OPR 21 have written. -/
def State.program_output {F In : Type} (s : State F In) : String :=
  String.join (s.cout.map fun o => match o with
    | .program t => t
    | .listing _ => "")

/-- How a piece of the interpreter ends. -/
inductive Outcome (σ α : Type) where
  /-- It returns `a`. -/
  | ok (a : α) (s : σ)
  /-- It reached `abort()` through `fatal_error message`. -/
  | aborted (message : String) (s : σ)
  /-- A getter threw `message`; nothing in `execute_code` catches it. -/
  | uncaught (message : String) (s : σ)
  /-- The fuel ran out while a loop was still running. -/
  | timeout

/-- A statement of the interpreter: a function of the state. -/
def Exec (σ α : Type) : Type := σ → Outcome σ α

namespace Exec

variable {σ α β : Type}

def pure (a : α) : Exec σ α := fun s => .ok a s

def bind (m : Exec σ α) (f : α → Exec σ β) : Exec σ β := fun s =>
  match m s with
  | .ok a s1 => f a s1
  | .aborted msg s1 => .aborted msg s1
  | .uncaught msg s1 => .uncaught msg s1
  | .timeout => .timeout

instance : Monad (Exec σ) where
  pure := Exec.pure
  bind := Exec.bind

/-- Read the state. -/
def get : Exec σ σ := fun s => .ok s s

/-- Replace the state. -/
def modify (f : σ → σ) : Exec σ Unit := fun s => .ok () (f s)

/-- The value of a getter, or its exception. -/
def lift (e : Except String α) : Exec σ α := fun s =>
  match e with
  | .ok a => .ok a s
  | .error msg => .uncaught msg s

end Exec

/-! ## Diagnostics -/

section Machine

variable {F In : Type}

/-- The map from mnemonics to function codes that `establish_function_mapping`
builds, in the key order in which a `std::map` is traversed. -/
def fun_code_map : List (String × fun_code) :=
  [("CAL", .fun_CAL), ("DBG", .fun_DBG), ("INC", .fun_INC), ("JIF", .fun_JIF),
   ("JMP", .fun_JMP), ("LCI", .fun_LCI), ("LCR", .fun_LCR), ("LCS", .fun_LCS),
   ("LDA", .fun_LDA), ("LDI", .fun_LDI), ("LDU", .fun_LDU), ("LDV", .fun_LDV),
   ("MST", .fun_MST), ("OPR", .fun_OPR), ("RDI", .fun_RDI), ("RDR", .fun_RDR),
   ("REH", .fun_REH), ("SIG", .fun_SIG), ("STI", .fun_STI), ("STO", .fun_STO)]

def funtostr (f : fun_code) : String :=
  match fun_code_map.find? (fun i => i.2 == f) with
  | some i => i.1
  | none => ""

/-- Convert an instruction to a string. -/
def insttostr (pf : Platform F In) (i : instruction F) : String :=
  funtostr i.f ++ " " ++ toString i.l ++ " " ++ i.a.to_string pf.f_to_string

/-- The cell indices `lo, lo + 1, ..., hi` a counting `for` loop visits. -/
def int_range (lo hi : Int) : List Int :=
  (List.range (hi + 1 - lo).toNat).map fun k => lo + (k : Int)

/-- The text of a stack dump. -/
def stack_dump (pf : Platform F In) (s : State F In) (b t : Int) : String :=
  "\n*** Run-time stack:\n"
    ++ "     Base of activation record: " ++ toString b ++ ".\n"
    ++ "     Current top of stack: " ++ toString t ++ ".\n"
    ++ "     Instruction register contains: \x27"
    ++ insttostr pf s.instruction_register ++ "\x27.\n"
    ++ "\nContents of stack:\n------------------\n\n"
    ++ String.join ((int_range 1 t).map fun i =>
        "   " ++ toString i ++ ": \x27" ++ (s.data_store i).to_string pf.f_to_string ++ "\x27.\n")
    ++ "\n\n"

/-- Write diagnostic text to standard output. -/
def put_listing (text : String) : Exec (State F In) Unit :=
  Exec.modify fun s => { s with cout := s.cout ++ [Output.listing text] }

/-- Write program text (OPR 20, OPR 21) to standard output. -/
def put_program (text : String) : Exec (State F In) Unit :=
  Exec.modify fun s => { s with cout := s.cout ++ [Output.program text] }

/-- Write text to standard error. -/
def put_cerr (text : String) : Exec (State F In) Unit :=
  Exec.modify fun s => { s with cerr := s.cerr ++ text }

/-- Trace the stack and create a stack dump.  The first parameter `p` is not
used by the source either. -/
def trace_stack (pf : Platform F In) (_p b t : Int) : Exec (State F In) Unit :=
  fun s => put_listing (stack_dump pf s b t) s

/-- Fatal run-time error detected: the diagnostic, then `abort()`. -/
def fatal_error {α : Type} (pf : Platform F In) (message : String) : Exec (State F In) α := fun s =>
  match (do
      put_cerr ("*** FATAL Run-time error: " ++ message ++ "\n")
      let s1 ← Exec.get
      put_cerr ("     At address: " ++ toString (s1.program_counter - 1) ++ ".\n")
      trace_stack pf s1.base_register s1.program_counter s1.top_of_stack
      put_cerr "\n" : Exec (State F In) Unit) s with
  | .ok _ s2 => .aborted message s2
  | .aborted msg s2 => .aborted msg s2
  | .uncaught msg s2 => .uncaught msg s2
  | .timeout => .timeout

/-! ## Unwinding -/

/-- The loop of `unwind`.  Exception `exc` has occurred: look for an exception
handler and discard stack frames until one is found.  `lp` and `lb` are the
by-value parameters of the source.  Its reference parameter `lt` is bound to
the global `top_of_stack` at the only call (in `error`), so the model reads and
writes `top_of_stack` where the source reads and writes `lt`.  The result is
the final value of the locals `(lp, lb)`.  One unit of fuel is one iteration. -/
def unwind_loop (pf : Platform F In) : Nat → Int → Int → Int → Exec (State F In) (Int × Int)
  | 0, _, _, _ => fun _ => .timeout
  | fuel + 1, exc, lp, lb => do
    let s ← Exec.get
    if s.debugging_pal_code then
      put_listing "Unwinding\n"
      trace_stack pf lp lb s.top_of_stack
      put_listing "\n"
    if (s.data_store (lb - 1)).is_int then
      -- Might be a handler
      let h ← Exec.lift (s.data_store (lb - 1)).get_int
      if h ≠ 0 then
        -- Looking hopeful.
        if h > 0 ∧ h < s.last_instruction then
          -- A valid handler has been found!
          if s.debugging_pal_code then
            put_listing "Exception handler found.\n"
          pure (h, lb)
        else
          fatal_error pf "Exception handler address is invalid"
      else
        -- No handler in this frame: discard it.
        if s.debugging_pal_code then
          put_listing "No handler in this frame.\n"
        Exec.modify fun s1 => { s1 with top_of_stack := lb - 5 }
        let lp1 ← Exec.lift (s.data_store (lb - 5 + 3)).get_int
        let lb1 ← Exec.lift (s.data_store (lb - 5 + 2)).get_int
        if lb1 = 0 then
          fatal_error pf "Exception never handled."
        else
          unwind_loop pf fuel exc lp1 lb1
    else
      fatal_error pf "Exception handler address has the wrong type!"

/-- The function `unwind(exc, lp, lb, lt)` with `lt` bound to `top_of_stack`.
After the loop the source assigns `top_of_stack = lt` (the same variable) and
returns: `lp` and `lb` were passed by value, their final values are dropped. -/
def unwind (pf : Platform F In) (fuel : Nat) (exc lp lb : Int) : Exec (State F In) Unit := do
  let (lp1, lb1) ← unwind_loop pf fuel exc lp lb
  let s ← Exec.get
  if s.debugging_pal_code then
    put_listing "Unwinding\n"
    trace_stack pf lp1 lb1 s.top_of_stack

/-- Non-fatal error detected. Provide stack dump, then unwind.  In the source
`exc` has the default argument `program_abort_exception`, and no call passes
another value. -/
def error (pf : Platform F In) (fuel : Nat) (message : String)
    (exc : Int) : Exec (State F In) Unit := do
  put_cerr ("*** Run-time error: " ++ message ++ "\n")
  let s ← Exec.get
  put_cerr ("     At address: " ++ toString (s.program_counter - 1) ++ ".\n")
  trace_stack pf s.base_register s.program_counter s.top_of_stack
  put_cerr "\n\n"
  unwind pf fuel exc s.program_counter s.base_register

/-- The loop of `base`: `lev` iterations are left. -/
def base_loop (pf : Platform F In) (fuel : Nat) : Nat → Int → Exec (State F In) Int
  | 0, b1 => pure b1
  | lev + 1, b1 => do
    let s ← Exec.get
    if (s.data_store (b1 - 4)).is_int then
      let b2 ← Exec.lift (s.data_store (b1 - 4)).get_int
      base_loop pf fuel lev b2
    else
      error pf fuel "Static link is not an integer." program_abort_exception
      base_loop pf fuel lev b1

/-- Find base `l` levels down. -/
def base (pf : Platform F In) (fuel : Nat) (l : Int) : Exec (State F In) Int := do
  let s ← Exec.get
  base_loop pf fuel l.toNat s.base_register

/-! ## The data store -/

/-- The statement `data_store[i].set_...(...)`: apply a setter to cell `i`. -/
def set_cell (i : Int) (f : Memory_cell F → Memory_cell F) : Exec (State F In) Unit :=
  Exec.modify fun s =>
    { s with data_store := fun j => if j = i then f (s.data_store j) else s.data_store j }

/-- The statement `data_store[i] = c`: copy a whole cell. -/
def store_cell (i : Int) (c : Memory_cell F) : Exec (State F In) Unit :=
  set_cell i fun _ => c

/-- The statement `top_of_stack = t`. -/
def set_top (t : Int) : Exec (State F In) Unit :=
  Exec.modify fun s => { s with top_of_stack := t }

/-- The statement `program_counter = p`. -/
def set_pc (p : Int) : Exec (State F In) Unit :=
  Exec.modify fun s => { s with program_counter := p }

/-- The statement `base_register = b`. -/
def set_base (b : Int) : Exec (State F In) Unit :=
  Exec.modify fun s => { s with base_register := b }

/-! ## OPR: the operations -/

/-- OPR 2, negate. -/
def opr_negate (pf : Platform F In) (fuel : Nat) : Exec (State F In) Unit := do
  let s ← Exec.get
  let t := s.top_of_stack
  if (s.data_store t).is_real then
    let r ← Exec.lift (s.data_store t).get_real
    set_cell t fun c => c.set_real (pf.f_neg r)
  else if (s.data_store t).is_int then
    let i ← Exec.lift (s.data_store t).get_int
    set_cell t fun c => c.set_int (wrap_int (-i))
  else
    error pf fuel "Cannot negate boolean or string value." program_abort_exception

/-- OPR 3, 4, 5, 6 (`k` is the operation): all the mathematical operators at once. -/
def opr_arith (pf : Platform F In) (fuel : Nat) (k : Int) : Exec (State F In) Unit := do
  Exec.modify fun s => { s with top_of_stack := s.top_of_stack - 1 }
  let s ← Exec.get
  let t := s.top_of_stack
  if (s.data_store t).get_type ≠ (s.data_store (t + 1)).get_type then
    error pf fuel "Operands must be of the same type." program_abort_exception
  else
    match (s.data_store t).get_type with
    | .types_INT =>
      if k = 3 then do
        let a ← Exec.lift (s.data_store t).get_int
        let b ← Exec.lift (s.data_store (t + 1)).get_int
        set_cell t fun c => c.set_int (wrap_int (a + b))
      else if k = 4 then do
        let a ← Exec.lift (s.data_store t).get_int
        let b ← Exec.lift (s.data_store (t + 1)).get_int
        set_cell t fun c => c.set_int (wrap_int (a - b))
      else if k = 5 then do
        let a ← Exec.lift (s.data_store t).get_int
        let b ← Exec.lift (s.data_store (t + 1)).get_int
        set_cell t fun c => c.set_int (wrap_int (a * b))
      else if k = 6 then do
        let d ← Exec.lift (s.data_store (t + 1)).get_int
        if d ≠ 0 then
          let a ← Exec.lift (s.data_store t).get_int
          let b ← Exec.lift (s.data_store (t + 1)).get_int
          set_cell t fun c => c.set_int (wrap_int (Int.tdiv a b))
        else
          error pf fuel "Divide by integer 0." program_abort_exception
      else
        pure ()
    | .types_REAL =>
      if k = 3 then do
        let a ← Exec.lift (s.data_store t).get_real
        let b ← Exec.lift (s.data_store (t + 1)).get_real
        set_cell t fun c => c.set_real (pf.f_add a b)
      else if k = 4 then do
        let a ← Exec.lift (s.data_store t).get_real
        let b ← Exec.lift (s.data_store (t + 1)).get_real
        set_cell t fun c => c.set_real (pf.f_sub a b)
      else if k = 5 then do
        let a ← Exec.lift (s.data_store t).get_real
        let b ← Exec.lift (s.data_store (t + 1)).get_real
        set_cell t fun c => c.set_real (pf.f_mul a b)
      else if k = 6 then do
        let d ← Exec.lift (s.data_store (t + 1)).get_real
        if !(pf.f_eq d (pf.f_of_int 0)) then
          let a ← Exec.lift (s.data_store t).get_real
          let b ← Exec.lift (s.data_store (t + 1)).get_real
          set_cell t fun c => c.set_real (pf.f_div a b)
        else
          error pf fuel "Divide by floating point 0.0." program_abort_exception
      else
        pure ()
    | _ => error pf fuel "Operands must be integer or real" program_abort_exception

/-- The `for` loop of OPR 7 on an `int` base: `temp *= x`, `n` times. -/
def pow_loop_int (x : Int) : Nat → Int → Int
  | 0, temp => temp
  | n + 1, temp => pow_loop_int x n (wrap_int (temp * x))

/-- The `for` loop of OPR 7 on a `float` base. -/
def pow_loop_real (pf : Platform F In) (x : F) : Nat → F → F
  | 0, temp => temp
  | n + 1, temp => pow_loop_real pf x n (pf.f_mul temp x)

/-- OPR 7, exponentiation.  The loop `for (j = 1; j <= e - 1; j++)` makes
`e - 1` iterations, none when `e - 1 < 1`. -/
def opr_power (pf : Platform F In) (fuel : Nat) : Exec (State F In) Unit := do
  Exec.modify fun s => { s with top_of_stack := s.top_of_stack - 1 }
  let s ← Exec.get
  let t := s.top_of_stack
  if (s.data_store (t + 1)).get_type ≠ types.types_INT then
    error pf fuel "Exponent must be an integer." program_abort_exception
  else
    match (s.data_store t).get_type with
    | .types_INT =>
      let x ← Exec.lift (s.data_store t).get_int
      let e ← Exec.lift (s.data_store (t + 1)).get_int
      let temp := if e = 0 then 1 else pow_loop_int x (e - 1).toNat x
      set_cell t fun c => c.set_int temp
    | .types_REAL =>
      let x ← Exec.lift (s.data_store t).get_real
      let e ← Exec.lift (s.data_store (t + 1)).get_int
      let temp := if e = 0 then pf.f_of_int 1 else pow_loop_real pf x (e - 1).toNat x
      set_cell t fun c => c.set_real temp
    | _ => error pf fuel "Operand must be an integer or a floating point" program_abort_exception

/-- OPR 8, string concatenation. -/
def opr_concat (pf : Platform F In) (fuel : Nat) : Exec (State F In) Unit := do
  let s ← Exec.get
  let t := s.top_of_stack
  if (s.data_store t).get_type ≠ types.types_STRING then
    error pf fuel "String concatenation requires String on top of stack." program_abort_exception
  else if (s.data_store (t - 1)).get_type ≠ types.types_STRING then
    error pf fuel "String concatenation requires String on top of stack - 1."
      program_abort_exception
  else
    let s1 ← Exec.lift (s.data_store (t - 1)).get_string
    let s2 ← Exec.lift (s.data_store t).get_string
    set_cell (t - 1) fun c => c.set_string (s1 ++ s2)
  Exec.modify fun s => { s with top_of_stack := s.top_of_stack - 1 }

/-- OPR 9, odd.  The C++ operator `%` truncates towards zero: `Int.tmod`. -/
def opr_odd (pf : Platform F In) (fuel : Nat) : Exec (State F In) Unit := do
  let s ← Exec.get
  let t := s.top_of_stack
  if (s.data_store t).get_type ≠ types.types_INT then
    error pf fuel "Odd instruction expects integer value." program_abort_exception
  else
    let x ← Exec.lift (s.data_store t).get_int
    set_cell t fun c => c.set_boolean (decide (Int.tmod x 2 = 1))

/-- A C++ `bool` promoted to `int`, as the relational operators compare it. -/
def bool_to_int (b : Bool) : Int := if b then 1 else 0

/-- The six comparisons of OPR 10 .. 15 on `int` operands; `none` is the
`default` label of the inner switch. -/
def compare_int (k : Int) (a b : Int) : Option Bool :=
  if k = 10 then some (decide (a = b))
  else if k = 11 then some (decide (a ≠ b))
  else if k = 12 then some (decide (a < b))
  else if k = 13 then some (decide (a ≥ b))
  else if k = 14 then some (decide (a > b))
  else if k = 15 then some (decide (a ≤ b))
  else none

/-- The six comparisons on `float` operands. -/
def compare_real (pf : Platform F In) (k : Int) (a b : F) : Option Bool :=
  if k = 10 then some (pf.f_eq a b)
  else if k = 11 then some (!(pf.f_eq a b))
  else if k = 12 then some (pf.f_lt a b)
  else if k = 13 then some (pf.f_le b a)
  else if k = 14 then some (pf.f_lt b a)
  else if k = 15 then some (pf.f_le a b)
  else none

/-- OPR 10 .. 15 (`k` is the operation): the comparators, handled together. -/
def opr_compare (pf : Platform F In) (fuel : Nat) (k : Int) : Exec (State F In) Unit := do
  Exec.modify fun s => { s with top_of_stack := s.top_of_stack - 1 }
  let s ← Exec.get
  let t := s.top_of_stack
  if (s.data_store t).get_type ≠ (s.data_store (t + 1)).get_type then
    error pf fuel "operands must be of the same type." program_abort_exception
  else
    match (s.data_store t).get_type with
    | .types_BOOLEAN =>
      let a ← Exec.lift (s.data_store t).get_boolean
      let b ← Exec.lift (s.data_store (t + 1)).get_boolean
      match compare_int k (bool_to_int a) (bool_to_int b) with
      | some r => set_cell t fun c => c.set_boolean r
      | none => pure ()
    | .types_INT =>
      let a ← Exec.lift (s.data_store t).get_int
      let b ← Exec.lift (s.data_store (t + 1)).get_int
      match compare_int k a b with
      | some r => set_cell t fun c => c.set_boolean r
      | none => pure ()
    | .types_REAL =>
      let a ← Exec.lift (s.data_store t).get_real
      let b ← Exec.lift (s.data_store (t + 1)).get_real
      match compare_real pf k a b with
      | some r => set_cell t fun c => c.set_boolean r
      | none => pure ()
    | _ =>
      error pf fuel "Operands must in integer, floating point, or boolean."
        program_abort_exception

/-- OPR 0 .. 31: the inner `switch (instruction_register->a.get_int())`. -/
def exec_opr (pf : Platform F In) (fuel : Nat) (k : Int) : Exec (State F In) Unit := do
  let s ← Exec.get
  let t := s.top_of_stack
  if k = 0 then do
    -- procedure return
    if s.debugging_pal_code then
      trace_stack pf s.program_counter s.base_register s.top_of_stack
    set_top (s.base_register - 5)
    let p ← Exec.lift (s.data_store (s.base_register - 5 + 3)).get_int
    set_pc p
    let b ← Exec.lift (s.data_store (s.base_register - 5 + 2)).get_int
    set_base b
  else if k = 1 then do
    -- function return
    if s.debugging_pal_code then
      trace_stack pf s.program_counter s.base_register s.top_of_stack
    let temp := s.data_store t
    set_top (s.base_register - 5)
    let p ← Exec.lift (s.data_store (s.base_register - 5 + 3)).get_int
    set_pc p
    let b ← Exec.lift (s.data_store (s.base_register - 5 + 2)).get_int
    set_base b
    set_top (s.base_register - 5 + 1)
    store_cell (s.base_register - 5 + 1) temp
  else if k = 2 then opr_negate pf fuel
  else if k = 3 ∨ k = 4 ∨ k = 5 ∨ k = 6 then opr_arith pf fuel k
  else if k = 7 then opr_power pf fuel
  else if k = 8 then opr_concat pf fuel
  else if k = 9 then opr_odd pf fuel
  else if k = 10 ∨ k = 11 ∨ k = 12 ∨ k = 13 ∨ k = 14 ∨ k = 15 then opr_compare pf fuel k
  else if k = 16 then do
    -- logical complement (not)
    if (s.data_store t).get_type ≠ types.types_BOOLEAN then
      error pf fuel "not operation expects boolean value on top of stack."
        program_abort_exception
    else
      let b ← Exec.lift (s.data_store t).get_boolean
      set_cell t fun c => c.set_boolean (!b)
  else if k = 17 then do
    set_top (t + 1)
    set_cell (t + 1) fun c => c.set_boolean true
  else if k = 18 then do
    set_top (t + 1)
    set_cell (t + 1) fun c => c.set_boolean false
  else if k = 19 then do
    set_top (t + 1)
    set_cell (t + 1) fun c => c.set_boolean (pf.cin_eof s.cin)
  else if k = 20 then do
    -- write the integer, float or string on top of the stack to output
    match (s.data_store t).get_type with
    | .types_REAL =>
      let r ← Exec.lift (s.data_store t).get_real
      put_program (pf.f_put r)
    | .types_INT =>
      let i ← Exec.lift (s.data_store t).get_int
      put_program (toString i)
    | .types_STRING =>
      let str ← Exec.lift (s.data_store t).get_string
      put_program str
    | _ =>
      error pf fuel "Can only write integer, floating point, and string values."
        program_abort_exception
    Exec.modify fun s1 => { s1 with top_of_stack := s1.top_of_stack - 1 }
  else if k = 21 then put_program "\n"
  else if k = 22 then do
    -- swap the top two elements on the stack
    let temp := s.data_store t
    store_cell t (s.data_store (t - 1))
    store_cell (t - 1) temp
  else if k = 23 then do
    -- duplicate the element on the top of the stack
    set_top (t + 1)
    store_cell (t + 1) (s.data_store (t + 1 - 1))
  else if k = 24 then set_top (t - 1)
  else if k = 25 then do
    if (s.data_store t).get_type ≠ types.types_INT then
      error pf fuel "int-to-real conversion expects integer on top of stack."
        program_abort_exception
    else
      let i ← Exec.lift (s.data_store t).get_int
      set_cell t fun c => c.set_real (pf.f_of_int i)
  else if k = 26 then do
    if (s.data_store t).get_type ≠ types.types_REAL then
      error pf fuel "real-to_int conversion expects real number on top of stack."
        program_abort_exception
    else
      let r ← Exec.lift (s.data_store t).get_real
      set_cell t fun c => c.set_int (pf.f_to_int r)
  else if k = 27 then do
    if (s.data_store t).get_type ≠ types.types_INT then
      error pf fuel "int-to-string conversion expects integer on top of stack."
        program_abort_exception
    else
      let i ← Exec.lift (s.data_store t).get_int
      set_cell t fun c => c.set_string (toString i)
  else if k = 28 then do
    if (s.data_store t).get_type ≠ types.types_REAL then
      error pf fuel "real-to-string conversion expects integer on top of stack."
        program_abort_exception
    else
      let r ← Exec.lift (s.data_store t).get_real
      set_cell t fun c => c.set_string (pf.f_to_string r)
  else if k = 29 then do
    -- logical and: the C++ operator && does not evaluate its right operand
    -- when the left one is false
    if (s.data_store t).get_type ≠ types.types_BOOLEAN
        ∧ (s.data_store (t - 1)).get_type ≠ types.types_BOOLEAN then
      error pf fuel "Logical and expects boolean values at top of stack, and top of stack-1"
        program_abort_exception
    else
      let a ← Exec.lift (s.data_store (t - 1)).get_boolean
      let r ← if a then Exec.lift (s.data_store t).get_boolean else pure false
      set_cell (t - 1) fun c => c.set_boolean r
      set_top (t - 1)
  else if k = 30 then do
    -- logical or: the right operand is not evaluated when the left one is true
    if (s.data_store t).get_type ≠ types.types_BOOLEAN
        ∧ (s.data_store (t - 1)).get_type ≠ types.types_BOOLEAN then
      error pf fuel "Logical or expects boolean values at top of stack, and top of stack-1"
        program_abort_exception
    else
      let a ← Exec.lift (s.data_store (t - 1)).get_boolean
      let r ← if a then pure true else Exec.lift (s.data_store t).get_boolean
      set_cell (t - 1) fun c => c.set_boolean r
      set_top (t - 1)
  else if k = 31 then do
    -- is(exception)
    if (s.data_store t).get_type ≠ types.types_INT then
      error pf fuel "is operations expects an integer value on top of stack"
        program_abort_exception
    else
      let x ← Exec.lift (s.data_store t).get_int
      set_cell t fun c => c.set_boolean (decide (x = s.pal_exception))
  else
    -- default: nothing
    pure ()

/-! ## The instructions -/

/-- The body of the loop of INC: `data_store[i].set_undef()` for each `i` of the list. -/
def undef_cells (ds : Int → Memory_cell F) (is : List Int) : Int → Memory_cell F :=
  is.foldl (fun d i => fun j => if j = i then (d j).set_undef else d j) ds

/-- The outer `switch (instruction_register->f)`: execute the instruction `ir`.
Where a statement indexes `data_store` with `top_of_stack` and calls `base` in
the same expression, the order of C++17 is followed: the object of a member
call is evaluated before the arguments, the right operand of an assignment
before the left one. -/
def exec_instruction (pf : Platform F In) (fuel : Nat) (ir : instruction F) :
    Exec (State F In) Unit := do
  match ir.f with
  | .fun_MST =>
    -- Mark the stack
    let s ← Exec.get
    let b ← base pf fuel ir.l
    set_cell (s.top_of_stack + 1) fun c => c.set_int b
    let s1 ← Exec.get
    set_cell (s1.top_of_stack + 2) fun c => c.set_int s1.base_register
    set_cell (s1.top_of_stack + 3) fun c => c.set_int 0
    set_cell (s1.top_of_stack + 4) fun c => c.set_int 0
    set_top (s1.top_of_stack + 4)
  | .fun_CAL =>
    -- Procedure or function call
    let s ← Exec.get
    set_base (s.top_of_stack - ir.l + 1)
    set_cell (s.top_of_stack - ir.l + 1 - 2) fun c => c.set_int s.program_counter
    let a ← Exec.lift ir.a.get_int
    set_pc a
  | .fun_INC =>
    -- Increment top-of-stack pointer
    let s ← Exec.get
    let a ← Exec.lift ir.a.get_int
    if a > 0 then
      Exec.modify fun s1 =>
        { s1 with data_store :=
            undef_cells s1.data_store (int_range (s.top_of_stack + 1) (s.top_of_stack + a)) }
    set_top (s.top_of_stack + a)
  | .fun_JIF =>
    -- Jump if false
    let s ← Exec.get
    if (s.data_store s.top_of_stack).is_boolean then
      let b ← Exec.lift (s.data_store s.top_of_stack).get_boolean
      if !b then
        let a ← Exec.lift ir.a.get_int
        set_pc a
        if a < 0 ∨ a > s.last_instruction then
          error pf fuel "Attempt to jump outside code." program_abort_exception
    else
      error pf fuel "JIF - top of stack not a boolean." program_abort_exception
  | .fun_JMP =>
    -- Unconditional jump
    let s ← Exec.get
    let a ← Exec.lift ir.a.get_int
    set_pc a
    if a < 0 ∨ a > s.last_instruction then
      error pf fuel "Attempt to jump outside code." program_abort_exception
  | .fun_LCI =>
    -- Load integer constant onto stack
    let s ← Exec.get
    set_top (s.top_of_stack + 1)
    let a ← Exec.lift ir.a.get_int
    set_cell (s.top_of_stack + 1) fun c => c.set_int a
  | .fun_LCR =>
    -- Load real constant onto stack
    let s ← Exec.get
    set_top (s.top_of_stack + 1)
    let a ← Exec.lift ir.a.get_real
    set_cell (s.top_of_stack + 1) fun c => c.set_real a
  | .fun_LCS =>
    -- Load string literal onto stack
    let s ← Exec.get
    set_top (s.top_of_stack + 1)
    let a ← Exec.lift ir.a.get_string
    set_cell (s.top_of_stack + 1) fun c => c.set_string a
  | .fun_LDA =>
    -- Load the absolute address of a variable onto the stack
    let s ← Exec.get
    set_top (s.top_of_stack + 1)
    let b ← base pf fuel ir.l
    let a ← Exec.lift ir.a.get_int
    set_cell (s.top_of_stack + 1) fun c => c.set_int (b + a)
  | .fun_LDI =>
    -- Load the value stored at specified address onto the stack
    let s ← Exec.get
    let a ← Exec.lift (s.data_store s.top_of_stack).get_int
    store_cell s.top_of_stack (s.data_store a)
  | .fun_LDV =>
    -- Load the value of a variable onto the stack
    let s ← Exec.get
    set_top (s.top_of_stack + 1)
    let b ← base pf fuel ir.l
    let a ← Exec.lift ir.a.get_int
    let s1 ← Exec.get
    store_cell s1.top_of_stack (s1.data_store (b + a))
  | .fun_LDU =>
    -- Load an undefined or void value
    let s ← Exec.get
    set_top (s.top_of_stack + 1)
    set_cell (s.top_of_stack + 1) fun c => c.set_undef
  | .fun_RDI =>
    -- Read a value into an integer variable
    let s ← Exec.get
    let r := pf.cin_int s.cin
    Exec.modify fun s1 => { s1 with cin := r.2 }
    let b ← base pf fuel ir.l
    let a ← Exec.lift ir.a.get_int
    set_cell (b + a) fun c => c.set_int r.1
  | .fun_RDR =>
    -- Read a value into a real variable
    let s ← Exec.get
    let r := pf.cin_real s.cin
    Exec.modify fun s1 => { s1 with cin := r.2 }
    let b ← base pf fuel ir.l
    let a ← Exec.lift ir.a.get_int
    set_cell (b + a) fun c => c.set_real r.1
  | .fun_STI =>
    -- Load top-of-stack - 1 into a variable at address top-of-stack
    let s ← Exec.get
    let a ← Exec.lift (s.data_store s.top_of_stack).get_int
    store_cell a (s.data_store (s.top_of_stack - 1))
    set_top (s.top_of_stack - 2)
  | .fun_STO =>
    -- Store into a variable
    let s ← Exec.get
    let b ← base pf fuel ir.l
    let a ← Exec.lift ir.a.get_int
    store_cell (b + a) (s.data_store s.top_of_stack)
    Exec.modify fun s1 => { s1 with top_of_stack := s1.top_of_stack - 1 }
  | .fun_SIG =>
    -- Raise signal
    let a ← Exec.lift ir.a.get_int
    if a ≠ 0 then
      let a1 ← Exec.lift ir.a.get_int
      Exec.modify fun s => { s with pal_exception := a1 }
  | .fun_REH =>
    -- Register exception handler
    let s ← Exec.get
    let a ← Exec.lift ir.a.get_int
    set_cell (s.base_register - 1) fun c => c.set_int a
  | .fun_DBG =>
    -- Turn debugging status on/off
    let a ← Exec.lift ir.a.get_int
    Exec.modify fun s => { s with debugging_pal_code := decide (a = 1) }
  | .fun_OPR =>
    -- Execute operation - there are 32 of them
    let k ← Exec.lift ir.a.get_int
    exec_opr pf fuel k

/-- The listing line printed before an instruction when debugging is on. -/
def instruction_listing (pf : Platform F In) (p : Int) (i : instruction F) : String :=
  "\nInstruction at " ++ toString p ++ ": " ++ funtostr i.f ++ " " ++ toString i.l ++ " "
    ++ (match i.a.get_type with
        | .types_UNDEF => "UNDEFINED\n"
        | .types_BOOLEAN => (if i.a.bvalue then "1" else "0") ++ "\n"
        | .types_INT => toString i.a.ivalue ++ "\n"
        | .types_REAL => pf.f_put i.a.rvalue ++ "\n"
        | .types_STRING => i.a.svalue ++ "\n")

/-- One iteration of the `do ... while` loop of `execute_code`: fetch, advance
the program counter, execute.  `fuel` bounds each run of the loop of `unwind`. -/
def step (pf : Platform F In) (fuel : Nat) : Exec (State F In) Unit := do
  let s ← Exec.get
  if s.debugging_pal_code then
    put_listing (instruction_listing pf s.program_counter (s.code_store s.program_counter))
  -- note the instruction we are about to execute
  Exec.modify fun s1 =>
    { s1 with instruction_register := s.code_store s.program_counter,
              program_counter := s.program_counter + 1 }
  exec_instruction pf fuel (s.code_store s.program_counter)
  let s2 ← Exec.get
  if s2.debugging_pal_code then
    trace_stack pf s2.program_counter s2.base_register s2.top_of_stack

/-- The loop `do ... while (program_counter != 0)`, at most `n` iterations. -/
def execute_loop (pf : Platform F In) (fuel : Nat) : Nat → Exec (State F In) Unit
  | 0 => fun _ => .timeout
  | n + 1 => do
    step pf fuel
    let s ← Exec.get
    if s.program_counter ≠ 0 then
      execute_loop pf fuel n

/-- The first statements of `execute_code`: initialise the registers and set up
the main program activation record. -/
def init_machine (pf : Platform F In) : Exec (State F In) Unit := do
  set_top 4
  set_base 5
  set_pc 1
  store_cell 1 (Memory_cell.mk_int (pf.f_of_int 0) 0)
  store_cell 2 (Memory_cell.mk_int (pf.f_of_int 0) 0)
  store_cell 3 (Memory_cell.mk_int (pf.f_of_int 0) 0)
  store_cell 4 (Memory_cell.mk_int (pf.f_of_int 0) 0)

/-- The function `execute_code`: initialise, then run the loop. -/
def execute_code (pf : Platform F In) (fuel n : Nat) : Exec (State F In) Unit := do
  init_machine pf
  execute_loop pf fuel n

/-- The first `n` iterations of the loop of `execute_code` (fewer when the
program counter reaches 0 earlier): the machine as it stands after them. -/
def run_steps (pf : Platform F In) (fuel : Nat) : Nat → Exec (State F In) Unit
  | 0 => pure ()
  | n + 1 => do
    step pf fuel
    let s ← Exec.get
    if s.program_counter ≠ 0 then
      run_steps pf fuel n

/-- The machine after initialisation and the first `n` iterations. -/
def execute_first (pf : Platform F In) (fuel n : Nat) : Exec (State F In) Unit := do
  init_machine pf
  run_steps pf fuel n

/-! ## Loaded programs -/

/-- The code store after the instructions `prog` have been stored at addresses
1, 2, ...: every other slot holds a value-initialised `instruction`. -/
def code_of (pf : Platform F In) (prog : List (instruction F)) : Int → instruction F :=
  fun i =>
    if 1 ≤ i then
      (prog.get? (i - 1).toNat).getD
        { f := .fun_MST, l := 0, a := Memory_cell.mk_undef (pf.f_of_int 0) }
    else
      { f := .fun_MST, l := 0, a := Memory_cell.mk_undef (pf.f_of_int 0) }

/-- The globals when `execute_code` is entered with `prog` loaded: the data
store holds `Memory_cell()` everywhere, the current exception is
`program_abort_exception`, the registers are zero, nothing has been read or
written.  `input` is the state of `cin`. -/
def initial_state (pf : Platform F In) (prog : List (instruction F)) (input : In) :
    State F In :=
  { debugging_pal_code := false,
    data_store := fun _ => Memory_cell.mk_undef (pf.f_of_int 0),
    code_store := code_of pf prog,
    pal_exception := program_abort_exception,
    last_instruction := prog.length,
    program_counter := 0,
    base_register := 0,
    top_of_stack := 0,
    instruction_register := { f := .fun_MST, l := 0, a := Memory_cell.mk_undef (pf.f_of_int 0) },
    cin := input,
    cout := [],
    cerr := "" }

/-- An instruction with an integer operand, as `load` stores it. -/
def instr_int (pf : Platform F In) (f : fun_code) (l a : Int) : instruction F :=
  { f := f, l := l, a := Memory_cell.mk_int (pf.f_of_int 0) a }

/-- An `LCS` instruction, as `load` stores it. -/
def instr_str (pf : Platform F In) (l : Int) (str : String) : instruction F :=
  { f := .fun_LCS, l := l, a := Memory_cell.mk_string (pf.f_of_int 0) str }

end Machine

/-! ## A concrete run time

The programs run below write and convert no real number and contain no input
instruction; they are run on exact rational arithmetic and an empty standard
input. -/

/-- Six decimals after the point, as `std::to_string` prints a `float`.  It is
a stand-in in the closed examples, none of which writes a real number or
converts one to a string: `operator<<` formats a `float` in another way (six
significant digits), and a `float` is not an exact rational.  The theorems hold
for every `f_to_string` and `f_put`. -/
def rat_to_string (q : ℚ) : String :=
  let n : Nat := ((|q| * 1000000 + 1 / 2).floor).toNat
  let frac := toString (n % 1000000)
  (if q < 0 then "-" else "") ++ toString (n / 1000000) ++ "."
    ++ String.mk (List.replicate (6 - frac.length) (Char.ofNat 48)) ++ frac

/-- Exact rational arithmetic in the place of `float`; the state of `cin` is
its end-of-file flag, an extraction finds no characters, stores 0 and sets the
flag. -/
def ideal_platform : Platform ℚ Bool :=
  { f_of_int := fun i => (i : ℚ),
    f_neg := fun a => -a,
    f_add := fun a b => a + b,
    f_sub := fun a b => a - b,
    f_mul := fun a b => a * b,
    f_div := fun a b => a / b,
    f_eq := fun a b => decide (a = b),
    f_lt := fun a b => decide (a < b),
    f_le := fun a b => decide (a ≤ b),
    f_to_int := fun a => Int.tdiv a.num a.den,
    f_to_string := rat_to_string,
    f_put := rat_to_string,
    cin_int := fun _ => (0, true),
    cin_real := fun _ => (0, true),
    cin_eof := fun b => b }

/-- What a run leaves on standard output through OPR 20 and OPR 21, with the
way the run ended: `some true` for a return of `execute_code` (the program
counter reached 0), `some false` for an abnormal end, `none` when the fuel ran
out. -/
def run_summary {F In : Type} (o : Outcome (State F In) Unit) : Option (Bool × String) :=
  match o with
  | .ok _ s => some (true, s.program_output)
  | .aborted _ s => some (false, s.program_output)
  | .uncaught _ s => some (false, s.program_output)
  | .timeout => none

/-- The message of the fatal error a run ended in, if it ended in one. -/
def fatal_message {σ α : Type} (o : Outcome σ α) : Option String :=
  match o with
  | .aborted msg _ => some msg
  | _ => none

/-- The state a piece of the interpreter ends in. -/
def final_state {σ α : Type} (o : Outcome σ α) : Option σ :=
  match o with
  | .ok _ s => some s
  | .aborted _ s => some s
  | .uncaught _ s => some s
  | .timeout => none

/-! ## Notions used to state the properties -/

/-- The statement `m` leaves the component `g` of the state as it found it,
however it ends. -/
def Exec.Fixes {σ α γ : Type} (g : σ → γ) (m : Exec σ α) : Prop :=
  ∀ s s', final_state (m s) = some s' → g s' = g s

/-- A component of the machine state that does not depend on the standard
output and error streams or on `top_of_stack`. -/
def unwind_independent {F In γ : Type} (g : State F In → γ) : Prop :=
  ∀ (s : State F In) (t : Int) (c : List Output) (e : String),
    g { s with top_of_stack := t, cout := c, cerr := e } = g s

/-- The state in which `exec_instruction` runs during a `step` from `s`: the
listing line is written when debugging is on, the instruction register holds
the fetched instruction, the program counter is advanced. -/
def fetched {F In : Type} (pf : Platform F In) (s : State F In) : State F In :=
  { s with
    cout := if s.debugging_pal_code then
        s.cout ++ [Output.listing
          (instruction_listing pf s.program_counter (s.code_store s.program_counter))]
      else s.cout,
    instruction_register := s.code_store s.program_counter,
    program_counter := s.program_counter + 1 }

/-- The frame with base `lb` and the `n` frames below it on the dynamic chain
have no handler: each handler slot (cell base - 1) is `Int(0)`, each return
address (base - 2) and dynamic link (base - 3) is an `Int`, and the chain ends
in the main frame, base 5, whose four header cells are `Int(0)`. -/
def handlerless_chain {F : Type} (ds : Int → Memory_cell F) : Nat → Int → Prop
  | 0, lb => lb = 5 ∧ (ds 4).get_int = .ok 0 ∧ (ds 3).get_int = .ok 0
      ∧ (ds 2).get_int = .ok 0 ∧ (ds 1).get_int = .ok 0
  | n + 1, lb => (ds (lb - 1)).get_int = .ok 0 ∧ (∃ r, (ds (lb - 2)).get_int = .ok r)
      ∧ ∃ d, (ds (lb - 3)).get_int = .ok d ∧ d ≠ 0 ∧ handlerless_chain ds n d

/-- The base reached from `b` by following `n` static links (cell base - 4). -/
def follow_static_links {F : Type} (ds : Int → Memory_cell F) : Nat → Int → Int
  | 0, b => b
  | n + 1, b => follow_static_links ds n (ds (b - 4)).ivalue

/-- The first `n` static-link cells reached from `b` are `Int`. -/
def static_links_int {F : Type} (ds : Int → Memory_cell F) : Nat → Int → Prop
  | 0, _ => True
  | n + 1, b => (ds (b - 4)).type = types.types_INT ∧ static_links_int ds n (ds (b - 4)).ivalue

/-- A machine with the main frame set up (base 5, four header cells `Int(0)`)
whose operand stack holds `cells`, bottom first; `prog` is loaded and the
program counter is `p`. -/
def operand_state (prog : List (instruction ℚ)) (p : Int) (cells : List (Memory_cell ℚ)) :
    State ℚ Bool :=
  { initial_state ideal_platform prog false with
    data_store := fun i =>
      if 5 ≤ i then (cells.get? (i - 5).toNat).getD (Memory_cell.mk_undef 0)
      else if 1 ≤ i then Memory_cell.mk_int 0 0
      else Memory_cell.mk_undef 0,
    program_counter := p,
    base_register := 5,
    top_of_stack := 4 + cells.length }

/-- The instruction `OPR 0 k`. -/
def opr (k : Int) : instruction ℚ := instr_int ideal_platform .fun_OPR 0 k

/-- The instruction `LCI 0 i`. -/
def lci (i : Int) : instruction ℚ := instr_int ideal_platform .fun_LCI 0 i

/-- The instruction `LCS 0 'str'`. -/
def lcs (str : String) : instruction ℚ := instr_str ideal_platform 0 str

/-- The instruction `JMP 0 a`. -/
def jmp (a : Int) : instruction ℚ := instr_int ideal_platform .fun_JMP 0 a

/-- Scenario 4 of the specification: a handler is registered, a signal raised. -/
def program_handler : List (instruction ℚ) :=
  [instr_int ideal_platform .fun_REH 0 6, instr_int ideal_platform .fun_SIG 0 7,
   lcs "no", opr 20, jmp 0, lcs "caught", opr 20, opr 21, jmp 0]

/-- Scenario 3 of the specification: division by zero, no handler. -/
def program_divide : List (instruction ℚ) :=
  [lci 1, lci 0, opr 6, jmp 0]

/-- Scenario 2 of the specification: integer arithmetic. -/
def program_add : List (instruction ℚ) :=
  [lci 3, lci 4, opr 3, opr 20, opr 21, jmp 0]

/-- Scenario 6 of the specification: string concatenation. -/
def program_concat : List (instruction ℚ) :=
  [lcs "foo", lcs "bar", opr 8, opr 20, opr 21, jmp 0]

/-- A run-time error (division by zero) in a frame that has registered the
handler at address 8. -/
def program_error_handler : List (instruction ℚ) :=
  [instr_int ideal_platform .fun_REH 0 8, lci 1, lci 0, opr 6,
   lcs "no", opr 20, jmp 0, lcs "caught", opr 20, jmp 0]

/-- A run-time error in a procedure without handler, called from the main
program, which has registered the handler at address 10. -/
def program_callee_error : List (instruction ℚ) :=
  [instr_int ideal_platform .fun_REH 0 10, instr_int ideal_platform .fun_MST 0 0,
   instr_int ideal_platform .fun_CAL 0 5, jmp 0,
   lci 1, lci 0, opr 6, lcs "no", opr 20,
   lcs "caught", opr 20, jmp 0]

/-- The registers `(program_counter, base_register, top_of_stack)` a piece of
the interpreter returns with; `none` when it does not return. -/
def registers {F In : Type} (o : Outcome (State F In) Unit) : Option (Int × Int × Int) :=
  match o with
  | .ok _ s => some (s.program_counter, s.base_register, s.top_of_stack)
  | _ => none

/-- State `s'` is state `s` with its top two cells replaced by one cell that
satisfies `result`: the top of the stack is one lower, the result is in the
cell that held the next-to-top operand, no other cell has changed, and the
program counter and the base register are as they were. -/
def pops_to {F In : Type} (s s' : State F In) (result : Memory_cell F → Prop) : Prop :=
  s'.top_of_stack = s.top_of_stack - 1
    ∧ result (s'.data_store (s.top_of_stack - 1))
    ∧ (∀ i, i ≠ s.top_of_stack - 1 → s'.data_store i = s.data_store i)
    ∧ s'.program_counter = s.program_counter
    ∧ s'.base_register = s.base_register

/-- The message of the exception a piece of the interpreter let escape, if it
ended that way. -/
def uncaught_message {σ α : Type} (o : Outcome σ α) : Option String :=
  match o with
  | .uncaught msg _ => some msg
  | _ => none

/-- A component of the machine state that does not depend on the data store,
on `top_of_stack` or on the standard output and error streams. -/
def stack_independent {F In γ : Type} (g : State F In → γ) : Prop :=
  ∀ (s : State F In) (ds : Int → Memory_cell F) (t : Int) (c : List Output) (e : String),
    g { s with data_store := ds, top_of_stack := t, cout := c, cerr := e } = g s

/-- A procedure without handler, called from the main program that has
registered the handler at address 2, executes JIF on an `Int` cell. -/
def program_jif_unwind : List (instruction ℚ) :=
  [instr_int ideal_platform .fun_REH 0 2, instr_int ideal_platform .fun_MST 0 0,
   instr_int ideal_platform .fun_CAL 0 4, lci 7,
   instr_int ideal_platform .fun_JIF 0 0, jmp 0]

/-- The main program consists of a procedure return. -/
def program_return : List (instruction ℚ) := [opr 0]

/-- A program that does not end in a jump. -/
def program_no_jump : List (instruction ℚ) := [lci 1]

/-- The main program stores a string into its own handler slot, cell 4. -/
def program_store_header : List (instruction ℚ) :=
  [lcs "x", instr_int ideal_platform .fun_LDA 0 (-1), instr_int ideal_platform .fun_STI 0 0]

/-! ## The loader -/

/-- How `load` fails.  Every failure ends in `abort()`: a `string` is caught in
`load` itself, anything else by the `catch (...)` of `open_and_load`. -/
inductive load_failure where
  /-- The exception `throw("Instruction malformed: " + line)`. -/
  | instruction_malformed (line : List Char)
  /-- The exception `throw("Illegal instruction: " + tokens.at(0))`. -/
  | illegal_instruction (token : List Char)
  /-- The exception `throw "Too many instructions. Code store full."`. -/
  | code_store_full
  /-- The exception `throw("Malformed string: " + line)`. -/
  | malformed_string (line : List Char)
  /-- The exception `std::invalid_argument` of `std::stoi` or `std::stof`. -/
  | invalid_argument
  /-- The exception `std::out_of_range` of `std::stoi`, `std::stof` or `string::at`. -/
  | out_of_range
  deriving DecidableEq, Repr

/-- Size of instruction store. -/
def code_size : Nat := 10000

/-- Size of data store. -/
def store_size : Nat := 10000

/-- The single quote character. -/
def quote : Char := Char.ofNat 39

/-- The function `isspace` of the C locale: space, `\t`, `\n`, `\v`, `\f`, `\r`. -/
def isspace (c : Char) : Bool :=
  c == Char.ofNat 32 || c == Char.ofNat 9 || c == Char.ofNat 10 || c == Char.ofNat 11
    || c == Char.ofNat 12 || c == Char.ofNat 13

/-- The function `toupper` of the C locale. -/
def toupper (c : Char) : Char := c.toUpper

/-- The loop of `tokenize`: identify each token in the string separated by
white space.  `start` is the text from the iterator `start` up to the current
character, `none` when `start == end`; `v` is the vector built so far. -/
def tokenize_loop : List Char → Option (List Char) → List (List Char) → List (List Char)
  | [], none, v => v
  | [], some tok, v => v ++ [tok]
  | c :: cs, start, v =>
    if !isspace c then
      match start with
      | none => tokenize_loop cs (some [c]) v
      | some tok => tokenize_loop cs (some (tok ++ [c])) v
    else
      match start with
      | some tok => tokenize_loop cs none (v ++ [tok])
      | none => tokenize_loop cs none v

def tokenize (s : List Char) : List (List Char) := tokenize_loop s none []

/-- The digits of a decimal numeral, most significant first, added to `acc`. -/
def digits_value : List Char → Nat → Nat
  | [], acc => acc
  | c :: cs, acc => digits_value cs (acc * 10 + (c.toNat - 48))

/-- The library function `std::stoi(str)` as the C++ standard defines it:
leading white space is skipped, an optional sign and the longest run of
decimal digits are converted, whatever follows is ignored; no digit is
`std::invalid_argument`, a value that is not an `int` is `std::out_of_range`. -/
def stoi (str : List Char) : Except load_failure Int :=
  let body := str.dropWhile isspace
  let negative := body.head? = some (Char.ofNat 45)
  let unsigned :=
    if body.head? = some (Char.ofNat 45) ∨ body.head? = some (Char.ofNat 43) then body.tail
    else body
  let digits := unsigned.takeWhile Char.isDigit
  if digits = [] then .error .invalid_argument
  else
    let value : Int := if negative then -(digits_value digits 0 : Int) else digits_value digits 0
    if -2147483648 ≤ value ∧ value ≤ 2147483647 then .ok value else .error .out_of_range

/-- The accesses `line.at(pos)`, `line.at(pos + 1)`, ... of a loop
`while (p(line.at(pos))) pos++`: `rest` is the line from index `pos` on, so
its first character is `line.at(pos)` and the empty list is the access past
the end, which throws.  The result is the final `pos`. -/
def skip_while (p : Char → Bool) : List Char → Nat → Except load_failure Nat
  | [], _ => .error .out_of_range
  | c :: rest, pos => if p c then skip_while p rest (pos + 1) else .ok pos

/-- The loop `while ((pos < line.length()) and (line.at(pos) != '\'')) str = str + line.at(pos++)`,
with `rest` the line from index `pos` on: the final `str` and `pos`. -/
def copy_string : List Char → Nat → List Char → List Char × Nat
  | [], pos, str => (str, pos)
  | c :: rest, pos, str =>
    if c ≠ quote then copy_string rest (pos + 1) (str ++ [c]) else (str, pos)

/-- The scan that opens the LCS branch of `load`: find the beginning of the
third token.  The result is the value of `pos` when the opening-quote test is
reached; an access `line.at(pos)` past the end of the line throws. -/
def third_token_position (line : List Char) : Except load_failure Nat := do
  -- deal with leading whitespace
  let p0 ← skip_while isspace line 0
  -- skip a token and trailing whitespace, twice
  let p1 ← skip_while (fun c => !isspace c) (line.drop p0) p0
  let p2 ← skip_while isspace (line.drop p1) p1
  let p3 ← skip_while (fun c => !isspace c) (line.drop p2) p2
  skip_while isspace (line.drop p3) p3

/-- The LCS branch of `load` from the opening-quote test on, `pos` being at the
beginning of the third token: demand the opening quote, copy everything up to
the closing quote. -/
def quoted_string (line : List Char) (pos : Nat) : Except load_failure (List Char) :=
  match line.get? pos with
  | none => .error .out_of_range
  | some c =>
    if c ≠ quote then .error (.malformed_string line)
    else
      let r := copy_string (line.drop (pos + 1)) (pos + 1) []
      if r.2 = line.length ∨ r.1.length = 0 then .error (.malformed_string line)
      else .ok r.1

/-- The LCS branch of `load`: find the beginning of the third token, demand the
opening quote, copy everything up to the closing quote. -/
def load_string (line : List Char) : Except load_failure (List Char) := do
  let pos ← third_token_position line
  -- We are now at the beginning of the third token
  quoted_string line pos

/-- The function `strtofun` guarded by the membership test of `load`. -/
def strtofun (s : String) : Option fun_code :=
  (fun_code_map.find? (fun i => i.1 == s)).map Prod.snd

/-- The body of the loop of `load` for the line that goes to `code_store[top]`:
the instruction stored, or the exception thrown.  `zero` is the float literal
`0.0` and `stof` the library function `std::stof` (`none` when it throws). -/
def load_line {F : Type} (zero : F) (stof : List Char → Option F) (top : Nat)
    (line : List Char) : Except load_failure (instruction F) :=
  match tokenize line with
  | t0 :: t1 :: t2 :: _ =>
    match strtofun (String.mk (t0.map toupper)) with
    | none => .error (.illegal_instruction (t0.map toupper))
    | some instr => do
      let lev_diff ← stoi t1
      if top ≥ code_size then
        .error .code_store_full
      else if instr = fun_code.fun_LCR then
        match stof t2 with
        | some r => .ok { f := instr, l := lev_diff, a := Memory_cell.mk_real zero r }
        | none => .error .invalid_argument
      else if instr = fun_code.fun_LCS then do
        let str ← load_string line
        .ok { f := instr, l := lev_diff, a := Memory_cell.mk_string zero (String.mk str) }
      else do
        let v ← stoi t2
        .ok { f := instr, l := lev_diff, a := Memory_cell.mk_int zero v }
  | _ => .error (.instruction_malformed line)

/-- The loop of `load` over the lines `getline` delivers: `top` lines have been
stored in `code_store`.  The result is the code store and `last_instruction`,
or the value of `top` at the line that failed and the exception thrown there. -/
def load_lines {F : Type} (zero : F) (stof : List Char → Option F) :
    List (List Char) → Nat → (Int → instruction F) →
      Except (Nat × load_failure) ((Int → instruction F) × Nat)
  | [], top, code_store => .ok (code_store, top)
  | line :: rest, top, code_store =>
    match load_line zero stof (top + 1) line with
    | .error e => .error (top + 1, e)
    | .ok i =>
      load_lines zero stof rest (top + 1)
        (fun j => if j = ((top + 1 : Nat) : Int) then i else code_store j)

/-- The function `load` on the lines of the code file, starting from the code
store as the program starts with it. -/
def load {F : Type} (zero : F) (stof : List Char → Option F) (lines : List (List Char)) :
    Except (Nat × load_failure) ((Int → instruction F) × Nat) :=
  load_lines zero stof lines 0
    (fun _ => { f := .fun_MST, l := 0, a := Memory_cell.mk_undef zero })

/-- The `std::string` an exception of `load` carries; `none` when the object
thrown is not a `std::string`. -/
def load_failure.message : load_failure → Option String
  | .instruction_malformed line => some ("Instruction malformed: " ++ String.mk line)
  | .illegal_instruction token => some ("Illegal instruction: " ++ String.mk token)
  | .malformed_string line => some ("Malformed string: " ++ String.mk line)
  | _ => none

/-- What reaches `cerr` when `load` fails at the line that goes to
`code_store[top]`: a `std::string` is caught in `load`, any other exception by
the `catch (...)` of `open_and_load`. -/
def load_diagnostic (top : Nat) (e : load_failure) : String :=
  match e.message with
  | some msg => "EXCEPTION (instruction " ++ toString top ++ "): " ++ msg ++ "\n"
  | none => "EXCEPTION raised while reading from code file.\n"

/-- The lines `load` echoes on `cout` when a listing is asked for: `top`, four
blanks after the colon, the line.  `top` lines have been read before `lines`. -/
def load_echo : List (List Char) → Nat → List Output
  | [], _ => []
  | line :: rest, top =>
    Output.listing (toString (top + 1) ++ ":    " ++ String.mk line ++ "\n")
      :: load_echo rest (top + 1)

/-- The calls `load(code_file)` of `open_and_load` and `execute_code()` of
`main`, with the handlers that surround the first: a failure of `load` writes
its diagnostic and ends in `abort()` before `execute_code` is entered.  With a
listing asked for, `load` echoes every line it reads, the failing one included.
The progress and timing lines that `open_and_load` and `main` write on `cout`
around the two calls are the same for every code file and are left out. -/
def load_and_execute {F In : Type} (pf : Platform F In) (stof : List Char → Option F)
    (fuel n : Nat) (lines : List (List Char)) : Exec (State F In) Unit := fun s =>
  match load (pf.f_of_int 0) stof lines with
  | .error (top, e) =>
    Outcome.aborted (load_diagnostic top e)
      { s with
        cout := if s.debugging_pal_code then s.cout ++ load_echo (lines.take top) 0 else s.cout,
        cerr := s.cerr ++ load_diagnostic top e }
  | .ok r =>
    execute_code pf fuel n
      { s with
        code_store := r.1,
        last_instruction := r.2,
        cout := if s.debugging_pal_code then s.cout ++ load_echo lines 0 else s.cout }

/-- The machine has executed nothing between `s` and `s1`: the stores, the
registers, the input and the output of the program are as they were. -/
def nothing_executed {F In : Type} (s s1 : State F In) : Prop :=
  s1.data_store = s.data_store ∧ s1.code_store = s.code_store
    ∧ s1.last_instruction = s.last_instruction
    ∧ s1.program_counter = s.program_counter ∧ s1.base_register = s.base_register
    ∧ s1.top_of_stack = s.top_of_stack ∧ s1.pal_exception = s.pal_exception
    ∧ s1.instruction_register = s.instruction_register ∧ s1.cin = s.cin
    ∧ s1.debugging_pal_code = s.debugging_pal_code
    ∧ s1.program_output = s.program_output

/-- The third field of a line as the specification describes it: what is left
after the leading white space, two tokens and the white space after each. -/
def third_field (line : List Char) : List Char :=
  ((((line.dropWhile isspace).dropWhile (fun c => !isspace c)).dropWhile isspace).dropWhile
    (fun c => !isspace c)).dropWhile isspace

/-- A stand-in for `std::stof` in the closed examples, none of which has an
LCR line: it converts a run of digits and accepts nothing else, whereas the
library function also accepts a sign, a fraction, an exponent and trailing
characters.  The theorems about `load` hold for every `stof`. -/
def ideal_stof (str : List Char) : Option ℚ :=
  if str ≠ [] ∧ str.all Char.isDigit then some (digits_value str 0 : ℚ) else none

/-- The main program takes the only cell off its operand stack. -/
def program_drop : List (instruction ℚ) := [opr 24]

/-- An `Int` variable at address 5 is overwritten with a string by STO 0 0. -/
def program_store_retag : List (instruction ℚ) :=
  [lci 1, lcs "x", instr_int ideal_platform .fun_STO 0 0]

/-- The IEEE 754 binary32 value nearest to the integer `i` (24 significant
bits, ties to even), for `i` in the range of `int`: what the C++ conversion
`float(i)` yields where `float` is binary32. -/
def round_to_binary32 (i : Int) : Int :=
  let n := i.natAbs
  let e := ((List.range 8).filter (fun k => 2 ^ (24 + k) ≤ n)).length
  let q := n / 2 ^ e
  let r := n % 2 ^ e
  let rounded := if 2 * r > 2 ^ e ∨ (2 * r = 2 ^ e ∧ q % 2 = 1) then q + 1 else q
  if i < 0 then -((rounded * 2 ^ e : Nat) : Int) else ((rounded * 2 ^ e : Nat) : Int)

/-- The concrete run time with the conversion `float(i)` of IEEE 754 binary32. -/
def binary32_platform : Platform ℚ Bool :=
  { ideal_platform with f_of_int := fun i => (round_to_binary32 i : ℚ) }

/-- A token begins with a decimal signed integer: an optional sign, then at
least one digit. -/
def begins_with_integer (tok : List Char) : Bool :=
  match tok with
  | [] => false
  | c :: rest =>
    if c = Char.ofNat 45 ∨ c = Char.ofNat 43 then
      (match rest with
        | [] => false
        | d :: _ => d.isDigit)
    else c.isDigit

/-- A line every field of which `load` accepts: the line is loaded when the
code store has room for it. -/
def well_formed_line {F : Type} (zero : F) (stof : List Char → Option F)
    (line : List Char) : Prop :=
  ∃ i, load_line zero stof 1 line = Except.ok i

/-- An object file whose first line has the level field 3x. -/
def program_level_suffix : List (List Char) :=
  ["LCI 3x 5".toList, "OPR 0 20".toList, "JMP 0 0".toList]

/-- An object file that writes a string with blanks and a tab in it; the
mnemonic is in lower case and a comment follows the closing quote. -/
def program_string_lines : List (List Char) :=
  ["lcs 0 \x27 a\tb \x27 the text".toList, "OPR 0 20".toList, "JMP 0 0".toList]

/-- The code store `load` leaves for `program_string_lines`. -/
def program_string_code : Int → instruction ℚ :=
  match load (0 : ℚ) ideal_stof program_string_lines with
  | .ok r => r.1
  | .error _ => fun _ => { f := .fun_MST, l := 0, a := Memory_cell.mk_undef 0 }

/-- An object file with a level field that is not a number in its second line. -/
def program_bad_level : List (List Char) :=
  ["LCI 0 5".toList, "LCI x3 5".toList, "JMP 0 0".toList]

/-- An object file with a string literal that is never closed in its second line. -/
def program_open_string : List (List Char) :=
  ["LCI 0 5".toList, "LCS 0 \x27abc".toList, "JMP 0 0".toList]


/-- The main program registers a handler at address 99 although the program
has two instructions. -/
def program_bad_handler : List (instruction ℚ) :=
  [instr_int ideal_platform .fun_REH 0 99, jmp 0]

/-- The frames the loop of `unwind` visits when it starts at the frame with
base `lb`: that frame, and the frame the dynamic link (cell base - 3) of a
visited frame designates when the handler slot (cell base - 1) of the visited
frame is `Int(0)` and the link is not 0. -/
inductive unwind_visits {F : Type} (ds : Int → Memory_cell F) (lb : Int) : Int → Prop where
  | start : unwind_visits ds lb lb
  | next (b d : Int) : unwind_visits ds lb b → (ds (b - 1)).get_int = .ok 0 →
      (ds (b - 3)).get_int = .ok d → d ≠ 0 → unwind_visits ds lb d

/-- The frame with base `b` has an `Int` handler slot, an `Int` return address
and an `Int` dynamic link `d` with `0 <= d < b`. -/
def frame_links_down {F : Type} (ds : Int → Memory_cell F) (b : Int) : Prop :=
  (ds (b - 1)).is_int = true ∧ (ds (b - 2)).is_int = true
    ∧ ∃ d, (ds (b - 3)).get_int = .ok d ∧ 0 ≤ d ∧ d < b

/-- A frame with base 8 whose dynamic link is 8 is built by hand and entered
with CAL 0 5; the instruction at 5 raises a run-time error (JIF on an `Int`). -/
def program_self_link : List (instruction ℚ) :=
  [lci 8, lci 0, lci 0, instr_int ideal_platform .fun_CAL 0 5,
   instr_int ideal_platform .fun_JIF 0 0]

/-- The Boolean that OPR 0 k leaves in the top cell when it is executed in
state `s`; `none` when it does not return or the top cell is not a Boolean. -/
def compare_result {F In : Type} (pf : Platform F In) (fuel : Nat) (k : Int)
    (s : State F In) : Option Bool :=
  match exec_instruction pf fuel (instr_int pf .fun_OPR 0 k) s with
  | .ok _ s1 =>
    (match (s1.data_store s1.top_of_stack).get_boolean with
      | .ok b => some b
      | .error _ => none)
  | _ => none

/-- The state `s` with its top two cells exchanged. -/
def swap_operands {F In : Type} (s : State F In) : State F In :=
  { s with data_store := fun j =>
      if j = s.top_of_stack - 1 then s.data_store s.top_of_stack
      else if j = s.top_of_stack then s.data_store (s.top_of_stack - 1)
      else s.data_store j }

/-- Between `s1` and `s2` the program has pushed `m` cells: T is `m` higher, B
is as it was, and no cell up to the old T has changed. -/
def pushed_cells {F In : Type} (m : Int) (s1 s2 : State F In) : Prop :=
  s2.top_of_stack = s1.top_of_stack + m ∧ s2.base_register = s1.base_register
    ∧ ∀ i, i ≤ s1.top_of_stack → s2.data_store i = s1.data_store i

/-- A procedure call with two parameters whose body returns at once. -/
def program_call_return : List (instruction ℚ) :=
  [instr_int ideal_platform .fun_MST 0 0, lci 7, lci 8,
   instr_int ideal_platform .fun_CAL 2 6, jmp 0, opr 0]

end PAL

/-! ## Reasoning about `Exec` -/

namespace PAL

section Lemmas

variable {F In : Type}

@[simp] theorem Exec.bind_apply {σ α β : Type} (m : Exec σ α) (f : α → Exec σ β) (s : σ) :
    (m >>= f) s = Exec.bind m f s := rfl

@[simp] theorem Exec.pure_apply {σ α : Type} (a : α) (s : σ) :
    (Pure.pure a : Exec σ α) s = Outcome.ok a s := rfl

@[simp] theorem Exec.get_apply {σ : Type} (s : σ) : (Exec.get : Exec σ σ) s = Outcome.ok s s := rfl

@[simp] theorem Exec.modify_apply {σ : Type} (f : σ → σ) (s : σ) :
    Exec.modify f s = Outcome.ok () (f s) := rfl

@[simp] theorem Exec.lift_ok {σ α : Type} (a : α) (s : σ) :
    (Exec.lift (Except.ok a) : Exec σ α) s = Outcome.ok a s := rfl

@[simp] theorem Exec.lift_error {σ α : Type} (msg : String) (s : σ) :
    (Exec.lift (Except.error msg) : Exec σ α) s = Outcome.uncaught msg s := rfl

@[simp] theorem Exec.bind_ok {σ α β : Type} (m : Exec σ α) (f : α → Exec σ β) (s s1 : σ) (a : α)
    (h : m s = Outcome.ok a s1) : Exec.bind m f s = f a s1 := by
  simp [Exec.bind, h]

theorem Memory_cell.get_int_eq_ok {c : Memory_cell F} {a : Int} :
    c.get_int = Except.ok a ↔ c.type = types.types_INT ∧ c.ivalue = a := by
  unfold Memory_cell.get_int
  split <;> simp_all

theorem Memory_cell.get_boolean_eq_ok {c : Memory_cell F} {a : Bool} :
    c.get_boolean = Except.ok a ↔ c.type = types.types_BOOLEAN ∧ c.bvalue = a := by
  unfold Memory_cell.get_boolean
  split <;> simp_all

theorem Memory_cell.get_string_eq_ok {c : Memory_cell F} {a : String} :
    c.get_string = Except.ok a ↔ c.type = types.types_STRING ∧ c.svalue = a := by
  unfold Memory_cell.get_string
  split <;> simp_all

theorem Memory_cell.get_real_eq_ok {c : Memory_cell F} {a : F} :
    c.get_real = Except.ok a ↔ c.type = types.types_REAL ∧ c.rvalue = a := by
  unfold Memory_cell.get_real
  split <;> simp_all

/-- An OPR instruction runs the operation its operand names. -/
theorem exec_instruction_opr (pf : Platform F In) (fuel : Nat) (ir : instruction F) (k : Int)
    (hf : ir.f = fun_code.fun_OPR) (hk : ir.a.get_int = Except.ok k) (s : State F In) :
    exec_instruction pf fuel ir s = exec_opr pf fuel k s := by
  simp [exec_instruction, hf, hk, Exec.bind]

theorem exec_opr_arith (pf : Platform F In) (fuel : Nat) (k : Int)
    (hk : k = 3 ∨ k = 4 ∨ k = 5 ∨ k = 6) (s : State F In) :
    exec_opr pf fuel k s = opr_arith pf fuel k s := by
  rcases hk with h | h | h | h <;> subst h <;> simp [exec_opr, Exec.bind]

end Lemmas

end PAL

namespace PAL

section Frames

variable {F In : Type} {σ α β γ : Type}

theorem Exec.Fixes.pure (g : σ → γ) (a : α) : Exec.Fixes g (Pure.pure a : Exec σ α) := by
  intro s s' h
  simp [final_state] at h
  rw [h]

theorem Exec.Fixes.get (g : σ → γ) : Exec.Fixes g (Exec.get : Exec σ σ) := by
  intro s s' h
  simp [final_state] at h
  rw [h]

theorem Exec.Fixes.lift (g : σ → γ) (e : Except String α) :
    Exec.Fixes g (Exec.lift e : Exec σ α) := by
  intro s s' h
  cases e <;> simp [final_state] at h <;> rw [h]

theorem Exec.Fixes.modify (g : σ → γ) (f : σ → σ) (hf : ∀ s, g (f s) = g s) :
    Exec.Fixes g (Exec.modify f) := by
  intro s s' h
  simp [final_state] at h
  rw [← h, hf]

theorem Exec.Fixes.bind {g : σ → γ} {m : Exec σ α} {f : α → Exec σ β}
    (hm : Exec.Fixes g m) (hf : ∀ a, Exec.Fixes g (f a)) : Exec.Fixes g (m >>= f) := by
  intro s s' h
  simp only [Exec.bind_apply, Exec.bind] at h
  cases hms : m s with
  | ok a s1 =>
    rw [hms] at h
    have h1 := hm s s1 (by simp [hms, final_state])
    have h2 := hf a s1 s' h
    rw [h2, h1]
  | aborted msg s1 =>
    rw [hms] at h
    have h1 := hm s s1 (by simp [hms, final_state])
    simp [final_state] at h
    rw [← h, h1]
  | uncaught msg s1 =>
    rw [hms] at h
    have h1 := hm s s1 (by simp [hms, final_state])
    simp [final_state] at h
    rw [← h, h1]
  | timeout =>
    rw [hms] at h
    simp [final_state] at h

theorem Exec.Fixes.ite {g : σ → γ} (c : Prop) [Decidable c] {a b : Exec σ α}
    (ha : Exec.Fixes g a) (hb : Exec.Fixes g b) : Exec.Fixes g (if c then a else b) := by
  split
  · exact ha
  · exact hb

theorem put_listing_fixes {g : State F In → γ} (hg : unwind_independent g) (text : String) :
    Exec.Fixes g (put_listing text : Exec (State F In) Unit) := by
  apply Exec.Fixes.modify
  intro s
  exact hg s s.top_of_stack _ s.cerr

theorem put_cerr_fixes {g : State F In → γ} (hg : unwind_independent g) (text : String) :
    Exec.Fixes g (put_cerr text : Exec (State F In) Unit) := by
  apply Exec.Fixes.modify
  intro s
  exact hg s s.top_of_stack s.cout _

theorem trace_stack_fixes {g : State F In → γ} (hg : unwind_independent g)
    (pf : Platform F In) (p b t : Int) :
    Exec.Fixes g (trace_stack pf p b t) := by
  intro s s' h
  exact put_listing_fixes hg _ s s' h

theorem fatal_error_fixes {g : State F In → γ} (hg : unwind_independent g) {α : Type}
    (pf : Platform F In) (message : String) :
    Exec.Fixes g (fatal_error pf message : Exec (State F In) α) := by
  intro s s' h
  simp [fatal_error, Exec.bind, put_cerr, trace_stack, put_listing, final_state] at h
  rw [← h]
  exact hg s _ _ _

theorem unwind_loop_fixes {g : State F In → γ} (hg : unwind_independent g)
    (pf : Platform F In) (fuel : Nat) (exc lp lb : Int) :
    Exec.Fixes g (unwind_loop pf fuel exc lp lb) := by
  induction fuel generalizing lp lb with
  | zero =>
    intro s s' h
    simp [unwind_loop, final_state] at h
  | succ n ih =>
    rw [unwind_loop]
    repeat' with_reducible (first
      | apply Exec.Fixes.bind
      | apply Exec.Fixes.ite
      | apply Exec.Fixes.pure
      | apply Exec.Fixes.get
      | apply Exec.Fixes.lift
      | apply put_listing_fixes hg
      | apply trace_stack_fixes hg
      | apply fatal_error_fixes hg
      | apply ih
      | intro _
      | dsimp only
      | (apply Exec.Fixes.modify; intro s; with_unfolding_all exact hg s _ s.cout s.cerr))

theorem unwind_fixes {g : State F In → γ} (hg : unwind_independent g)
    (pf : Platform F In) (fuel : Nat) (exc lp lb : Int) :
    Exec.Fixes g (unwind pf fuel exc lp lb) := by
  unfold unwind
  repeat' with_reducible (first
    | apply Exec.Fixes.bind
    | apply Exec.Fixes.ite
    | apply Exec.Fixes.pure
    | apply Exec.Fixes.get
    | apply put_listing_fixes hg
    | apply trace_stack_fixes hg
    | apply unwind_loop_fixes hg
    | intro _)

/-- Whatever `error` does, it reads and writes only the streams and
`top_of_stack`. -/
theorem error_fixes {g : State F In → γ} (hg : unwind_independent g)
    (pf : Platform F In) (fuel : Nat) (message : String) (exc : Int) :
    Exec.Fixes g (error pf fuel message exc) := by
  unfold error
  repeat' with_reducible (first
    | apply Exec.Fixes.bind
    | apply Exec.Fixes.get
    | apply put_cerr_fixes hg
    | apply trace_stack_fixes hg
    | apply unwind_fixes hg
    | intro _)

theorem base_loop_fixes {g : State F In → γ} (hg : unwind_independent g)
    (pf : Platform F In) (fuel lev : Nat) (b1 : Int) :
    Exec.Fixes g (base_loop pf fuel lev b1) := by
  induction lev generalizing b1 with
  | zero =>
    rw [base_loop]
    exact Exec.Fixes.pure g b1
  | succ n ih =>
    rw [base_loop]
    repeat' with_reducible (first
      | apply Exec.Fixes.bind
      | apply Exec.Fixes.ite
      | apply Exec.Fixes.get
      | apply Exec.Fixes.lift
      | apply error_fixes hg
      | apply ih
      | intro _)

theorem base_fixes {g : State F In → γ} (hg : unwind_independent g)
    (pf : Platform F In) (fuel : Nat) (l : Int) :
    Exec.Fixes g (base pf fuel l) := by
  unfold base
  repeat' with_reducible (first
    | apply Exec.Fixes.bind
    | apply Exec.Fixes.get
    | apply base_loop_fixes hg
    | intro _)

theorem data_store_independent :
    unwind_independent (fun s : State F In => s.data_store) := by
  intro s t c e
  rfl

theorem program_counter_independent :
    unwind_independent (fun s : State F In => s.program_counter) := by
  intro s t c e
  rfl

theorem base_register_independent :
    unwind_independent (fun s : State F In => s.base_register) := by
  intro s t c e
  rfl

theorem pal_exception_independent :
    unwind_independent (fun s : State F In => s.pal_exception) := by
  intro s t c e
  rfl

end Frames

end PAL

/-! ## Unwinding -/

namespace PAL

section Unwinding

variable {F In : Type}

theorem fatal_error_eq {α : Type} (pf : Platform F In) (message : String) (s : State F In) :
    (fatal_error pf message : Exec (State F In) α) s = Outcome.aborted message
      { s with
        cout := s.cout ++ [Output.listing
          (stack_dump pf { s with cerr := s.cerr ++ ("*** FATAL Run-time error: " ++ message ++ "\n")
              ++ ("     At address: " ++ toString (s.program_counter - 1) ++ ".\n") }
            s.program_counter s.top_of_stack)],
        cerr := s.cerr ++ ("*** FATAL Run-time error: " ++ message ++ "\n")
          ++ ("     At address: " ++ toString (s.program_counter - 1) ++ ".\n") ++ "\n" } := by
  simp [fatal_error, Exec.bind, put_cerr, trace_stack, put_listing]

theorem Memory_cell.is_int_of_get_int {c : Memory_cell F} {a : Int}
    (h : c.get_int = Except.ok a) : c.is_int = true := by
  have h1 := (Memory_cell.get_int_eq_ok.mp h).1
  simp [Memory_cell.is_int, h1]

/-- With no handler on the dynamic chain the loop of `unwind` discards every
frame and ends in the fatal error, given one unit of fuel per frame. -/
theorem unwind_loop_never_handled (pf : Platform F In) (exc : Int) (n : Nat) :
    ∀ (lb lp : Int) (s : State F In) (fuel : Nat),
      handlerless_chain s.data_store n lb → n < fuel →
      ∃ s', unwind_loop pf fuel exc lp lb s = Outcome.aborted "Exception never handled." s'
        ∧ s'.top_of_stack = 0 ∧ s'.data_store = s.data_store := by
  induction n with
  | zero =>
    intro lb lp s fuel hc hlt
    obtain ⟨h5, h4, h3, h2, _⟩ := hc
    subst h5
    obtain ⟨m, rfl⟩ : ∃ m, fuel = m + 1 := ⟨fuel - 1, by omega⟩
    have hi := Memory_cell.is_int_of_get_int h4
    rw [unwind_loop]
    cases hd : s.debugging_pal_code <;>
      simp [Exec.bind, hd, hi, h4, h3, h2, put_listing, trace_stack, fatal_error_eq]
  | succ k ih =>
    intro lb lp s fuel hc hlt
    obtain ⟨h1, ⟨r, hr⟩, d, hd1, hd0, hrest⟩ := hc
    obtain ⟨m, rfl⟩ : ∃ m, fuel = m + 1 := ⟨fuel - 1, by omega⟩
    have hi := Memory_cell.is_int_of_get_int h1
    have e3 : lb - 5 + 3 = lb - 2 := by ring
    have e2 : lb - 5 + 2 = lb - 3 := by ring
    rw [unwind_loop]
    cases hd : s.debugging_pal_code <;>
      simp [Exec.bind, hd, hi, h1, e3, e2, hr, hd1, hd0, put_listing, trace_stack] <;>
      apply ih <;> first | exact hrest | omega
end Unwinding

end PAL

/-! ## Raising and unwinding (C1 - C4) -/

namespace PAL

section Signals

variable {F In : Type}

theorem error_eq (pf : Platform F In) (fuel : Nat) (message : String) (exc : Int)
    (s : State F In) :
    error pf fuel message exc s = unwind pf fuel exc s.program_counter s.base_register
      { s with
        cout := s.cout ++ [Output.listing
          (stack_dump pf { s with cerr := s.cerr ++ ("*** Run-time error: " ++ message ++ "\n")
              ++ ("     At address: " ++ toString (s.program_counter - 1) ++ ".\n") }
            s.program_counter s.top_of_stack)],
        cerr := s.cerr ++ ("*** Run-time error: " ++ message ++ "\n")
          ++ ("     At address: " ++ toString (s.program_counter - 1) ++ ".\n") ++ "\n\n" } := by
  simp [error, Exec.bind, put_cerr, trace_stack, put_listing]

theorem unwind_never_handled (pf : Platform F In) (exc : Int) (n : Nat) (lb lp : Int)
    (s : State F In) (fuel : Nat) (hc : handlerless_chain s.data_store n lb) (hlt : n < fuel) :
    ∃ s', unwind pf fuel exc lp lb s = Outcome.aborted "Exception never handled." s'
      ∧ s'.top_of_stack = 0 ∧ s'.data_store = s.data_store := by
  obtain ⟨s', h, ht, hd⟩ := unwind_loop_never_handled pf exc n lb lp s fuel hc hlt
  exact ⟨s', by simp [unwind, Exec.bind, h], ht, hd⟩

/-- A run-time error in a frame whose dynamic chain has no handler ends the run
in the fatal error. -/
theorem error_never_handled (pf : Platform F In) (message : String) (exc : Int) (n : Nat)
    (s : State F In) (fuel : Nat)
    (hc : handlerless_chain s.data_store n s.base_register) (hlt : n < fuel) :
    ∃ s', error pf fuel message exc s = Outcome.aborted "Exception never handled." s'
      ∧ s'.top_of_stack = 0 ∧ s'.data_store = s.data_store := by
  rw [error_eq]
  exact unwind_never_handled pf exc n _ _ _ fuel hc hlt

/-- C1 (the code does not do what the claim says): the program of scenario 4,
REH 0 6; SIG 0 7; LCS 0 'no'; OPR 0 20; JMP 0 0; LCS 0 'caught'; OPR 0 20;
OPR 0 21; JMP 0 0, run from the initial state, returns normally having written
"no", not "caught\n": SIG 0 7 sets the current exception and falls through to
the next instruction, control is not transferred to the handler at address 6. -/
theorem C1_signal_falls_through :
    run_summary (execute_code ideal_platform 100 100
        (initial_state ideal_platform program_handler false)) = some (true, "no")
      ∧ (final_state (execute_first ideal_platform 100 2
          (initial_state ideal_platform program_handler false))).map
            (fun s => (s.pal_exception, s.program_counter)) = some (7, 3) := by
  constructor <;> decide!

/-- C2 (the code does not do what the claim says): when `unwind` succeeds only
`top_of_stack` is committed.  In the first program the division by zero at
address 4 happens in the main frame, which has registered the handler at
address 8: `unwind` finds it and returns, and the registers are (PC, B, T) =
(5, 5, 5), the program counter is not 8, and the run goes on to write "no".
In the second program the error happens at address 7 in a called procedure
(base 9) and the handler at address 10 belongs to the main frame (base 5):
after `unwind` the registers are (8, 9, 4), not (10, 5, 4). -/
theorem C2_unwind_commits_only_top :
    registers (execute_first ideal_platform 100 4
        (initial_state ideal_platform program_error_handler false)) = some (5, 5, 5)
      ∧ run_summary (execute_code ideal_platform 100 100
        (initial_state ideal_platform program_error_handler false)) = some (true, "no")
      ∧ registers (execute_first ideal_platform 100 5
        (initial_state ideal_platform program_callee_error false)) = some (7, 9, 10)
      ∧ registers (execute_first ideal_platform 100 6
        (initial_state ideal_platform program_callee_error false)) = some (8, 9, 4) := by
  refine ⟨?_, ?_, ?_, ?_⟩ <;> decide!

/-- C3: in every state in which no frame on the dynamic chain from the frame
with base `lb` down to the main frame has a handler (handler slots `Int(0)`,
`Int` dynamic links and return addresses), `unwind` does not return: given
more fuel than there are frames below `lb` it ends in the fatal error
"Exception never handled.", having discarded all frames (top of stack 0). -/
theorem C3_unwind_never_handled (pf : Platform F In) (exc lp lb : Int) (n fuel : Nat)
    (s : State F In) (hc : handlerless_chain s.data_store n lb) (hlt : n < fuel) :
    ∃ s', unwind pf fuel exc lp lb s = Outcome.aborted "Exception never handled." s'
      ∧ s'.top_of_stack = 0 := by
  obtain ⟨s', h, ht, _⟩ := unwind_never_handled pf exc n lb lp s fuel hc hlt
  exact ⟨s', h, ht⟩

theorem C3_unwind_never_handled_witness :
    handlerless_chain (operand_state [] 1 []).data_store 0 5 ∧ 0 < 1
      ∧ ∃ s', unwind ideal_platform 1 program_abort_exception 1 5 (operand_state [] 1 [])
          = Outcome.aborted "Exception never handled." s' ∧ s'.top_of_stack = 0 :=
  ⟨⟨rfl, rfl, rfl, rfl, rfl⟩, by decide,
    C3_unwind_never_handled ideal_platform program_abort_exception 1 5 0 1 (operand_state [] 1 [])
      ⟨rfl, rfl, rfl, rfl, rfl⟩ (by decide)⟩

end Signals

end PAL

/-! ## One iteration of the loop -/

namespace PAL

section Step

variable {F In : Type}

/-- A `step` is the fetch followed by the instruction and, when debugging is
on, a stack dump. -/
theorem step_eq (pf : Platform F In) (fuel : Nat) (s : State F In) :
    step pf fuel s
      = Exec.bind (exec_instruction pf fuel (s.code_store s.program_counter))
          (fun _ s2 => if s2.debugging_pal_code then
              trace_stack pf s2.program_counter s2.base_register s2.top_of_stack s2
            else Outcome.ok () s2)
          (fetched pf s) := by
  cases hd : s.debugging_pal_code <;>
    simp [step, Exec.bind, fetched, hd, put_listing] <;>
    cases exec_instruction pf fuel (s.code_store s.program_counter) _ <;> simp <;>
    split <;> simp_all

theorem step_of_exec_ok (pf : Platform F In) (fuel : Nat) (s s1 : State F In)
    (h : exec_instruction pf fuel (s.code_store s.program_counter) (fetched pf s)
      = Outcome.ok () s1) :
    ∃ s', step pf fuel s = Outcome.ok () s' ∧ s'.data_store = s1.data_store
      ∧ s'.program_counter = s1.program_counter ∧ s'.base_register = s1.base_register
      ∧ s'.top_of_stack = s1.top_of_stack ∧ s'.pal_exception = s1.pal_exception
      ∧ s'.cerr = s1.cerr := by
  rw [step_eq]
  cases hd : s1.debugging_pal_code <;>
    simp [Exec.bind, h, hd, trace_stack, put_listing]

theorem step_of_exec_aborted (pf : Platform F In) (fuel : Nat) (s s1 : State F In)
    (msg : String)
    (h : exec_instruction pf fuel (s.code_store s.program_counter) (fetched pf s)
      = Outcome.aborted msg s1) :
    step pf fuel s = Outcome.aborted msg s1 := by
  rw [step_eq]
  simp [Exec.bind, h]

/-- What a `step` returns comes from the instruction it executed. -/
theorem exec_of_step_ok (pf : Platform F In) (fuel : Nat) (s s' : State F In)
    (h : step pf fuel s = Outcome.ok () s') :
    ∃ s1, exec_instruction pf fuel (s.code_store s.program_counter) (fetched pf s)
        = Outcome.ok () s1 ∧ s'.data_store = s1.data_store
      ∧ s'.program_counter = s1.program_counter ∧ s'.base_register = s1.base_register
      ∧ s'.top_of_stack = s1.top_of_stack ∧ s'.pal_exception = s1.pal_exception
      ∧ s'.cerr = s1.cerr := by
  rw [step_eq] at h
  cases he : exec_instruction pf fuel (s.code_store s.program_counter) (fetched pf s) with
  | ok a s1 =>
    refine ⟨s1, rfl, ?_⟩
    cases hd : s1.debugging_pal_code <;>
      simp [Exec.bind, he, hd, trace_stack, put_listing] at h <;>
      subst h <;> simp
  | aborted msg s1 => simp [Exec.bind, he] at h
  | uncaught msg s1 => simp [Exec.bind, he] at h
  | timeout => simp [Exec.bind, he] at h

theorem execute_loop_of_step_aborted (pf : Platform F In) (fuel n : Nat) (s s1 : State F In)
    (msg : String) (h : step pf fuel s = Outcome.aborted msg s1) :
    execute_loop pf fuel (n + 1) s = Outcome.aborted msg s1 := by
  rw [execute_loop]
  simp [Exec.bind, h]

end Step

end PAL

/-! ## Arithmetic (C4 - C7) -/

namespace PAL

section Arithmetic

variable {F In : Type}

theorem wrap_int_of_in_range (z : Int) (h : in_int_range z) : wrap_int z = z := by
  unfold in_int_range at h
  unfold wrap_int
  omega

theorem wrap_int_in_range (z : Int) : in_int_range (wrap_int z) := by
  unfold in_int_range wrap_int
  omega

theorem wrap_int_mul_left (a b : Int) : wrap_int (wrap_int a * b) = wrap_int (a * b) := by
  have h : wrap_int a = a - 4294967296 * ((a + 2147483648) / 4294967296) := by
    unfold wrap_int
    omega
  rw [h]
  unfold wrap_int
  have e : (a - 4294967296 * ((a + 2147483648) / 4294967296)) * b + 2147483648
      = a * b + 2147483648 + 4294967296 * (-(((a + 2147483648) / 4294967296) * b)) := by
    ring
  rw [e, Int.add_mul_emod_self_left]

/-- The division of OPR 6 by `Int(0)` is the run-time error "Divide by integer 0." -/
theorem opr_divide_by_zero (pf : Platform F In) (fuel : Nat) (s : State F In)
    (ir : instruction F) (a : Int)
    (hf : ir.f = fun_code.fun_OPR) (hk : ir.a.get_int = Except.ok 6)
    (ha : (s.data_store (s.top_of_stack - 1)).get_int = Except.ok a)
    (hb : (s.data_store s.top_of_stack).get_int = Except.ok 0) :
    exec_instruction pf fuel ir s
      = error pf fuel "Divide by integer 0." program_abort_exception
          { s with top_of_stack := s.top_of_stack - 1 } := by
  have ha' := Memory_cell.get_int_eq_ok.mp ha
  have hb' := Memory_cell.get_int_eq_ok.mp hb
  rw [exec_instruction_opr pf fuel ir 6 hf hk, exec_opr_arith pf fuel 6 (by simp)]
  simp [Exec.bind, opr_arith, Memory_cell.get_type, ha', hb', ha, hb]

/-- C4: in every state whose top two cells are `Int(a)` below `Int(0)`, OPR 0 6
stores no quotient (the data store is left as it was) and takes the run-time
error path, `error` with `program_abort_exception`; when no frame of the
dynamic chain has a handler the instruction, and with it the loop of
`execute_code`, ends in the fatal error and does not return.  The program
LCI 0 1; LCI 0 0; OPR 0 6; JMP 0 0 run from the initial state ends in the fatal
error "Exception never handled." with nothing written by OPR 20 or OPR 21. -/
theorem C4_divide_by_zero (pf : Platform F In) (fuel : Nat) (s : State F In)
    (ir : instruction F) (a : Int)
    (hf : ir.f = fun_code.fun_OPR) (hk : ir.a.get_int = Except.ok 6)
    (ha : (s.data_store (s.top_of_stack - 1)).get_int = Except.ok a)
    (hb : (s.data_store s.top_of_stack).get_int = Except.ok 0) :
    exec_instruction pf fuel ir s
        = error pf fuel "Divide by integer 0." program_abort_exception
            { s with top_of_stack := s.top_of_stack - 1 }
      ∧ (∀ s', final_state (exec_instruction pf fuel ir s) = some s' →
          s'.data_store = s.data_store)
      ∧ (∀ n, handlerless_chain s.data_store n s.base_register → n < fuel →
          ∃ s', exec_instruction pf fuel ir s
            = Outcome.aborted "Exception never handled." s')
      ∧ (∀ (n m : Nat) (s0 : State F In), s0.code_store s0.program_counter = ir →
          fetched pf s0 = s → handlerless_chain s.data_store n s.base_register → n < fuel →
          ∃ s', execute_loop pf fuel (m + 1) s0
            = Outcome.aborted "Exception never handled." s')
      ∧ run_summary (execute_code ideal_platform 100 100
          (initial_state ideal_platform program_divide false)) = some (false, "")
      ∧ fatal_message (execute_code ideal_platform 100 100
          (initial_state ideal_platform program_divide false))
          = some "Exception never handled." := by
  have h0 := opr_divide_by_zero pf fuel s ir a hf hk ha hb
  have habort : ∀ n, handlerless_chain s.data_store n s.base_register → n < fuel →
      ∃ s', exec_instruction pf fuel ir s
        = Outcome.aborted "Exception never handled." s' := by
    intro n hc hlt
    rw [h0]
    obtain ⟨s', h, _, _⟩ := error_never_handled pf "Divide by integer 0."
      program_abort_exception n { s with top_of_stack := s.top_of_stack - 1 } fuel hc hlt
    exact ⟨s', h⟩
  refine ⟨h0, ?_, habort, ?_, by decide!, by decide!⟩
  · intro s' h
    rw [h0] at h
    exact error_fixes data_store_independent pf fuel "Divide by integer 0."
      program_abort_exception { s with top_of_stack := s.top_of_stack - 1 } s' h
  · intro n m s0 hir hs hc hlt
    obtain ⟨s', h⟩ := habort n hc hlt
    refine ⟨s', execute_loop_of_step_aborted pf fuel m s0 s' _ ?_⟩
    apply step_of_exec_aborted
    rw [hir, hs]
    exact h

theorem C4_divide_by_zero_witness :
    ((operand_state [] 1 [Memory_cell.mk_int 0 1, Memory_cell.mk_int 0 0]).data_store 5).get_int
        = Except.ok 1
      ∧ exec_instruction ideal_platform 1 (opr 6)
          (operand_state [] 1 [Memory_cell.mk_int 0 1, Memory_cell.mk_int 0 0])
        = error ideal_platform 1 "Divide by integer 0." program_abort_exception
            { operand_state [] 1 [Memory_cell.mk_int 0 1, Memory_cell.mk_int 0 0] with
              top_of_stack := 5 } :=
  ⟨rfl, (C4_divide_by_zero ideal_platform 1
    (operand_state [] 1 [Memory_cell.mk_int 0 1, Memory_cell.mk_int 0 0]) (opr 6) 1
    rfl rfl rfl rfl).1⟩

/-- C5: in every state whose top two cells are `Int(a)` at T-1 and `Int(b)` at
T, OPR 0 3, OPR 0 4 and OPR 0 5 return with T one lower and `Int(a + b)`,
`Int(a - b)` (top subtracted from next-to-top) and `Int(a * b)` in the new top
cell, computed as a 32-bit machine `int` (`wrap_int`, the exact result when it
is representable); no other cell changes.  The program LCI 0 3; LCI 0 4;
OPR 0 3; OPR 0 20; OPR 0 21 (then JMP 0 0) writes "7\n". -/
theorem C5_int_add_sub_mul (pf : Platform F In) (fuel : Nat) (s : State F In)
    (ir : instruction F) (a b : Int) (hf : ir.f = fun_code.fun_OPR)
    (ha : (s.data_store (s.top_of_stack - 1)).get_int = Except.ok a)
    (hb : (s.data_store s.top_of_stack).get_int = Except.ok b) :
    (ir.a.get_int = Except.ok 3 → ∃ s', exec_instruction pf fuel ir s = Outcome.ok () s'
        ∧ pops_to s s' (fun c => c.get_int = Except.ok (wrap_int (a + b))))
      ∧ (ir.a.get_int = Except.ok 4 → ∃ s', exec_instruction pf fuel ir s = Outcome.ok () s'
        ∧ pops_to s s' (fun c => c.get_int = Except.ok (wrap_int (a - b))))
      ∧ (ir.a.get_int = Except.ok 5 → ∃ s', exec_instruction pf fuel ir s = Outcome.ok () s'
        ∧ pops_to s s' (fun c => c.get_int = Except.ok (wrap_int (a * b))))
      ∧ (∀ z, in_int_range z → wrap_int z = z)
      ∧ run_summary (execute_code ideal_platform 100 100
          (initial_state ideal_platform program_add false)) = some (true, "7\n")
      ∧ (final_state (execute_first ideal_platform 100 5
          (initial_state ideal_platform program_add false))).map State.program_output
          = some "7\n" := by
  have ha' := Memory_cell.get_int_eq_ok.mp ha
  have hb' := Memory_cell.get_int_eq_ok.mp hb
  refine ⟨?_, ?_, ?_, wrap_int_of_in_range, by decide!, by decide!⟩
  · intro hk
    rw [exec_instruction_opr pf fuel ir 3 hf hk, exec_opr_arith pf fuel 3 (by simp)]
    simp [Exec.bind, opr_arith, Memory_cell.get_type, ha', hb', ha, hb, set_cell, pops_to,
      Memory_cell.get_int_eq_ok, Memory_cell.set_int]
    intro i hi
    simp [hi]
  · intro hk
    rw [exec_instruction_opr pf fuel ir 4 hf hk, exec_opr_arith pf fuel 4 (by simp)]
    simp [Exec.bind, opr_arith, Memory_cell.get_type, ha', hb', ha, hb, set_cell, pops_to,
      Memory_cell.get_int_eq_ok, Memory_cell.set_int]
    intro i hi
    simp [hi]
  · intro hk
    rw [exec_instruction_opr pf fuel ir 5 hf hk, exec_opr_arith pf fuel 5 (by simp)]
    simp [Exec.bind, opr_arith, Memory_cell.get_type, ha', hb', ha, hb, set_cell, pops_to,
      Memory_cell.get_int_eq_ok, Memory_cell.set_int]
    intro i hi
    simp [hi]

theorem C5_int_add_sub_mul_witness :
    ((operand_state [] 1 [Memory_cell.mk_int 0 3, Memory_cell.mk_int 0 4]).data_store 5).get_int
        = Except.ok 3
      ∧ ((operand_state [] 1 [Memory_cell.mk_int 0 3, Memory_cell.mk_int 0 4]).data_store 6).get_int
        = Except.ok 4
      ∧ ∃ s', exec_instruction ideal_platform 1 (opr 4)
          (operand_state [] 1 [Memory_cell.mk_int 0 3, Memory_cell.mk_int 0 4]) = Outcome.ok () s'
        ∧ pops_to (operand_state [] 1 [Memory_cell.mk_int 0 3, Memory_cell.mk_int 0 4]) s'
            (fun c => c.get_int = Except.ok (wrap_int (3 - 4))) :=
  ⟨rfl, rfl, (C5_int_add_sub_mul ideal_platform 1
    (operand_state [] 1 [Memory_cell.mk_int 0 3, Memory_cell.mk_int 0 4]) (opr 4) 3 4
    rfl rfl rfl).2.1 rfl⟩

end Arithmetic

end PAL

namespace PAL

section Arithmetic2

variable {F In : Type}

/-- C6: for K in 3..6, whenever the two operand cells do not carry the same
tag, or carry a common tag other than Int and Real (both Bool, both Str, both
Undef), OPR 0 K takes the run-time error path after lowering T by one, and
nothing is written to the data store; so OPR 0 K completes without a run-time
error only if the tags are equal and Int or Real. -/
theorem C6_arith_tag_error (pf : Platform F In) (fuel : Nat) (s : State F In)
    (ir : instruction F) (k : Int) (hf : ir.f = fun_code.fun_OPR)
    (hk : ir.a.get_int = Except.ok k) (hk4 : k = 3 ∨ k = 4 ∨ k = 5 ∨ k = 6)
    (hbad : ¬ ((s.data_store (s.top_of_stack - 1)).get_type
          = (s.data_store s.top_of_stack).get_type
        ∧ ((s.data_store (s.top_of_stack - 1)).get_type = types.types_INT
          ∨ (s.data_store (s.top_of_stack - 1)).get_type = types.types_REAL))) :
    (exec_instruction pf fuel ir s
          = error pf fuel "Operands must be of the same type." program_abort_exception
              { s with top_of_stack := s.top_of_stack - 1 }
        ∨ exec_instruction pf fuel ir s
          = error pf fuel "Operands must be integer or real" program_abort_exception
              { s with top_of_stack := s.top_of_stack - 1 })
      ∧ (∀ s', final_state (exec_instruction pf fuel ir s) = some s' →
          s'.data_store = s.data_store) := by
  have hpath : exec_instruction pf fuel ir s
          = error pf fuel "Operands must be of the same type." program_abort_exception
              { s with top_of_stack := s.top_of_stack - 1 }
        ∨ exec_instruction pf fuel ir s
          = error pf fuel "Operands must be integer or real" program_abort_exception
              { s with top_of_stack := s.top_of_stack - 1 } := by
    rw [exec_instruction_opr pf fuel ir k hf hk, exec_opr_arith pf fuel k hk4]
    by_cases hsame : (s.data_store (s.top_of_stack - 1)).get_type
        = (s.data_store s.top_of_stack).get_type
    · right
      have hnot : ¬ ((s.data_store (s.top_of_stack - 1)).get_type = types.types_INT
          ∨ (s.data_store (s.top_of_stack - 1)).get_type = types.types_REAL) :=
        fun h => hbad ⟨hsame, h⟩
      simp only [Memory_cell.get_type] at hsame hnot
      cases ht : (s.data_store (s.top_of_stack - 1)).type <;>
        simp [ht] at hnot <;>
        simp [Exec.bind, opr_arith, Memory_cell.get_type, ← hsame, ht]
    · left
      simp only [Memory_cell.get_type] at hsame
      simp [Exec.bind, opr_arith, Memory_cell.get_type, hsame]
  refine ⟨hpath, ?_⟩
  intro s' h
  rcases hpath with h0 | h0
  · rw [h0] at h
    exact error_fixes data_store_independent pf fuel "Operands must be of the same type."
      program_abort_exception { s with top_of_stack := s.top_of_stack - 1 } s' h
  · rw [h0] at h
    exact error_fixes data_store_independent pf fuel "Operands must be integer or real"
      program_abort_exception { s with top_of_stack := s.top_of_stack - 1 } s' h

theorem C6_arith_tag_error_witness :
    ¬ (((operand_state [] 1 [Memory_cell.mk_boolean 0 true, Memory_cell.mk_boolean 0 false]).data_store
            (6 - 1)).get_type
          = ((operand_state [] 1
              [Memory_cell.mk_boolean 0 true, Memory_cell.mk_boolean 0 false]).data_store 6).get_type
        ∧ (((operand_state [] 1
              [Memory_cell.mk_boolean 0 true, Memory_cell.mk_boolean 0 false]).data_store
                (6 - 1)).get_type = types.types_INT
          ∨ ((operand_state [] 1
              [Memory_cell.mk_boolean 0 true, Memory_cell.mk_boolean 0 false]).data_store
                (6 - 1)).get_type = types.types_REAL))
      ∧ ∀ s', final_state (exec_instruction ideal_platform 1 (opr 3)
          (operand_state [] 1 [Memory_cell.mk_boolean 0 true, Memory_cell.mk_boolean 0 false]))
            = some s' →
          s'.data_store = (operand_state [] 1
            [Memory_cell.mk_boolean 0 true, Memory_cell.mk_boolean 0 false]).data_store :=
  ⟨by decide, (C6_arith_tag_error ideal_platform 1
    (operand_state [] 1 [Memory_cell.mk_boolean 0 true, Memory_cell.mk_boolean 0 false])
    (opr 3) 3 rfl rfl (Or.inl rfl) (by decide)).2⟩

theorem exec_opr_power (pf : Platform F In) (fuel : Nat) (s : State F In) :
    exec_opr pf fuel 7 s = opr_power pf fuel s := by
  simp [exec_opr, Exec.bind]

/-- The loop of OPR 7 multiplies `temp` by `x` `m` times, as a machine `int`. -/
theorem pow_loop_int_eq (x : Int) (m : Nat) :
    ∀ temp, in_int_range temp → pow_loop_int x m temp = wrap_int (temp * x ^ m) := by
  induction m with
  | zero =>
    intro temp h
    simp [pow_loop_int, wrap_int_of_in_range temp h]
  | succ k ih =>
    intro temp _
    rw [pow_loop_int, ih _ (wrap_int_in_range _), wrap_int_mul_left]
    congr 1
    ring

/-- The value OPR 7 leaves for base `x` and exponent `e >= 0`. -/
theorem power_value (x e : Int) (he : 0 ≤ e) (hx : in_int_range x) :
    (if e = 0 then 1 else pow_loop_int x (e - 1).toNat x) = wrap_int (x ^ e.toNat) := by
  split
  · next h0 =>
    subst h0
    simp [wrap_int]
  · next h0 =>
    rw [pow_loop_int_eq x _ x hx]
    have h1 : e.toNat = (e - 1).toNat + 1 := by omega
    rw [h1, pow_succ, mul_comm]

/-- C7 (counterexample): with the base `Int(2)` at T-1 and the exponent
`Int(31)` at T, OPR 0 7 returns with T one lower and `Int(-2147483648)` in the
new top cell, whereas 2^31 = 2147483648: the product that the loop builds in
`int temp` no longer fits a 32-bit `int`. -/
theorem C7_power_overflows :
    (final_state (exec_instruction ideal_platform 1 (opr 7)
        (operand_state [] 1 [Memory_cell.mk_int 0 2, Memory_cell.mk_int 0 31]))).map
          (fun s => (s.top_of_stack, (s.data_store 5).type, (s.data_store 5).ivalue, s.cerr))
        = some (5, types.types_INT, -2147483648, "")
      ∧ (2 : Int) ^ 31 = 2147483648
      ∧ ¬ in_int_range ((2 : Int) ^ 31) := by
  refine ⟨by decide!, by decide, ?_⟩
  unfold in_int_range
  decide

/-- C7 (amended): for every `Int` base `x` (a machine `int`) at T-1 and every
`Int` exponent `n >= 0` at T, OPR 0 7 returns with T one lower and, in the new
top cell, the `Int` that repeated multiplication in 32-bit machine arithmetic
yields: it is `Int(x^n)` whenever `x^n` is representable as a machine `int`,
with `x^0 = 1` for every `x` and `x^1 = x`; no other cell changes.  The result
tag is the tag of the base (also for a `Real` base), and a non-`Int` exponent
takes the run-time error path. -/
theorem C7_power (pf : Platform F In) (fuel : Nat) (s : State F In)
    (ir : instruction F) (hf : ir.f = fun_code.fun_OPR) (hk : ir.a.get_int = Except.ok 7) :
    (∀ x n : Int, (s.data_store (s.top_of_stack - 1)).get_int = Except.ok x →
        (s.data_store s.top_of_stack).get_int = Except.ok n → 0 ≤ n → in_int_range x →
        ∃ s', exec_instruction pf fuel ir s = Outcome.ok () s'
          ∧ pops_to s s' (fun c => c.get_int = Except.ok (wrap_int (x ^ n.toNat)))
          ∧ (in_int_range (x ^ n.toNat) →
              (s'.data_store (s.top_of_stack - 1)).get_int = Except.ok (x ^ n.toNat))
          ∧ (n = 0 → (s'.data_store (s.top_of_stack - 1)).get_int = Except.ok 1)
          ∧ (n = 1 → (s'.data_store (s.top_of_stack - 1)).get_int = Except.ok x))
      ∧ (∀ n : Int, (s.data_store (s.top_of_stack - 1)).get_type = types.types_REAL →
        (s.data_store s.top_of_stack).get_int = Except.ok n →
        ∃ s', exec_instruction pf fuel ir s = Outcome.ok () s'
          ∧ s'.top_of_stack = s.top_of_stack - 1
          ∧ (s'.data_store (s.top_of_stack - 1)).get_type = types.types_REAL)
      ∧ ((s.data_store s.top_of_stack).get_type ≠ types.types_INT →
        exec_instruction pf fuel ir s
          = error pf fuel "Exponent must be an integer." program_abort_exception
              { s with top_of_stack := s.top_of_stack - 1 }) := by
  rw [exec_instruction_opr pf fuel ir 7 hf hk, exec_opr_power]
  refine ⟨?_, ?_, ?_⟩
  · intro x n hx hn hn0 hxr
    have hx' := Memory_cell.get_int_eq_ok.mp hx
    have hn' := Memory_cell.get_int_eq_ok.mp hn
    have hv := power_value x n hn0 hxr
    rw [Int.pred_toNat] at hv
    have hres : ∃ s', opr_power pf fuel s = Outcome.ok () s'
        ∧ pops_to s s' (fun c => c.get_int = Except.ok (wrap_int (x ^ n.toNat))) := by
      simp [Exec.bind, opr_power, Memory_cell.get_type, hx', hn', hx, hn, set_cell, pops_to,
        Memory_cell.get_int_eq_ok, Memory_cell.set_int]
      refine ⟨hv, ?_⟩
      intro i hi hi'
      exact absurd hi' hi
    obtain ⟨s', h1, h2⟩ := hres
    refine ⟨s', h1, h2, ?_, ?_, ?_⟩
    · intro hr
      rw [← wrap_int_of_in_range _ hr]
      exact h2.2.1
    · intro h0
      have := h2.2.1
      simpa [h0, wrap_int] using this
    · intro h1'
      have := h2.2.1
      simpa [h1', wrap_int_of_in_range x hxr] using this
  · intro n hr hn
    have hn' := Memory_cell.get_int_eq_ok.mp hn
    simp only [Memory_cell.get_type] at hr
    have hgr : (s.data_store (s.top_of_stack - 1)).get_real
        = Except.ok (s.data_store (s.top_of_stack - 1)).rvalue :=
      Memory_cell.get_real_eq_ok.mpr ⟨hr, rfl⟩
    simp [Exec.bind, opr_power, Memory_cell.get_type, hr, hn', hn, hgr, set_cell,
      Memory_cell.set_real]
  · intro hne
    simp only [Memory_cell.get_type] at hne
    simp [Exec.bind, opr_power, Memory_cell.get_type, hne]

theorem C7_power_witness :
    ∃ s', exec_instruction ideal_platform 1 (opr 7)
        (operand_state [] 1 [Memory_cell.mk_int 0 0, Memory_cell.mk_int 0 0]) = Outcome.ok () s'
      ∧ (s'.data_store 5).get_int = Except.ok 1 := by
  obtain ⟨s', h1, _, _, h0, _⟩ := (C7_power ideal_platform 1
    (operand_state [] 1 [Memory_cell.mk_int 0 0, Memory_cell.mk_int 0 0]) (opr 7) rfl rfl).1
      0 0 rfl rfl (by decide) (by decide)
  exact ⟨s', h1, h0 rfl⟩

end Arithmetic2

end PAL

/-! ## Strings, comparisons, logic (C8 - C12) -/

namespace PAL

section Operators

variable {F In : Type}

theorem exec_opr_concat (pf : Platform F In) (fuel : Nat) (s : State F In) :
    exec_opr pf fuel 8 s = opr_concat pf fuel s := by
  simp [exec_opr, Exec.bind]

theorem exec_opr_compare (pf : Platform F In) (fuel : Nat) (k : Int)
    (hk : k = 10 ∨ k = 11 ∨ k = 12 ∨ k = 13 ∨ k = 14 ∨ k = 15) (s : State F In) :
    exec_opr pf fuel k s = opr_compare pf fuel k s := by
  rcases hk with h | h | h | h | h | h <;> subst h <;> simp [exec_opr, Exec.bind]

/-- C8: in every state whose top two cells are `Str(s1)` at T-1 and `Str(s2)`
at T, OPR 0 8 returns with T one lower and `Str(s1 ++ s2)` in the new top cell,
no other cell changed; if the top cell is not `Str`, or else the cell below it
is not, the run-time error path is taken (and T is lowered afterwards).  The
program LCS 0 'foo'; LCS 0 'bar'; OPR 0 8; OPR 0 20; OPR 0 21 (then JMP 0 0)
writes "foobar\n". -/
theorem C8_concat (pf : Platform F In) (fuel : Nat) (s : State F In)
    (ir : instruction F) (hf : ir.f = fun_code.fun_OPR) (hk : ir.a.get_int = Except.ok 8) :
    (∀ s1 s2 : String, (s.data_store (s.top_of_stack - 1)).get_string = Except.ok s1 →
        (s.data_store s.top_of_stack).get_string = Except.ok s2 →
        ∃ s', exec_instruction pf fuel ir s = Outcome.ok () s'
          ∧ pops_to s s' (fun c => c.get_string = Except.ok (s1 ++ s2)))
      ∧ ((s.data_store s.top_of_stack).get_type ≠ types.types_STRING →
        exec_instruction pf fuel ir s
          = Exec.bind
              (error pf fuel "String concatenation requires String on top of stack."
                program_abort_exception)
              (fun _ => Exec.modify fun s1 => { s1 with top_of_stack := s1.top_of_stack - 1 }) s)
      ∧ ((s.data_store s.top_of_stack).get_type = types.types_STRING →
        (s.data_store (s.top_of_stack - 1)).get_type ≠ types.types_STRING →
        exec_instruction pf fuel ir s
          = Exec.bind
              (error pf fuel "String concatenation requires String on top of stack - 1."
                program_abort_exception)
              (fun _ => Exec.modify fun s1 => { s1 with top_of_stack := s1.top_of_stack - 1 }) s)
      ∧ run_summary (execute_code ideal_platform 100 100
          (initial_state ideal_platform program_concat false)) = some (true, "foobar\n")
      ∧ (final_state (execute_first ideal_platform 100 5
          (initial_state ideal_platform program_concat false))).map State.program_output
          = some "foobar\n" := by
  rw [exec_instruction_opr pf fuel ir 8 hf hk, exec_opr_concat]
  refine ⟨?_, ?_, ?_, by decide!, by decide!⟩
  · intro s1 s2 h1 h2
    have h1' := Memory_cell.get_string_eq_ok.mp h1
    have h2' := Memory_cell.get_string_eq_ok.mp h2
    simp [Exec.bind, opr_concat, Memory_cell.get_type, h1', h2', h1, h2, set_cell, pops_to,
      Memory_cell.get_string_eq_ok, Memory_cell.set_string]
    intro i hi hi'
    exact absurd hi' hi
  · intro hne
    simp only [Memory_cell.get_type] at hne
    simp [Exec.bind, opr_concat, Memory_cell.get_type, hne]
  · intro he hne
    simp only [Memory_cell.get_type] at hne he
    simp [Exec.bind, opr_concat, Memory_cell.get_type, hne, he]

theorem C8_concat_witness :
    ∃ s', exec_instruction ideal_platform 1 (opr 8)
        (operand_state [] 1 [Memory_cell.mk_string 0 "foo", Memory_cell.mk_string 0 "bar"])
          = Outcome.ok () s'
      ∧ pops_to (operand_state [] 1 [Memory_cell.mk_string 0 "foo", Memory_cell.mk_string 0 "bar"])
          s' (fun c => c.get_string = Except.ok ("foo" ++ "bar")) :=
  (C8_concat ideal_platform 1
    (operand_state [] 1 [Memory_cell.mk_string 0 "foo", Memory_cell.mk_string 0 "bar"])
    (opr 8) rfl rfl).1 "foo" "bar" rfl rfl

/-- C9 (the code does not do what the claim says): with `Int(-3)` on top of the
stack OPR 0 9 leaves `Bool(false)` although -3 is odd, because the C++
expression `x % 2 == 1` evaluates `-3 % 2` to -1; with `Int(3)` it leaves
`Bool(true)`.  T is unchanged (5) in both cases. -/
theorem C9_odd_of_negative :
    (final_state (exec_instruction ideal_platform 1 (opr 9)
        (operand_state [] 1 [Memory_cell.mk_int 0 (-3)]))).map
          (fun s => (s.top_of_stack, (s.data_store 5).type, (s.data_store 5).bvalue))
        = some (5, types.types_BOOLEAN, false)
      ∧ (final_state (exec_instruction ideal_platform 1 (opr 9)
        (operand_state [] 1 [Memory_cell.mk_int 0 3]))).map
          (fun s => (s.top_of_stack, (s.data_store 5).type, (s.data_store 5).bvalue))
        = some (5, types.types_BOOLEAN, true) := by
  constructor <;> decide!

/-- C10: in every state whose top two cells have the same tag, Int (values `a`
at T-1, `b` at T) or Bool (with false < true), OPR 0 10 .. OPR 0 15 return with
T one lower and `Bool(a = b)`, `Bool(a /= b)`, `Bool(a < b)`, `Bool(a >= b)`,
`Bool(a > b)`, `Bool(a <= b)` in the new top cell, no other cell changed;
operands with different tags, or both Str or both Undef, take the run-time
error path. -/
theorem C10_compare (pf : Platform F In) (fuel : Nat) (s : State F In)
    (ir : instruction F) (k : Int) (hf : ir.f = fun_code.fun_OPR)
    (hk : ir.a.get_int = Except.ok k)
    (hk6 : k = 10 ∨ k = 11 ∨ k = 12 ∨ k = 13 ∨ k = 14 ∨ k = 15) :
    (∀ a b : Int, (s.data_store (s.top_of_stack - 1)).get_int = Except.ok a →
        (s.data_store s.top_of_stack).get_int = Except.ok b →
        ∃ s' r, exec_instruction pf fuel ir s = Outcome.ok () s'
          ∧ pops_to s s' (fun c => c.get_boolean = Except.ok r)
          ∧ (k = 10 → r = decide (a = b)) ∧ (k = 11 → r = decide (a ≠ b))
          ∧ (k = 12 → r = decide (a < b)) ∧ (k = 13 → r = decide (a ≥ b))
          ∧ (k = 14 → r = decide (a > b)) ∧ (k = 15 → r = decide (a ≤ b)))
      ∧ (∀ a b : Bool, (s.data_store (s.top_of_stack - 1)).get_boolean = Except.ok a →
        (s.data_store s.top_of_stack).get_boolean = Except.ok b →
        ∃ s' r, exec_instruction pf fuel ir s = Outcome.ok () s'
          ∧ pops_to s s' (fun c => c.get_boolean = Except.ok r)
          ∧ (k = 10 → r = decide (a = b)) ∧ (k = 11 → r = decide (a ≠ b))
          ∧ (k = 12 → r = decide (a < b)) ∧ (k = 13 → r = decide (a ≥ b))
          ∧ (k = 14 → r = decide (a > b)) ∧ (k = 15 → r = decide (a ≤ b)))
      ∧ ((s.data_store (s.top_of_stack - 1)).get_type ≠ (s.data_store s.top_of_stack).get_type →
        exec_instruction pf fuel ir s
          = error pf fuel "operands must be of the same type." program_abort_exception
              { s with top_of_stack := s.top_of_stack - 1 })
      ∧ ((s.data_store (s.top_of_stack - 1)).get_type = (s.data_store s.top_of_stack).get_type →
        ((s.data_store (s.top_of_stack - 1)).get_type = types.types_STRING
          ∨ (s.data_store (s.top_of_stack - 1)).get_type = types.types_UNDEF) →
        exec_instruction pf fuel ir s
          = error pf fuel "Operands must in integer, floating point, or boolean."
              program_abort_exception { s with top_of_stack := s.top_of_stack - 1 }) := by
  rw [exec_instruction_opr pf fuel ir k hf hk, exec_opr_compare pf fuel k hk6]
  refine ⟨?_, ?_, ?_, ?_⟩
  · intro a b ha hb
    have ha' := Memory_cell.get_int_eq_ok.mp ha
    have hb' := Memory_cell.get_int_eq_ok.mp hb
    rcases hk6 with h | h | h | h | h | h <;> subst h <;>
      simp [Exec.bind, opr_compare, compare_int, Memory_cell.get_type, ha', hb', ha, hb,
        set_cell, pops_to, Memory_cell.get_boolean_eq_ok, Memory_cell.set_boolean] <;>
      (intro i hi hi'; exact absurd hi' hi)
  · intro a b ha hb
    have ha' := Memory_cell.get_boolean_eq_ok.mp ha
    have hb' := Memory_cell.get_boolean_eq_ok.mp hb
    rcases hk6 with h | h | h | h | h | h <;> subst h <;>
      simp [Exec.bind, opr_compare, compare_int, Memory_cell.get_type, ha', hb', ha, hb,
        set_cell, pops_to, Memory_cell.get_boolean_eq_ok, Memory_cell.set_boolean] <;>
      refine ⟨?_, ?_⟩ <;>
      first
        | (intro i hi hi'; exact absurd hi' hi)
        | (cases a <;> cases b <;> simp [bool_to_int])
  · intro hne
    simp only [Memory_cell.get_type] at hne
    simp [Exec.bind, opr_compare, Memory_cell.get_type, hne]
  · intro he hsu
    simp only [Memory_cell.get_type] at he hsu
    rcases hsu with h | h <;>
      simp [Exec.bind, opr_compare, Memory_cell.get_type, ← he, h]

theorem C10_compare_witness :
    ∃ s' r, exec_instruction ideal_platform 1 (opr 12)
        (operand_state [] 1 [Memory_cell.mk_boolean 0 false, Memory_cell.mk_boolean 0 true])
          = Outcome.ok () s'
      ∧ pops_to (operand_state [] 1 [Memory_cell.mk_boolean 0 false, Memory_cell.mk_boolean 0 true])
          s' (fun c => c.get_boolean = Except.ok r)
      ∧ r = true := by
  obtain ⟨s', r, h1, h2, _, _, h12, _⟩ := (C10_compare ideal_platform 1
    (operand_state [] 1 [Memory_cell.mk_boolean 0 false, Memory_cell.mk_boolean 0 true])
    (opr 12) 12 rfl rfl (by decide)).2.1 false true rfl rfl
  exact ⟨s', r, h1, h2, by rw [h12 rfl]; decide⟩

end Operators

end PAL

namespace PAL

section Logic

variable {F In : Type}

/-- C11 (the code does not do what the claim says): the guard of OPR 29 and
OPR 30 joins its two tag tests with `&&`, so the error is raised only when
neither cell is Bool.  With `Bool(false)` at T-1 and `Int(7)` at T, OPR 0 29
returns normally with T one lower, `Bool(false)` in the new top cell and
nothing on standard error; with `Bool(true)` at T-1 and `Int(7)` at T, OPR 0 30
likewise leaves `Bool(true)`.  With `Int(7)` at T-1 and `Bool(true)` at T,
OPR 0 29 raises no run-time error either: `get_boolean` throws and the exception
leaves `execute_code`. -/
theorem C11_and_or_one_bool :
    registers (exec_instruction ideal_platform 1 (opr 29)
        (operand_state [] 1 [Memory_cell.mk_boolean 0 false, Memory_cell.mk_int 0 7]))
        = some (1, 5, 5)
      ∧ (final_state (exec_instruction ideal_platform 1 (opr 29)
        (operand_state [] 1 [Memory_cell.mk_boolean 0 false, Memory_cell.mk_int 0 7]))).map
          (fun s => ((s.data_store 5).type, (s.data_store 5).bvalue, s.cerr))
        = some (types.types_BOOLEAN, false, "")
      ∧ registers (exec_instruction ideal_platform 1 (opr 30)
        (operand_state [] 1 [Memory_cell.mk_boolean 0 true, Memory_cell.mk_int 0 7]))
        = some (1, 5, 5)
      ∧ (final_state (exec_instruction ideal_platform 1 (opr 30)
        (operand_state [] 1 [Memory_cell.mk_boolean 0 true, Memory_cell.mk_int 0 7]))).map
          (fun s => ((s.data_store 5).type, (s.data_store 5).bvalue, s.cerr))
        = some (types.types_BOOLEAN, true, "")
      ∧ uncaught_message (exec_instruction ideal_platform 1 (opr 29)
        (operand_state [] 1 [Memory_cell.mk_int 0 7, Memory_cell.mk_boolean 0 true]))
        = some "Illegal access of value in memory cell" := by
  refine ⟨?_, ?_, ?_, ?_, ?_⟩ <;> decide!

/-- C12: in every state with `Int(x)` on top of the stack and current exception
`E`, OPR 0 31 returns with T unchanged and the top cell replaced by
`Bool(x = E)`, every other cell and the registers as they were; a top cell that
is not `Int` takes the run-time error path. -/
theorem C12_is_exception (pf : Platform F In) (fuel : Nat) (s : State F In)
    (ir : instruction F) (hf : ir.f = fun_code.fun_OPR) (hk : ir.a.get_int = Except.ok 31) :
    (∀ x : Int, (s.data_store s.top_of_stack).get_int = Except.ok x →
        ∃ s', exec_instruction pf fuel ir s = Outcome.ok () s'
          ∧ s'.top_of_stack = s.top_of_stack
          ∧ (s'.data_store s.top_of_stack).get_boolean
              = Except.ok (decide (x = s.pal_exception))
          ∧ (∀ i, i ≠ s.top_of_stack → s'.data_store i = s.data_store i)
          ∧ s'.program_counter = s.program_counter ∧ s'.base_register = s.base_register
          ∧ s'.pal_exception = s.pal_exception)
      ∧ ((s.data_store s.top_of_stack).get_type ≠ types.types_INT →
        exec_instruction pf fuel ir s
          = error pf fuel "is operations expects an integer value on top of stack"
              program_abort_exception s) := by
  rw [exec_instruction_opr pf fuel ir 31 hf hk]
  refine ⟨?_, ?_⟩
  · intro x hx
    have hx' := Memory_cell.get_int_eq_ok.mp hx
    simp [Exec.bind, exec_opr, Memory_cell.get_type, hx', hx, set_cell,
      Memory_cell.get_boolean_eq_ok, Memory_cell.set_boolean]
    intro i hi hi'
    exact absurd hi' hi
  · intro hne
    simp only [Memory_cell.get_type] at hne
    simp [Exec.bind, exec_opr, Memory_cell.get_type, hne]

theorem C12_is_exception_witness :
    ∃ s', exec_instruction ideal_platform 1 (opr 31)
        (operand_state [] 1 [Memory_cell.mk_int 0 1]) = Outcome.ok () s'
      ∧ (s'.data_store 5).get_boolean = Except.ok true := by
  obtain ⟨s', h1, _, h2, _⟩ := (C12_is_exception ideal_platform 1
    (operand_state [] 1 [Memory_cell.mk_int 0 1]) (opr 31) rfl rfl).1 1 rfl
  exact ⟨s', h1, h2⟩

end Logic

end PAL

/-! ## What the operations leave alone -/

namespace PAL

section Registers

variable {F In γ : Type}

theorem stack_independent.unwind {g : State F In → γ} (hg : stack_independent g) :
    unwind_independent g := by
  intro s t c e
  exact hg s s.data_store t c e

theorem set_cell_fixes {g : State F In → γ} (hg : stack_independent g) (i : Int)
    (f : Memory_cell F → Memory_cell F) : Exec.Fixes g (set_cell i f : Exec (State F In) Unit) := by
  apply Exec.Fixes.modify
  intro s
  exact hg s _ s.top_of_stack s.cout s.cerr

theorem store_cell_fixes {g : State F In → γ} (hg : stack_independent g) (i : Int)
    (c : Memory_cell F) : Exec.Fixes g (store_cell i c : Exec (State F In) Unit) :=
  set_cell_fixes hg i _

theorem set_top_fixes {g : State F In → γ} (hg : stack_independent g) (t : Int) :
    Exec.Fixes g (set_top t : Exec (State F In) Unit) := by
  apply Exec.Fixes.modify
  intro s
  exact hg s s.data_store t s.cout s.cerr

theorem put_program_fixes {g : State F In → γ} (hg : stack_independent g) (text : String) :
    Exec.Fixes g (put_program text : Exec (State F In) Unit) := by
  apply Exec.Fixes.modify
  intro s
  exact hg s s.data_store s.top_of_stack _ s.cerr

theorem pop_fixes {g : State F In → γ} (hg : stack_independent g) :
    Exec.Fixes g (Exec.modify fun s : State F In =>
      { s with top_of_stack := s.top_of_stack - 1 }) := by
  apply Exec.Fixes.modify
  intro s
  exact hg s s.data_store _ s.cout s.cerr

theorem opr_negate_fixes {g : State F In → γ} (hg : stack_independent g)
    (pf : Platform F In) (fuel : Nat) : Exec.Fixes g (opr_negate pf fuel) := by
  unfold opr_negate
  repeat' with_reducible (first
    | apply Exec.Fixes.bind
    | apply Exec.Fixes.ite
    | apply Exec.Fixes.get
    | apply Exec.Fixes.lift
    | apply set_cell_fixes hg
    | apply error_fixes hg.unwind
    | intro _)

theorem opr_arith_fixes {g : State F In → γ} (hg : stack_independent g)
    (pf : Platform F In) (fuel : Nat) (k : Int) : Exec.Fixes g (opr_arith pf fuel k) := by
  unfold opr_arith
  repeat' with_reducible (first
    | apply Exec.Fixes.bind
    | apply Exec.Fixes.ite
    | apply Exec.Fixes.get
    | apply Exec.Fixes.lift
    | apply Exec.Fixes.pure
    | apply set_cell_fixes hg
    | apply pop_fixes hg
    | apply error_fixes hg.unwind
    | intro _
    | dsimp only
    | split)

theorem opr_power_fixes {g : State F In → γ} (hg : stack_independent g)
    (pf : Platform F In) (fuel : Nat) : Exec.Fixes g (opr_power pf fuel) := by
  unfold opr_power
  repeat' with_reducible (first
    | apply Exec.Fixes.bind
    | apply Exec.Fixes.ite
    | apply Exec.Fixes.get
    | apply Exec.Fixes.lift
    | apply Exec.Fixes.pure
    | apply set_cell_fixes hg
    | apply pop_fixes hg
    | apply error_fixes hg.unwind
    | intro _
    | dsimp only
    | split)

theorem opr_concat_fixes {g : State F In → γ} (hg : stack_independent g)
    (pf : Platform F In) (fuel : Nat) : Exec.Fixes g (opr_concat pf fuel) := by
  unfold opr_concat
  repeat' with_reducible (first
    | apply Exec.Fixes.bind
    | apply Exec.Fixes.ite
    | apply Exec.Fixes.get
    | apply Exec.Fixes.lift
    | apply Exec.Fixes.pure
    | apply set_cell_fixes hg
    | apply pop_fixes hg
    | apply error_fixes hg.unwind
    | intro _)

theorem opr_odd_fixes {g : State F In → γ} (hg : stack_independent g)
    (pf : Platform F In) (fuel : Nat) : Exec.Fixes g (opr_odd pf fuel) := by
  unfold opr_odd
  repeat' with_reducible (first
    | apply Exec.Fixes.bind
    | apply Exec.Fixes.ite
    | apply Exec.Fixes.get
    | apply Exec.Fixes.lift
    | apply set_cell_fixes hg
    | apply error_fixes hg.unwind
    | intro _)

theorem opr_compare_fixes {g : State F In → γ} (hg : stack_independent g)
    (pf : Platform F In) (fuel : Nat) (k : Int) : Exec.Fixes g (opr_compare pf fuel k) := by
  unfold opr_compare
  repeat' with_reducible (first
    | apply Exec.Fixes.bind
    | apply Exec.Fixes.ite
    | apply Exec.Fixes.get
    | apply Exec.Fixes.lift
    | apply Exec.Fixes.pure
    | apply set_cell_fixes hg
    | apply pop_fixes hg
    | apply error_fixes hg.unwind
    | intro _
    | dsimp only
    | split)

/-- Every operation other than the two returns leaves alone whatever does not
depend on the stack and the output streams. -/
theorem exec_opr_fixes {g : State F In → γ} (hg : stack_independent g)
    (pf : Platform F In) (fuel : Nat) (k : Int) (h0 : k ≠ 0) (h1 : k ≠ 1) :
    Exec.Fixes g (exec_opr pf fuel k) := by
  unfold exec_opr
  simp only [h0, h1, if_false]
  repeat' with_reducible (first
    | apply Exec.Fixes.bind
    | apply Exec.Fixes.ite
    | apply Exec.Fixes.get
    | apply Exec.Fixes.lift
    | apply Exec.Fixes.pure
    | apply set_cell_fixes hg
    | apply store_cell_fixes hg
    | apply set_top_fixes hg
    | apply put_program_fixes hg
    | apply pop_fixes hg
    | apply opr_negate_fixes hg
    | apply opr_arith_fixes hg
    | apply opr_power_fixes hg
    | apply opr_concat_fixes hg
    | apply opr_odd_fixes hg
    | apply opr_compare_fixes hg
    | apply error_fixes hg.unwind
    | intro _
    | dsimp only
    | split)

theorem program_counter_stack_independent :
    stack_independent (fun s : State F In => s.program_counter) := by
  intro s ds t c e
  rfl

end Registers

end PAL

namespace PAL

section ProgramCounter

variable {F In : Type}

/-- The instructions other than JMP, JIF, CAL and OPR leave the program counter
alone, however they end. -/
theorem exec_instruction_fixes_pc (pf : Platform F In) (fuel : Nat) (ir : instruction F)
    (h1 : ir.f ≠ fun_code.fun_JMP) (h2 : ir.f ≠ fun_code.fun_JIF)
    (h3 : ir.f ≠ fun_code.fun_CAL) (h4 : ir.f ≠ fun_code.fun_OPR) :
    Exec.Fixes (fun s : State F In => s.program_counter) (exec_instruction pf fuel ir) := by
  unfold exec_instruction
  split <;> first
    | contradiction
    | (repeat' with_reducible (first
        | apply Exec.Fixes.bind
        | apply Exec.Fixes.ite
        | apply Exec.Fixes.get
        | apply Exec.Fixes.lift
        | apply Exec.Fixes.pure
        | apply set_cell_fixes program_counter_stack_independent
        | apply store_cell_fixes program_counter_stack_independent
        | apply set_top_fixes program_counter_stack_independent
        | apply pop_fixes program_counter_stack_independent
        | apply base_fixes program_counter_independent
        | intro _
        | dsimp only
        | (apply Exec.Fixes.modify; intro _; rfl)))

/-- An OPR instruction other than the two returns leaves the program counter
alone. -/
theorem exec_instruction_opr_fixes_pc (pf : Platform F In) (fuel : Nat) (ir : instruction F)
    (hf : ir.f = fun_code.fun_OPR)
    (hk : ∀ k, ir.a.get_int = Except.ok k → k ≠ 0 ∧ k ≠ 1) :
    Exec.Fixes (fun s : State F In => s.program_counter) (exec_instruction pf fuel ir) := by
  intro s s' h
  cases hg : ir.a.get_int with
  | error msg =>
    simp [exec_instruction, hf, hg, Exec.bind, final_state] at h
    rw [← h]
  | ok k =>
    rw [exec_instruction_opr pf fuel ir k hf hg] at h
    exact exec_opr_fixes program_counter_stack_independent pf fuel k (hk k hg).1 (hk k hg).2 s s' h

/-- What a `step` leaves alone, given that the instruction does. -/
theorem step_fixes {γ : Type} (g : State F In → γ) (hg : unwind_independent g)
    (pf : Platform F In) (fuel : Nat) (s s' : State F In)
    (hexec : Exec.Fixes g (exec_instruction pf fuel (s.code_store s.program_counter)))
    (h : final_state (step pf fuel s) = some s') : g s' = g (fetched pf s) := by
  rw [step_eq] at h
  have hb : Exec.Fixes g
      (exec_instruction pf fuel (s.code_store s.program_counter) >>= fun _ s2 =>
        if s2.debugging_pal_code then
          trace_stack pf s2.program_counter s2.base_register s2.top_of_stack s2
        else Outcome.ok () s2) := by
    apply Exec.Fixes.bind hexec
    intro _ s2 s3 h3
    cases hd : s2.debugging_pal_code
    · simp [hd, final_state] at h3
      rw [h3]
    · simp only [hd, if_true] at h3
      exact trace_stack_fixes hg pf _ _ _ s2 s3 h3
  exact hb (fetched pf s) s' h

end ProgramCounter

end PAL

/-! ## Calls, returns, addressing and jumps (C13 - C17) -/

namespace PAL

section Control

variable {F In : Type}

/-- C13: a dispatch step that executes CAL M A in a state with top T returns
with B = T - M + 1, `Int(r)` in cell B-2 where r is the address of the
instruction following the CAL, and PC = A; no other data cell changes and T is
unchanged. -/
theorem C13_call (pf : Platform F In) (fuel : Nat) (s : State F In) (ir : instruction F)
    (A : Int) (hir : s.code_store s.program_counter = ir) (hf : ir.f = fun_code.fun_CAL)
    (ha : ir.a.get_int = Except.ok A) :
    ∃ s', step pf fuel s = Outcome.ok () s'
      ∧ s'.base_register = s.top_of_stack - ir.l + 1
      ∧ (s'.data_store (s'.base_register - 2)).get_int = Except.ok (s.program_counter + 1)
      ∧ s'.program_counter = A
      ∧ (∀ i, i ≠ s.top_of_stack - ir.l + 1 - 2 → s'.data_store i = s.data_store i)
      ∧ s'.top_of_stack = s.top_of_stack := by
  have hexec : ∃ s1, exec_instruction pf fuel (s.code_store s.program_counter) (fetched pf s)
        = Outcome.ok () s1
      ∧ s1.base_register = s.top_of_stack - ir.l + 1
      ∧ (s1.data_store (s.top_of_stack - ir.l + 1 - 2)).get_int
          = Except.ok (s.program_counter + 1)
      ∧ s1.program_counter = A
      ∧ (∀ i, i ≠ s.top_of_stack - ir.l + 1 - 2 → s1.data_store i = s.data_store i)
      ∧ s1.top_of_stack = s.top_of_stack := by
    rw [hir]
    simp [exec_instruction, hf, ha, Exec.bind, fetched, set_base, set_cell, set_pc,
      Memory_cell.get_int_eq_ok, Memory_cell.set_int]
    intro i hi hi'
    exact absurd hi' hi
  obtain ⟨s1, h1, hb, hc, hp, hd, ht⟩ := hexec
  obtain ⟨s', hs, hds, hpc, hbr, htop, _, _⟩ := step_of_exec_ok pf fuel s s1 h1
  refine ⟨s', hs, by rw [hbr, hb], ?_, by rw [hpc, hp], ?_, by rw [htop, ht]⟩
  · rw [hbr, hb, hds]
    exact hc
  · intro i hi
    rw [hds]
    exact hd i hi

theorem C13_call_witness :
    ∃ s', step ideal_platform 1
        (operand_state [instr_int ideal_platform .fun_CAL 2 7] 1
          [Memory_cell.mk_int 0 0, Memory_cell.mk_int 0 5, Memory_cell.mk_int 0 0,
           Memory_cell.mk_int 0 0, Memory_cell.mk_int 0 11, Memory_cell.mk_int 0 12])
        = Outcome.ok () s'
      ∧ s'.base_register = 10 - 2 + 1
      ∧ (s'.data_store (s'.base_register - 2)).get_int = Except.ok (1 + 1)
      ∧ s'.program_counter = 7 := by
  obtain ⟨s', h1, h2, h3, h4, _⟩ := C13_call ideal_platform 1
    (operand_state [instr_int ideal_platform .fun_CAL 2 7] 1
      [Memory_cell.mk_int 0 0, Memory_cell.mk_int 0 5, Memory_cell.mk_int 0 0,
       Memory_cell.mk_int 0 0, Memory_cell.mk_int 0 11, Memory_cell.mk_int 0 12])
    (instr_int ideal_platform .fun_CAL 2 7) 7 rfl rfl rfl
  exact ⟨s', h1, h2, h3, h4⟩

/-- C14: OPR 0 1 (function return) in a frame with base B whose cells B-3 and
B-2 are `Int(d)` and `Int(r)`, with the cell `v` on top, returns with T = B-4,
cell B-4 = `v` (the whole cell: tag and value), PC = r and B = d; no other cell
changes. -/
theorem C14_function_return (pf : Platform F In) (fuel : Nat) (s : State F In)
    (ir : instruction F) (d r : Int) (hf : ir.f = fun_code.fun_OPR)
    (hk : ir.a.get_int = Except.ok 1)
    (hd : (s.data_store (s.base_register - 3)).get_int = Except.ok d)
    (hr : (s.data_store (s.base_register - 2)).get_int = Except.ok r) :
    ∃ s', exec_instruction pf fuel ir s = Outcome.ok () s'
      ∧ s'.top_of_stack = s.base_register - 4
      ∧ s'.data_store (s.base_register - 4) = s.data_store s.top_of_stack
      ∧ s'.program_counter = r
      ∧ s'.base_register = d
      ∧ (∀ i, i ≠ s.base_register - 4 → s'.data_store i = s.data_store i) := by
  have e3 : s.base_register - 5 + 3 = s.base_register - 2 := by ring
  have e2 : s.base_register - 5 + 2 = s.base_register - 3 := by ring
  have e1 : s.base_register - 5 + 1 = s.base_register - 4 := by ring
  rw [exec_instruction_opr pf fuel ir 1 hf hk]
  cases hdbg : s.debugging_pal_code <;>
    simp [Exec.bind, exec_opr, hdbg, e3, e2, e1, hd, hr, set_top, set_pc, set_base, store_cell,
      set_cell, trace_stack, put_listing] <;>
    (intro i hi hi'; exact absurd hi' hi)

theorem C14_function_return_witness :
    ∃ s', exec_instruction ideal_platform 1 (opr 1)
        (operand_state [] 1 [Memory_cell.mk_string 0 "v"]) = Outcome.ok () s'
      ∧ s'.top_of_stack = 5 - 4
      ∧ s'.data_store (5 - 4) = Memory_cell.mk_string 0 "v"
      ∧ s'.program_counter = 0
      ∧ s'.base_register = 0 := by
  obtain ⟨s', h1, h2, h3, h4, h5, _⟩ := C14_function_return ideal_platform 1
    (operand_state [] 1 [Memory_cell.mk_string 0 "v"]) (opr 1) 0 0 rfl rfl rfl rfl
  exact ⟨s', h1, h2, h3, h4, h5⟩

theorem base_loop_eq (pf : Platform F In) (fuel : Nat) (s : State F In) (n : Nat) :
    ∀ b, static_links_int s.data_store n b →
      base_loop pf fuel n b s = Outcome.ok (follow_static_links s.data_store n b) s := by
  induction n with
  | zero =>
    intro b _
    simp [base_loop, follow_static_links]
  | succ k ih =>
    intro b h
    obtain ⟨ht, hrest⟩ := h
    have hg : (s.data_store (b - 4)).get_int = Except.ok (s.data_store (b - 4)).ivalue :=
      Memory_cell.get_int_eq_ok.mpr ⟨ht, rfl⟩
    rw [base_loop]
    simp [Exec.bind, Memory_cell.is_int, ht, hg, follow_static_links, ih _ hrest]

theorem base_eq (pf : Platform F In) (fuel : Nat) (s : State F In) (l : Int)
    (h : static_links_int s.data_store l.toNat s.base_register) :
    base pf fuel l s
      = Outcome.ok (follow_static_links s.data_store l.toNat s.base_register) s := by
  simp [base, Exec.bind, base_loop_eq pf fuel s _ _ h]

/-- C15: for every `l` and every state in which the first `l` static-link cells
reached from B are `Int`, `base(l)` returns, leaving the state as it is, the
`l`-fold iteration of `b -> value of cell b-4` starting from B; `base(l) = B`
for `l <= 0`; and `base(l+1)` computed from B equals `base(l)` computed from
the frame whose base is the value of cell B-4. -/
theorem C15_base (pf : Platform F In) (fuel : Nat) (s : State F In) (l : Int) :
    (static_links_int s.data_store l.toNat s.base_register →
        base pf fuel l s
          = Outcome.ok (follow_static_links s.data_store l.toNat s.base_register) s)
      ∧ (l ≤ 0 → base pf fuel l s = Outcome.ok s.base_register s)
      ∧ (0 ≤ l → static_links_int s.data_store (l + 1).toNat s.base_register →
          ∃ v, base pf fuel (l + 1) s = Outcome.ok v s
            ∧ base pf fuel l { s with base_register := (s.data_store (s.base_register - 4)).ivalue }
              = Outcome.ok v
                  { s with base_register := (s.data_store (s.base_register - 4)).ivalue }) := by
  refine ⟨?_, ?_, ?_⟩
  · intro h
    simp [base, Exec.bind, base_loop_eq pf fuel s _ _ h]
  · intro hl
    have h0 : l.toNat = 0 := by omega
    simp [base, Exec.bind, h0, base_loop]
  · intro hl h
    have h1 : (l + 1).toNat = l.toNat + 1 := by omega
    rw [h1] at h
    refine ⟨follow_static_links s.data_store (l.toNat + 1) s.base_register, ?_, ?_⟩
    · simp [base, Exec.bind, h1, base_loop_eq pf fuel s _ _ h]
    · have h2 := base_loop_eq pf fuel
        { s with base_register := (s.data_store (s.base_register - 4)).ivalue } l.toNat
        (s.data_store (s.base_register - 4)).ivalue h.2
      simp only [base, Bind.bind, Exec.bind, Exec.get]
      rw [h2]
      rfl

theorem C15_base_witness :
    static_links_int (operand_state [] 1 []).data_store (1 : Int).toNat
        (operand_state [] 1 []).base_register
      ∧ base ideal_platform 1 1 (operand_state [] 1 [])
        = Outcome.ok (follow_static_links (operand_state [] 1 []).data_store (1 : Int).toNat
            (operand_state [] 1 []).base_register) (operand_state [] 1 []) :=
  ⟨⟨rfl, trivial⟩, (C15_base ideal_platform 1 (operand_state [] 1 []) 1).1 ⟨rfl, trivial⟩⟩

end Control

end PAL

namespace PAL

section Jumps

variable {F In : Type}

theorem exec_jif_fixes_data_store (pf : Platform F In) (fuel : Nat) (ir : instruction F)
    (hf : ir.f = fun_code.fun_JIF) :
    Exec.Fixes (fun s : State F In => s.data_store) (exec_instruction pf fuel ir) := by
  unfold exec_instruction
  simp only [hf]
  repeat' with_reducible (first
    | apply Exec.Fixes.bind
    | apply Exec.Fixes.ite
    | apply Exec.Fixes.get
    | apply Exec.Fixes.lift
    | apply Exec.Fixes.pure
    | apply error_fixes data_store_independent
    | intro _
    | dsimp only
    | (unfold set_pc; apply Exec.Fixes.modify; intro _; rfl))

/-- C16 (counterexample): JIF does not leave T unchanged in every case.  In the
program REH 0 2; MST 0 0; CAL 0 4; LCI 0 7; JIF 0 0; JMP 0 0 the JIF at address
5 is executed with (PC, B, T) = (5, 9, 9) and `Int(7)` on top: the run-time
error path unwinds the frame of the procedure, finds the handler of the main
frame and returns, and the step ends with (PC, B, T) = (6, 9, 4). -/
theorem C16_jif_counterexample :
    registers (execute_first ideal_platform 100 4
        (initial_state ideal_platform program_jif_unwind false)) = some (5, 9, 9)
      ∧ registers (execute_first ideal_platform 100 5
        (initial_state ideal_platform program_jif_unwind false)) = some (6, 9, 4) := by
  constructor <;> decide!

/-- C16 (amended): a dispatch step that executes JIF 0 A leaves the data store
unchanged however it ends, and leaves T unchanged whenever no run-time error is
raised (the tested Boolean is not popped): if the top cell is `Bool(true)` PC
is the address of the following instruction; if it is `Bool(false)` and
0 <= A <= last_instruction then PC becomes A; if the top cell is not Bool the
run-time error path is taken. -/
theorem C16_jif (pf : Platform F In) (fuel : Nat) (s : State F In) (ir : instruction F)
    (A : Int) (hir : s.code_store s.program_counter = ir) (hf : ir.f = fun_code.fun_JIF)
    (ha : ir.a.get_int = Except.ok A) :
    (∀ s', final_state (step pf fuel s) = some s' → s'.data_store = s.data_store)
      ∧ ((s.data_store s.top_of_stack).get_boolean = Except.ok true →
        ∃ s', step pf fuel s = Outcome.ok () s' ∧ s'.program_counter = s.program_counter + 1
          ∧ s'.top_of_stack = s.top_of_stack ∧ s'.cerr = s.cerr)
      ∧ ((s.data_store s.top_of_stack).get_boolean = Except.ok false →
        0 ≤ A → A ≤ s.last_instruction →
        ∃ s', step pf fuel s = Outcome.ok () s' ∧ s'.program_counter = A
          ∧ s'.top_of_stack = s.top_of_stack ∧ s'.cerr = s.cerr)
      ∧ ((s.data_store s.top_of_stack).get_type ≠ types.types_BOOLEAN →
        exec_instruction pf fuel ir (fetched pf s)
          = error pf fuel "JIF - top of stack not a boolean." program_abort_exception
              (fetched pf s)) := by
  refine ⟨?_, ?_, ?_, ?_⟩
  · intro s' h
    have := step_fixes (fun s : State F In => s.data_store) data_store_independent pf fuel s s'
      (by rw [hir]; exact exec_jif_fixes_data_store pf fuel ir hf) h
    simpa [fetched] using this
  · intro hb
    have hb' := Memory_cell.get_boolean_eq_ok.mp hb
    have hexec : exec_instruction pf fuel (s.code_store s.program_counter) (fetched pf s)
        = Outcome.ok () (fetched pf s) := by
      rw [hir]
      simp [exec_instruction, hf, Exec.bind, fetched, Memory_cell.is_boolean, hb', hb]
    obtain ⟨s', hs, _, hpc, _, htop, _, hcerr⟩ := step_of_exec_ok pf fuel s _ hexec
    exact ⟨s', hs, by simpa [fetched] using hpc, by simpa [fetched] using htop,
      by simpa [fetched] using hcerr⟩
  · intro hb h0 h1
    have hb' := Memory_cell.get_boolean_eq_ok.mp hb
    have hc : ¬ (A < 0 ∨ s.last_instruction < A) := by omega
    have hexec : exec_instruction pf fuel (s.code_store s.program_counter) (fetched pf s)
        = Outcome.ok () { fetched pf s with program_counter := A } := by
      rw [hir]
      simp [exec_instruction, hf, ha, Exec.bind, fetched, Memory_cell.is_boolean, hb', hb,
        set_pc, hc]
    obtain ⟨s', hs, _, hpc, _, htop, _, hcerr⟩ := step_of_exec_ok pf fuel s _ hexec
    exact ⟨s', hs, by simpa [fetched] using hpc, by simpa [fetched] using htop,
      by simpa [fetched] using hcerr⟩
  · intro hne
    simp only [Memory_cell.get_type] at hne
    simp [exec_instruction, hf, Exec.bind, fetched, Memory_cell.is_boolean, hne]

theorem C16_jif_witness :
    ∃ s', step ideal_platform 1
        (operand_state [instr_int ideal_platform .fun_JIF 0 1] 1 [Memory_cell.mk_boolean 0 false])
        = Outcome.ok () s'
      ∧ s'.program_counter = 1 ∧ s'.top_of_stack = 5 := by
  obtain ⟨s', h1, h2, h3, _⟩ := (C16_jif ideal_platform 1
    (operand_state [instr_int ideal_platform .fun_JIF 0 1] 1 [Memory_cell.mk_boolean 0 false])
    (instr_int ideal_platform .fun_JIF 0 1) 1 rfl rfl rfl).2.2.1 rfl (by decide) (by decide)
  exact ⟨s', h1, h2, h3⟩

/-- C17: a dispatch step that executes JMP 0 A returns with PC = A and without
error (nothing is written to standard error; T, B and the data store are
unchanged) when 0 <= A <= last_instruction, and takes the run-time error path
"Attempt to jump outside code." for every A < 0 and every A > last_instruction;
a taken JIF (top cell `Bool(false)`) applies the same range check to its
target. -/
theorem C17_jump (pf : Platform F In) (fuel : Nat) (s : State F In) (ir : instruction F)
    (A : Int) (hir : s.code_store s.program_counter = ir) (hf : ir.f = fun_code.fun_JMP)
    (ha : ir.a.get_int = Except.ok A) :
    (0 ≤ A → A ≤ s.last_instruction →
        ∃ s', step pf fuel s = Outcome.ok () s' ∧ s'.program_counter = A
          ∧ s'.cerr = s.cerr ∧ s'.top_of_stack = s.top_of_stack
          ∧ s'.base_register = s.base_register ∧ s'.data_store = s.data_store)
      ∧ (A < 0 ∨ A > s.last_instruction →
        exec_instruction pf fuel ir (fetched pf s)
          = error pf fuel "Attempt to jump outside code." program_abort_exception
              { fetched pf s with program_counter := A })
      ∧ (∀ (jif : instruction F) (s2 : State F In), jif.f = fun_code.fun_JIF →
          jif.a.get_int = Except.ok A →
          (s2.data_store s2.top_of_stack).get_boolean = Except.ok false →
          (0 ≤ A → A ≤ s2.last_instruction →
              exec_instruction pf fuel jif s2 = Outcome.ok () { s2 with program_counter := A })
            ∧ (A < 0 ∨ A > s2.last_instruction →
              exec_instruction pf fuel jif s2
                = error pf fuel "Attempt to jump outside code." program_abort_exception
                    { s2 with program_counter := A })) := by
  refine ⟨?_, ?_, ?_⟩
  · intro h0 h1
    have hc : ¬ (A < 0 ∨ s.last_instruction < A) := by omega
    have hexec : exec_instruction pf fuel (s.code_store s.program_counter) (fetched pf s)
        = Outcome.ok () { fetched pf s with program_counter := A } := by
      rw [hir]
      simp [exec_instruction, hf, ha, Exec.bind, fetched, set_pc, hc]
    obtain ⟨s', hs, hds, hpc, hbr, htop, _, hcerr⟩ := step_of_exec_ok pf fuel s _ hexec
    exact ⟨s', hs, by simpa [fetched] using hpc, by simpa [fetched] using hcerr,
      by simpa [fetched] using htop, by simpa [fetched] using hbr,
      by simpa [fetched] using hds⟩
  · intro h
    have hc : A < 0 ∨ s.last_instruction < A := by omega
    simp [exec_instruction, hf, ha, Exec.bind, fetched, set_pc, hc]
  · intro jif s2 hjf hja hb
    have hb' := Memory_cell.get_boolean_eq_ok.mp hb
    constructor
    · intro h0 h1
      have hc : ¬ (A < 0 ∨ s2.last_instruction < A) := by omega
      simp [exec_instruction, hjf, hja, Exec.bind, Memory_cell.is_boolean, hb', hb, set_pc, hc]
    · intro h
      have hc : A < 0 ∨ s2.last_instruction < A := by omega
      simp [exec_instruction, hjf, hja, Exec.bind, Memory_cell.is_boolean, hb', hb, set_pc, hc]

theorem C17_jump_witness :
    ∃ s', step ideal_platform 1 (operand_state [jmp 0] 1 []) = Outcome.ok () s'
      ∧ s'.program_counter = 0 := by
  obtain ⟨s', h1, h2, _⟩ := (C17_jump ideal_platform 1 (operand_state [jmp 0] 1 []) (jmp 0) 0
    rfl rfl rfl).1 (by decide) (by decide)
  exact ⟨s', h1, h2⟩

end Jumps

end PAL

/-! ## Halting, the range of the program counter, frame headers (C18 - C20) -/

namespace PAL

section Invariants

variable {F In : Type}

/-- A step whose instruction leaves the program counter alone ends at the
following address. -/
theorem step_pc_of_fixes (pf : Platform F In) (fuel : Nat) (s s' : State F In)
    (hexec : Exec.Fixes (fun s : State F In => s.program_counter)
      (exec_instruction pf fuel (s.code_store s.program_counter)))
    (h : step pf fuel s = Outcome.ok () s') :
    s'.program_counter = s.program_counter + 1 := by
  have := step_fixes (fun s : State F In => s.program_counter) program_counter_independent
    pf fuel s s' hexec (by rw [h]; rfl)
  simpa [fetched] using this

/-- Where JMP 0 A leaves the program counter when it returns. -/
theorem exec_jmp_pc (pf : Platform F In) (fuel : Nat) (ir : instruction F) (A : Int)
    (hf : ir.f = fun_code.fun_JMP) (ha : ir.a.get_int = Except.ok A) (s s1 : State F In)
    (h : exec_instruction pf fuel ir s = Outcome.ok () s1) : s1.program_counter = A := by
  by_cases hc : A < 0 ∨ s.last_instruction < A
  · simp [exec_instruction, hf, ha, Exec.bind, set_pc, hc] at h
    exact error_fixes program_counter_independent pf fuel "Attempt to jump outside code."
      program_abort_exception { s with program_counter := A } s1 (by rw [h]; rfl)
  · simp [exec_instruction, hf, ha, Exec.bind, set_pc, hc] at h
    rw [← h]

/-- Where JIF 0 A leaves the program counter when it returns: at the following
address, or at A when the top cell is `Bool(false)`. -/
theorem exec_jif_pc (pf : Platform F In) (fuel : Nat) (ir : instruction F)
    (hf : ir.f = fun_code.fun_JIF) (s s1 : State F In)
    (h : exec_instruction pf fuel ir s = Outcome.ok () s1) :
    s1.program_counter = s.program_counter
      ∨ ((s.data_store s.top_of_stack).get_boolean = Except.ok false
        ∧ ir.a.get_int = Except.ok s1.program_counter) := by
  by_cases hb : (s.data_store s.top_of_stack).type = types.types_BOOLEAN
  · have hgb : (s.data_store s.top_of_stack).get_boolean
        = Except.ok (s.data_store s.top_of_stack).bvalue :=
      Memory_cell.get_boolean_eq_ok.mpr ⟨hb, rfl⟩
    cases hv : (s.data_store s.top_of_stack).bvalue
    · right
      rw [hv] at hgb
      refine ⟨hgb, ?_⟩
      cases hg : ir.a.get_int with
      | error msg =>
        simp [exec_instruction, hf, hg, Exec.bind, Memory_cell.is_boolean, hb, hgb] at h
      | ok A =>
        by_cases hc : A < 0 ∨ s.last_instruction < A
        · simp [exec_instruction, hf, hg, Exec.bind, Memory_cell.is_boolean, hb, hgb, set_pc,
            hc] at h
          have := error_fixes program_counter_independent pf fuel
            "Attempt to jump outside code." program_abort_exception
            { s with program_counter := A } s1 (by rw [h]; rfl)
          simp at this
          rw [this]
        · simp [exec_instruction, hf, hg, Exec.bind, Memory_cell.is_boolean, hb, hgb, set_pc,
            hc] at h
          rw [← h]
    · left
      rw [hv] at hgb
      simp [exec_instruction, hf, Exec.bind, Memory_cell.is_boolean, hb, hgb] at h
      rw [← h]
  · left
    simp [exec_instruction, hf, Exec.bind, Memory_cell.is_boolean, hb] at h
    exact error_fixes program_counter_independent pf fuel "JIF - top of stack not a boolean."
      program_abort_exception s s1 (by rw [h]; rfl)

/-- Where a return leaves the program counter when it returns: at the return
address held in cell B-2. -/
theorem exec_return_pc (pf : Platform F In) (fuel : Nat) (k : Int) (hk : k = 0 ∨ k = 1)
    (s s1 : State F In) (h : exec_opr pf fuel k s = Outcome.ok () s1) :
    (s.data_store (s.base_register - 2)).get_int = Except.ok s1.program_counter := by
  have e3 : s.base_register - 5 + 3 = s.base_register - 2 := by ring
  cases hr : (s.data_store (s.base_register - 2)).get_int with
  | error msg =>
    rcases hk with hk | hk <;> subst hk <;> cases hd : s.debugging_pal_code <;>
      simp [exec_opr, Exec.bind, hd, e3, hr, set_top, trace_stack, put_listing] at h
  | ok r =>
    cases hb : (s.data_store (s.base_register - 5 + 2)).get_int with
    | error msg =>
      rcases hk with hk | hk <;> subst hk <;> cases hd : s.debugging_pal_code <;>
        simp [exec_opr, Exec.bind, hd, e3, hr, hb, set_top, set_pc, trace_stack,
          put_listing] at h
    | ok b =>
      rcases hk with hk | hk <;> subst hk <;> cases hd : s.debugging_pal_code <;>
        simp [exec_opr, Exec.bind, hd, e3, hr, hb, set_top, set_pc, set_base, store_cell,
          set_cell, trace_stack, put_listing] at h <;>
        rw [← h]

/-- C18 (the code does not do what its documentation says): the program that
consists of OPR 0 0 alone returns from `execute_code` normally after one step:
the procedure return takes the return address 0 of the main frame, and
(PC, B, T) = (0, 0, 0).  No JMP is executed, whereas the documentation of JMP
in the header of pal.cpp has JMP 0 0 as the only way for a program to
terminate normally. -/
theorem C18_return_halts :
    registers (execute_first ideal_platform 100 1
        (initial_state ideal_platform program_return false)) = some (0, 0, 0)
      ∧ run_summary (execute_code ideal_platform 100 100
        (initial_state ideal_platform program_return false)) = some (true, "") := by
  constructor <;> decide!

/-- The instructions that can take the program counter to 0: whenever one
dispatch step takes PC from a code address (PC >= 1) to 0, the instruction
executed in that step is one of the four that assign the program counter, with
target 0: JMP 0 0, a taken JIF 0 0 (top cell `Bool(false)`), CAL M 0, or a
return (OPR 0 0 or OPR 0 1) from a frame whose return address, cell B-2, is
`Int(0)`, as it is in the main frame. -/
theorem halting_step_instruction (pf : Platform F In) (fuel : Nat) (s s' : State F In)
    (hpc : 1 ≤ s.program_counter) (hstep : step pf fuel s = Outcome.ok () s')
    (h0 : s'.program_counter = 0) :
    ((s.code_store s.program_counter).f = fun_code.fun_JMP
        ∧ (s.code_store s.program_counter).a.get_int = Except.ok 0)
      ∨ ((s.code_store s.program_counter).f = fun_code.fun_JIF
        ∧ (s.code_store s.program_counter).a.get_int = Except.ok 0
        ∧ (s.data_store s.top_of_stack).get_boolean = Except.ok false)
      ∨ ((s.code_store s.program_counter).f = fun_code.fun_CAL
        ∧ (s.code_store s.program_counter).a.get_int = Except.ok 0)
      ∨ ((s.code_store s.program_counter).f = fun_code.fun_OPR
        ∧ ((s.code_store s.program_counter).a.get_int = Except.ok 0
          ∨ (s.code_store s.program_counter).a.get_int = Except.ok 1)
        ∧ (s.data_store (s.base_register - 2)).get_int = Except.ok 0) := by
  obtain ⟨s1, hexec, _, hp, _⟩ := exec_of_step_ok pf fuel s s' hstep
  rw [h0] at hp
  by_cases h1 : (s.code_store s.program_counter).f = fun_code.fun_JMP
  · left
    refine ⟨h1, ?_⟩
    cases hg : (s.code_store s.program_counter).a.get_int with
    | error msg => simp [exec_instruction, h1, hg, Exec.bind] at hexec
    | ok A =>
      have := exec_jmp_pc pf fuel _ A h1 hg _ s1 hexec
      rw [← this, ← hp]
  by_cases h2 : (s.code_store s.program_counter).f = fun_code.fun_JIF
  · right; left
    refine ⟨h2, ?_⟩
    rcases exec_jif_pc pf fuel _ h2 _ s1 hexec with h | ⟨hb, ha⟩
    · simp [fetched] at h
      omega
    · rw [← hp] at ha
      exact ⟨ha, by simpa [fetched] using hb⟩
  by_cases h3 : (s.code_store s.program_counter).f = fun_code.fun_CAL
  · right; right; left
    refine ⟨h3, ?_⟩
    cases hg : (s.code_store s.program_counter).a.get_int with
    | error msg => simp [exec_instruction, h3, hg, Exec.bind, set_base, set_cell] at hexec
    | ok A =>
      simp [exec_instruction, h3, hg, Exec.bind, set_base, set_cell, set_pc] at hexec
      rw [← hexec] at hp
      simp at hp
      rw [← hp]
  by_cases h4 : (s.code_store s.program_counter).f = fun_code.fun_OPR
  · right; right; right
    refine ⟨h4, ?_⟩
    cases hg : (s.code_store s.program_counter).a.get_int with
    | error msg => simp [exec_instruction, h4, hg, Exec.bind] at hexec
    | ok k =>
      by_cases hk : k = 0 ∨ k = 1
      · rw [exec_instruction_opr pf fuel _ k h4 hg] at hexec
        have := exec_return_pc pf fuel k hk _ s1 hexec
        rw [← hp] at this
        refine ⟨?_, by simpa [fetched] using this⟩
        rcases hk with hk | hk <;> subst hk <;> simp
      · exfalso
        have hfix := exec_instruction_opr_fixes_pc pf fuel (s.code_store s.program_counter) h4
          (by
            intro k' hk'
            rw [hg] at hk'
            cases hk'
            exact ⟨fun h => hk (Or.inl h), fun h => hk (Or.inr h)⟩)
        have := step_pc_of_fixes pf fuel s s' hfix hstep
        omega
  · exfalso
    have hfix := exec_instruction_fixes_pc pf fuel (s.code_store s.program_counter) h1 h2 h3 h4
    have := step_pc_of_fixes pf fuel s s' hfix hstep
    omega

/-- The step that executes JMP 0 0 is a halting step. -/
theorem halting_step_instruction_jmp :
    ∃ s', step ideal_platform 1 (operand_state [jmp 0] 1 []) = Outcome.ok () s'
      ∧ (((operand_state [jmp 0] 1 []).code_store 1).f = fun_code.fun_JMP
        ∨ ((operand_state [jmp 0] 1 []).code_store 1).f = fun_code.fun_JIF
        ∨ ((operand_state [jmp 0] 1 []).code_store 1).f = fun_code.fun_CAL
        ∨ ((operand_state [jmp 0] 1 []).code_store 1).f = fun_code.fun_OPR) := by
  refine ⟨{ fetched ideal_platform (operand_state [jmp 0] 1 []) with program_counter := 0 },
    rfl, ?_⟩
  rcases halting_step_instruction ideal_platform 1 (operand_state [jmp 0] 1 [])
    { fetched ideal_platform (operand_state [jmp 0] 1 []) with program_counter := 0 }
    (by decide) rfl rfl with h | h | h | h
  · exact Or.inl h.1
  · exact Or.inr (Or.inl h.1)
  · exact Or.inr (Or.inr (Or.inl h.1))
  · exact Or.inr (Or.inr (Or.inr h.1))

end Invariants

end PAL

namespace PAL

section Invariants2

variable {F In : Type}

/-- C19 (counterexample): the program that consists of LCI 0 1 alone has
last_instruction = 1; after its first dispatch step (PC, B, T) = (2, 5, 5), the
loop goes on, and at the top of the second iteration PC = 2 is neither 0 nor in
[1, 1]. -/
theorem C19_pc_leaves_range :
    (initial_state ideal_platform program_no_jump false).last_instruction = 1
      ∧ registers (execute_first ideal_platform 100 1
        (initial_state ideal_platform program_no_jump false)) = some (2, 5, 5) := by
  constructor <;> decide!

/-- C19 (amended): one dispatch step from a state with
1 <= PC <= last_instruction leaves PC in [0, last_instruction + 1], provided the
instruction executed is not CAL and not a return (OPR 0 0, OPR 0 1), and the
operand of a JMP or JIF lies in [0, last_instruction].  (Falling off the end
reaches last_instruction + 1; CAL, the returns and a jump whose range check
fails inside a frame with a handler assign PC unchecked.) -/
theorem C19_pc_range (pf : Platform F In) (fuel : Nat) (s s' : State F In)
    (hlo : 1 ≤ s.program_counter) (hhi : s.program_counter ≤ s.last_instruction)
    (hstep : step pf fuel s = Outcome.ok () s')
    (hcal : (s.code_store s.program_counter).f ≠ fun_code.fun_CAL)
    (hret : (s.code_store s.program_counter).f = fun_code.fun_OPR →
      (s.code_store s.program_counter).a.get_int ≠ Except.ok 0
        ∧ (s.code_store s.program_counter).a.get_int ≠ Except.ok 1)
    (hjmp : (s.code_store s.program_counter).f = fun_code.fun_JMP
        ∨ (s.code_store s.program_counter).f = fun_code.fun_JIF →
      ∀ A, (s.code_store s.program_counter).a.get_int = Except.ok A →
        0 ≤ A ∧ A ≤ s.last_instruction) :
    0 ≤ s'.program_counter ∧ s'.program_counter ≤ s.last_instruction + 1 := by
  obtain ⟨s1, hexec, _, hp, _⟩ := exec_of_step_ok pf fuel s s' hstep
  by_cases h1 : (s.code_store s.program_counter).f = fun_code.fun_JMP
  · cases hg : (s.code_store s.program_counter).a.get_int with
    | error msg => simp [exec_instruction, h1, hg, Exec.bind] at hexec
    | ok A =>
      have := exec_jmp_pc pf fuel _ A h1 hg _ s1 hexec
      have hr := hjmp (Or.inl h1) A hg
      omega
  by_cases h2 : (s.code_store s.program_counter).f = fun_code.fun_JIF
  · rcases exec_jif_pc pf fuel _ h2 _ s1 hexec with h | ⟨_, ha⟩
    · simp [fetched] at h
      omega
    · have hr := hjmp (Or.inr h2) _ ha
      omega
  by_cases h4 : (s.code_store s.program_counter).f = fun_code.fun_OPR
  · have hfix := exec_instruction_opr_fixes_pc pf fuel (s.code_store s.program_counter) h4
      (by
        intro k hk
        refine ⟨fun h => ?_, fun h => ?_⟩
        · exact (hret h4).1 (by rw [hk, h])
        · exact (hret h4).2 (by rw [hk, h]))
    have := step_pc_of_fixes pf fuel s s' hfix hstep
    omega
  · have hfix := exec_instruction_fixes_pc pf fuel (s.code_store s.program_counter) h1 h2 hcal h4
    have := step_pc_of_fixes pf fuel s s' hfix hstep
    omega

theorem C19_pc_range_witness :
    0 ≤ ({ fetched ideal_platform (operand_state [lci 1] 1 []) with
          top_of_stack := 5,
          data_store := fun j => if j = 5 then
              ((operand_state [lci 1] 1 []).data_store j).set_int 1
            else (operand_state [lci 1] 1 []).data_store j } : State ℚ Bool).program_counter
      ∧ ({ fetched ideal_platform (operand_state [lci 1] 1 []) with
          top_of_stack := 5,
          data_store := fun j => if j = 5 then
              ((operand_state [lci 1] 1 []).data_store j).set_int 1
            else (operand_state [lci 1] 1 []).data_store j } : State ℚ Bool).program_counter
        ≤ (operand_state [lci 1] 1 []).last_instruction + 1 :=
  C19_pc_range ideal_platform 1 (operand_state [lci 1] 1 []) _ (by decide) (by decide) rfl
    (by decide) (by intro h; cases h) (by intro h; rcases h with h | h <;> cases h)

/-- C20 (counterexample): the program LCS 0 'x'; LDA 0 -1; STI 0 0 completes
three steps without error (nothing on standard error) and leaves the main
frame, base 5, with a `Str` cell in its handler slot, cell 4. -/
theorem C20_header_overwritten :
    (final_state (execute_first ideal_platform 100 3
        (initial_state ideal_platform program_store_header false))).map
          (fun s => (s.base_register, (s.data_store (s.base_register - 1)).type, s.cerr))
        = some (5, types.types_STRING, "")
      ∧ registers (execute_first ideal_platform 100 3
        (initial_state ideal_platform program_store_header false)) = some (4, 5, 4) := by
  constructor <;> decide!

/-- C20 (amended): the four header cells B-4 .. B-1 of the current frame have
tag Int when the frame is set up: after the initialisation of `execute_code`
(main frame, base 5), and after CAL M A executed when the four cells
T-M-3 .. T-M are Int, which is how MST leaves the four cells it writes (given
Int static links); nothing keeps later instructions (STI, STO to a header
address) from changing their tags. -/
theorem C20_header_cells (pf : Platform F In) (fuel : Nat) (s : State F In) :
    (∃ s1, init_machine pf s = Outcome.ok () s1 ∧ s1.base_register = 5
        ∧ ∀ j : Int, 1 ≤ j → j ≤ 4 →
            (s1.data_store (s1.base_register - j)).get_type = types.types_INT)
      ∧ (∀ ir : instruction F, ir.f = fun_code.fun_MST →
          static_links_int s.data_store ir.l.toNat s.base_register →
          ∃ s', exec_instruction pf fuel ir s = Outcome.ok () s'
            ∧ s'.top_of_stack = s.top_of_stack + 4
            ∧ s'.base_register = s.base_register
            ∧ ∀ j : Int, 0 ≤ j → j ≤ 3 →
                (s'.data_store (s'.top_of_stack - j)).get_type = types.types_INT)
      ∧ (∀ (ir : instruction F) (A : Int), ir.f = fun_code.fun_CAL →
          ir.a.get_int = Except.ok A →
          (∀ j : Int, 1 ≤ j → j ≤ 4 →
            (s.data_store (s.top_of_stack - ir.l + 1 - j)).get_type = types.types_INT) →
          ∃ s', exec_instruction pf fuel ir s = Outcome.ok () s'
            ∧ s'.base_register = s.top_of_stack - ir.l + 1
            ∧ ∀ j : Int, 1 ≤ j → j ≤ 4 →
                (s'.data_store (s'.base_register - j)).get_type = types.types_INT) := by
  refine ⟨?_, ?_, ?_⟩
  · simp only [init_machine, Bind.bind, Exec.bind, set_top, set_base, set_pc, store_cell,
      set_cell, Exec.modify]
    refine ⟨_, rfl, rfl, ?_⟩
    intro j h1 h4
    have hj : j = 1 ∨ j = 2 ∨ j = 3 ∨ j = 4 := by omega
    rcases hj with h | h | h | h <;> subst h <;>
      simp [Memory_cell.get_type, Memory_cell.mk_int, Memory_cell.set_int, Memory_cell.fresh]
  · intro ir hf hl
    have hb := base_eq pf fuel s ir.l hl
    simp [exec_instruction, hf, Exec.bind, hb, set_cell, set_top, Memory_cell.get_type,
      Memory_cell.set_int]
    intro j h0 h3
    split_ifs <;> first | rfl | (exfalso; omega)
  · intro ir A hf ha hcells
    simp [exec_instruction, hf, ha, Exec.bind, set_base, set_cell, set_pc, Memory_cell.get_type,
      Memory_cell.set_int]
    intro j h1 h4
    split
    · rfl
    · exact hcells j h1 h4

theorem C20_header_cells_witness :
    ∃ s1, init_machine ideal_platform (initial_state ideal_platform program_store_header false)
        = Outcome.ok () s1 ∧ s1.base_register = 5
      ∧ ∀ j : Int, 1 ≤ j → j ≤ 4 →
          (s1.data_store (s1.base_register - j)).get_type = types.types_INT :=
  (C20_header_cells ideal_platform 1
    (initial_state ideal_platform program_store_header false)).1

end Invariants2

end PAL

/-! ## The stack pointer, cells, stores, conversions, swaps (C21, C27 - C30) -/

namespace PAL

section StackAndCells

variable {F In : Type}

/-- What a `step` returns, given what its instruction returns: the same state,
with the stack dump on standard output when debugging is on. -/
theorem step_of_exec_ok_eq (pf : Platform F In) (fuel : Nat) (s s1 : State F In)
    (h : exec_instruction pf fuel (s.code_store s.program_counter) (fetched pf s)
      = Outcome.ok () s1) :
    step pf fuel s = Outcome.ok ()
      { s1 with cout := if s1.debugging_pal_code then
          s1.cout ++ [Output.listing (stack_dump pf s1 s1.base_register s1.top_of_stack)]
        else s1.cout } := by
  rw [step_eq]
  obtain ⟨d, ds, cs, pe, li, pc, b, t, ireg, ci, co, ce⟩ := s1
  cases d <;> simp [Exec.bind, h, trace_stack, put_listing]

/-- C21 (counterexample): the program that consists of OPR 0 24 alone completes
its first step with (PC, B, T) = (2, 5, 3): T = 3 is below B - 1 = 4. -/
theorem C21_drop_below_base :
    registers (execute_first ideal_platform 100 1
        (initial_state ideal_platform program_drop false)) = some (2, 5, 3) := by
  decide!

/-- C21 (amended): T >= B-1 holds when a frame is entered, after the
initialisation of `execute_code` (T = B-1) and after CAL M A with M >= 0, and it
is kept by the instructions that push one cell (LCI, LCR, LCS, LDU, OPR 17,
OPR 18, OPR 19, OPR 23), which raise T by one and leave B alone.  It is not an
invariant of the machine: the instructions that pop lower T without a check. -/
theorem C21_top_above_base (pf : Platform F In) (fuel : Nat) (s : State F In) :
    (∃ s1, init_machine pf s = Outcome.ok () s1 ∧ s1.top_of_stack = s1.base_register - 1)
      ∧ (∀ (ir : instruction F) (A : Int), ir.f = fun_code.fun_CAL →
          ir.a.get_int = Except.ok A → 0 ≤ ir.l →
          ∃ s', exec_instruction pf fuel ir s = Outcome.ok () s'
            ∧ s'.top_of_stack ≥ s'.base_register - 1)
      ∧ (∀ (ir : instruction F) (s' : State F In),
          (ir.f = fun_code.fun_LCI ∨ ir.f = fun_code.fun_LCR ∨ ir.f = fun_code.fun_LCS
            ∨ ir.f = fun_code.fun_LDU
            ∨ (ir.f = fun_code.fun_OPR ∧ (ir.a.get_int = Except.ok 17
              ∨ ir.a.get_int = Except.ok 18 ∨ ir.a.get_int = Except.ok 19
              ∨ ir.a.get_int = Except.ok 23))) →
          exec_instruction pf fuel ir s = Outcome.ok () s' →
          s'.top_of_stack = s.top_of_stack + 1 ∧ s'.base_register = s.base_register
            ∧ (s.top_of_stack ≥ s.base_register - 1 →
                s'.top_of_stack ≥ s'.base_register - 1)) := by
  refine ⟨?_, ?_, ?_⟩
  · simp only [init_machine, Bind.bind, Exec.bind, set_top, set_base, set_pc, store_cell,
      set_cell, Exec.modify]
    exact ⟨_, rfl, rfl⟩
  · intro ir A hf ha hl
    simp [exec_instruction, hf, ha, Exec.bind, set_base, set_cell, set_pc]
    omega
  · intro ir s' hf h
    have key : s'.top_of_stack = s.top_of_stack + 1 ∧ s'.base_register = s.base_register := by
      rcases hf with hf | hf | hf | hf | ⟨hf, hk⟩
      · cases hg : ir.a.get_int <;>
          simp [exec_instruction, hf, hg, Exec.bind, set_top, set_cell] at h
        rw [← h]
        exact ⟨rfl, rfl⟩
      · cases hg : ir.a.get_real <;>
          simp [exec_instruction, hf, hg, Exec.bind, set_top, set_cell] at h
        rw [← h]
        exact ⟨rfl, rfl⟩
      · cases hg : ir.a.get_string <;>
          simp [exec_instruction, hf, hg, Exec.bind, set_top, set_cell] at h
        rw [← h]
        exact ⟨rfl, rfl⟩
      · simp [exec_instruction, hf, Exec.bind, set_top, set_cell] at h
        rw [← h]
        exact ⟨rfl, rfl⟩
      · rcases hk with hk | hk | hk | hk <;>
          rw [exec_instruction_opr pf fuel ir _ hf hk] at h <;>
          simp [exec_opr, Exec.bind, set_top, set_cell, store_cell] at h <;>
          rw [← h] <;>
          exact ⟨rfl, rfl⟩
    refine ⟨key.1, key.2, ?_⟩
    intro h0
    rw [key.1, key.2]
    omega

theorem C21_top_above_base_witness :
    ∃ s1, init_machine ideal_platform (initial_state ideal_platform program_drop false)
        = Outcome.ok () s1 ∧ s1.top_of_stack = s1.base_register - 1 :=
  (C21_top_above_base ideal_platform 1 (initial_state ideal_platform program_drop false)).1

/-- C27: for every cell and every value `v`, after `set_X(v)` (X one of
boolean, int, real, string) the cell has tag X, `get_X` returns `v` and each of
the other three typed getters throws the illegal-access text; after `set_undef`
all four typed getters throw; and for every cell exactly one of `is_undef`,
`is_boolean`, `is_int`, `is_real`, `is_string` is true. -/
theorem C27_setters_getters (c : Memory_cell F) (b : Bool) (i : Int) (r : F) (str : String) :
    ((c.set_boolean b).get_type = types.types_BOOLEAN
        ∧ (c.set_boolean b).get_boolean = Except.ok b
        ∧ (c.set_boolean b).get_int = Except.error Memory_cell.illegal_access
        ∧ (c.set_boolean b).get_real = Except.error Memory_cell.illegal_access
        ∧ (c.set_boolean b).get_string = Except.error Memory_cell.illegal_access)
      ∧ ((c.set_int i).get_type = types.types_INT
        ∧ (c.set_int i).get_int = Except.ok i
        ∧ (c.set_int i).get_boolean = Except.error Memory_cell.illegal_access
        ∧ (c.set_int i).get_real = Except.error Memory_cell.illegal_access
        ∧ (c.set_int i).get_string = Except.error Memory_cell.illegal_access)
      ∧ ((c.set_real r).get_type = types.types_REAL
        ∧ (c.set_real r).get_real = Except.ok r
        ∧ (c.set_real r).get_boolean = Except.error Memory_cell.illegal_access
        ∧ (c.set_real r).get_int = Except.error Memory_cell.illegal_access
        ∧ (c.set_real r).get_string = Except.error Memory_cell.illegal_access)
      ∧ ((c.set_string str).get_type = types.types_STRING
        ∧ (c.set_string str).get_string = Except.ok str
        ∧ (c.set_string str).get_boolean = Except.error Memory_cell.illegal_access
        ∧ (c.set_string str).get_int = Except.error Memory_cell.illegal_access
        ∧ (c.set_string str).get_real = Except.error Memory_cell.illegal_access)
      ∧ (c.set_undef.get_type = types.types_UNDEF
        ∧ c.set_undef.get_boolean = Except.error Memory_cell.illegal_access
        ∧ c.set_undef.get_int = Except.error Memory_cell.illegal_access
        ∧ c.set_undef.get_real = Except.error Memory_cell.illegal_access
        ∧ c.set_undef.get_string = Except.error Memory_cell.illegal_access)
      ∧ [c.is_undef, c.is_boolean, c.is_int, c.is_real, c.is_string].count true = 1 := by
  refine ⟨?_, ?_, ?_, ?_, ?_, ?_⟩
  · simp [Memory_cell.set_boolean, Memory_cell.get_type, Memory_cell.get_boolean,
      Memory_cell.get_int, Memory_cell.get_real, Memory_cell.get_string]
  · simp [Memory_cell.set_int, Memory_cell.get_type, Memory_cell.get_boolean,
      Memory_cell.get_int, Memory_cell.get_real, Memory_cell.get_string]
  · simp [Memory_cell.set_real, Memory_cell.get_type, Memory_cell.get_boolean,
      Memory_cell.get_int, Memory_cell.get_real, Memory_cell.get_string]
  · simp [Memory_cell.set_string, Memory_cell.get_type, Memory_cell.get_boolean,
      Memory_cell.get_int, Memory_cell.get_real, Memory_cell.get_string]
  · simp [Memory_cell.set_undef, Memory_cell.get_type, Memory_cell.get_boolean,
      Memory_cell.get_int, Memory_cell.get_real, Memory_cell.get_string]
  · cases h : c.type <;>
      simp [Memory_cell.is_undef, Memory_cell.is_boolean, Memory_cell.is_int,
        Memory_cell.is_real, Memory_cell.is_string, h]

/-- C28 (the code does not do what the claim says): STO performs no tag check.
In the program LCI 0 1; LCS 0 'x'; STO 0 0 the target, cell 5, holds `Int(1)`
and the top cell is `Str("x")`: STO 0 0 completes without any run-time error
(nothing on standard error), cell 5 becomes `Str("x")` and T is lowered to 5. -/
theorem C28_store_retags :
    (final_state (execute_first ideal_platform 100 2
        (initial_state ideal_platform program_store_retag false))).map
          (fun s => ((s.data_store 5).type, (s.data_store 5).ivalue, s.top_of_stack))
        = some (types.types_INT, 1, 6)
      ∧ (final_state (execute_first ideal_platform 100 3
        (initial_state ideal_platform program_store_retag false))).map
          (fun s => ((s.data_store 5).type, (s.data_store 5).svalue, s.top_of_stack, s.cerr))
        = some (types.types_STRING, "x", 5, "")
      ∧ registers (execute_first ideal_platform 100 3
        (initial_state ideal_platform program_store_retag false)) = some (4, 5, 5) := by
  refine ⟨?_, ?_, ?_⟩ <;> decide!

end StackAndCells

end PAL

namespace PAL

section Conversions

variable {F In : Type}

theorem exec_lci_eq (pf : Platform F In) (fuel : Nat) (s : State F In) (ir : instruction F)
    (i : Int) (hf : ir.f = fun_code.fun_LCI) (ha : ir.a.get_int = Except.ok i) :
    exec_instruction pf fuel ir s = Outcome.ok ()
      { s with top_of_stack := s.top_of_stack + 1,
               data_store := fun j => if j = s.top_of_stack + 1 then
                 (s.data_store j).set_int i else s.data_store j } := by
  simp [exec_instruction, hf, ha, Exec.bind, set_top, set_cell]

theorem exec_int_to_real_eq (pf : Platform F In) (fuel : Nat) (s : State F In)
    (ir : instruction F) (i : Int) (hf : ir.f = fun_code.fun_OPR)
    (ha : ir.a.get_int = Except.ok 25)
    (hi : (s.data_store s.top_of_stack).get_int = Except.ok i) :
    exec_instruction pf fuel ir s = Outcome.ok ()
      { s with data_store := fun j => if j = s.top_of_stack then
                 (s.data_store j).set_real (pf.f_of_int i) else s.data_store j } := by
  have hi' := Memory_cell.get_int_eq_ok.mp hi
  rw [exec_instruction_opr pf fuel ir 25 hf ha]
  simp [exec_opr, Exec.bind, Memory_cell.get_type, hi', hi, set_cell]

theorem exec_real_to_int_eq (pf : Platform F In) (fuel : Nat) (s : State F In)
    (ir : instruction F) (r : F) (hf : ir.f = fun_code.fun_OPR)
    (ha : ir.a.get_int = Except.ok 26)
    (hr : (s.data_store s.top_of_stack).get_real = Except.ok r) :
    exec_instruction pf fuel ir s = Outcome.ok ()
      { s with data_store := fun j => if j = s.top_of_stack then
                 (s.data_store j).set_int (pf.f_to_int r) else s.data_store j } := by
  have hr' := Memory_cell.get_real_eq_ok.mp hr
  rw [exec_instruction_opr pf fuel ir 26 hf ha]
  simp [exec_opr, Exec.bind, Memory_cell.get_type, hr', hr, set_cell]

theorem round_to_binary32_exact (i : Int) (h : i.natAbs ≤ 16777216) :
    round_to_binary32 i = i := by
  unfold round_to_binary32
  by_cases h24 : i.natAbs = 16777216
  · have : i = 16777216 ∨ i = -16777216 := by omega
    rcases this with h | h <;> subst h <;> decide
  · have hlt : i.natAbs < 16777216 := by omega
    have he : ((List.range 8).filter (fun k => 2 ^ (24 + k) ≤ i.natAbs)) = [] := by
      rw [List.filter_eq_nil_iff]
      intro k hk
      have : 2 ^ 24 ≤ 2 ^ (24 + k) := Nat.pow_le_pow_right (by decide) (by omega)
      simp
      omega
    simp only [he, List.length_nil, pow_zero, Nat.div_one, Nat.mod_one]
    simp
    split
    · next hneg => rw [abs_of_neg hneg]; ring
    · next hpos => rw [abs_of_nonneg (by omega)]

theorem binary32_round_trip (i : Int) (h : i.natAbs ≤ 16777216) :
    binary32_platform.f_to_int (binary32_platform.f_of_int i) = i := by
  simp [binary32_platform, ideal_platform, round_to_binary32_exact i h]
/-- C29 (counterexample): where `float` is IEEE 754 binary32, the sequence
LCI 0 16777217; OPR 0 25; OPR 0 26 leaves `Int(16777216)` in the top cell, not
`Int(16777217)`: 2^24 + 1 has no binary32 representation and `float(i)` rounds. -/
theorem C29_round_trip_rounds :
    (final_state (Exec.bind (exec_instruction binary32_platform 1 (lci 16777217))
        (fun _ => Exec.bind (exec_instruction binary32_platform 1 (opr 25))
          (fun _ => exec_instruction binary32_platform 1 (opr 26)))
        (operand_state [] 1 []))).map
          (fun s => (s.top_of_stack, (s.data_store 5).type, (s.data_store 5).ivalue))
      = some (5, types.types_INT, 16777216) := by
  decide!

/-- C29 (amended): for every Int `i` that the conversion to `float` and back
returns unchanged (`int(float(i)) = i`, which holds for every `i` that `float`
represents exactly), executing LCI 0 i; OPR 0 25; OPR 0 26 leaves `Int(i)` in
the top cell, with T one greater than before the sequence and every other cell
unchanged; in general the top cell is `Int(int(float(i)))`.  Where `float` is
IEEE 754 binary32 the condition holds for every `i` with |i| <= 2^24. -/
theorem C29_int_real_int (pf : Platform F In) (fuel : Nat) (s : State F In) (i : Int)
    (ir1 ir2 ir3 : instruction F)
    (h1 : ir1.f = fun_code.fun_LCI) (h1a : ir1.a.get_int = Except.ok i)
    (h2 : ir2.f = fun_code.fun_OPR) (h2a : ir2.a.get_int = Except.ok 25)
    (h3 : ir3.f = fun_code.fun_OPR) (h3a : ir3.a.get_int = Except.ok 26) :
    ∃ s1 s2 s3, exec_instruction pf fuel ir1 s = Outcome.ok () s1
      ∧ exec_instruction pf fuel ir2 s1 = Outcome.ok () s2
      ∧ exec_instruction pf fuel ir3 s2 = Outcome.ok () s3
      ∧ s3.top_of_stack = s.top_of_stack + 1
      ∧ (s3.data_store s3.top_of_stack).get_int = Except.ok (pf.f_to_int (pf.f_of_int i))
      ∧ (pf.f_to_int (pf.f_of_int i) = i →
          (s3.data_store s3.top_of_stack).get_int = Except.ok i)
      ∧ (∀ j, j ≠ s.top_of_stack + 1 → s3.data_store j = s.data_store j)
      ∧ (∀ k : Int, k.natAbs ≤ 16777216 →
          binary32_platform.f_to_int (binary32_platform.f_of_int k) = k) := by
  refine ⟨_, _, _, exec_lci_eq pf fuel s ir1 i h1 h1a,
    exec_int_to_real_eq pf fuel _ ir2 i h2 h2a ?_,
    exec_real_to_int_eq pf fuel _ ir3 (pf.f_of_int i) h3 h3a ?_, rfl, ?_, ?_, ?_,
    binary32_round_trip⟩
  · simp [Memory_cell.get_int, Memory_cell.set_int]
  · simp [Memory_cell.get_real, Memory_cell.set_real]
  · simp [Memory_cell.get_int, Memory_cell.set_int]
  · intro h
    simp [Memory_cell.get_int, Memory_cell.set_int, h]
  · intro j hj
    simp [hj]

theorem C29_int_real_int_witness :
    ∃ s1 s2 s3, exec_instruction ideal_platform 1 (lci 7) (operand_state [] 1 [])
        = Outcome.ok () s1
      ∧ exec_instruction ideal_platform 1 (opr 25) s1 = Outcome.ok () s2
      ∧ exec_instruction ideal_platform 1 (opr 26) s2 = Outcome.ok () s3
      ∧ s3.top_of_stack = 4 + 1
      ∧ (s3.data_store s3.top_of_stack).get_int = Except.ok 7 := by
  obtain ⟨s1, s2, s3, h1, h2, h3, h4, _, h6, _, _⟩ := C29_int_real_int ideal_platform 1
    (operand_state [] 1 []) 7 (lci 7) (opr 25) (opr 26) rfl rfl rfl rfl rfl rfl
  exact ⟨s1, s2, s3, h1, h2, h3, h4, h6 (by decide!)⟩

theorem exec_swap_eq (pf : Platform F In) (fuel : Nat) (s : State F In) (ir : instruction F)
    (hf : ir.f = fun_code.fun_OPR) (ha : ir.a.get_int = Except.ok 22) :
    exec_instruction pf fuel ir s = Outcome.ok ()
      { s with data_store := fun j =>
          if j = s.top_of_stack - 1 then s.data_store s.top_of_stack
          else if j = s.top_of_stack then s.data_store (s.top_of_stack - 1)
          else s.data_store j } := by
  rw [exec_instruction_opr pf fuel ir 22 hf ha]
  simp [exec_opr, Exec.bind, store_cell, set_cell]

/-- A dispatch step that executes OPR 0 22 exchanges the top two cells. -/
theorem step_swap (pf : Platform F In) (fuel : Nat) (s : State F In)
    (hf : (s.code_store s.program_counter).f = fun_code.fun_OPR)
    (ha : (s.code_store s.program_counter).a.get_int = Except.ok 22) :
    ∃ s1, step pf fuel s = Outcome.ok () s1
      ∧ s1.data_store = (fun j =>
          if j = s.top_of_stack - 1 then s.data_store s.top_of_stack
          else if j = s.top_of_stack then s.data_store (s.top_of_stack - 1)
          else s.data_store j)
      ∧ s1.base_register = s.base_register
      ∧ s1.top_of_stack = s.top_of_stack
      ∧ s1.program_counter = s.program_counter + 1
      ∧ s1.code_store = s.code_store
      ∧ s1.pal_exception = s.pal_exception := by
  refine ⟨_, step_of_exec_ok_eq pf fuel s _
    (exec_swap_eq pf fuel (fetched pf s) (s.code_store s.program_counter) hf ha), ?_⟩
  simp [fetched]

/-- C30: in every state, two dispatch steps that both execute OPR 0 22 restore
the whole data store (in particular the top two cells, tags and values), and
leave B and T unchanged; PC has advanced by two. -/
theorem C30_swap_twice (pf : Platform F In) (fuel : Nat) (s : State F In)
    (h1 : (s.code_store s.program_counter).f = fun_code.fun_OPR)
    (h1a : (s.code_store s.program_counter).a.get_int = Except.ok 22)
    (h2 : (s.code_store (s.program_counter + 1)).f = fun_code.fun_OPR)
    (h2a : (s.code_store (s.program_counter + 1)).a.get_int = Except.ok 22) :
    ∃ s1 s2, step pf fuel s = Outcome.ok () s1 ∧ step pf fuel s1 = Outcome.ok () s2
      ∧ s2.data_store = s.data_store
      ∧ s2.base_register = s.base_register
      ∧ s2.top_of_stack = s.top_of_stack
      ∧ s2.program_counter = s.program_counter + 2
      ∧ s2.pal_exception = s.pal_exception := by
  obtain ⟨s1, e1, d1, b1, t1, p1, c1, x1⟩ := step_swap pf fuel s h1 h1a
  obtain ⟨s2, e2, d2, b2, t2, p2, _, x2⟩ := step_swap pf fuel s1
    (by rw [c1, p1]; exact h2) (by rw [c1, p1]; exact h2a)
  refine ⟨s1, s2, e1, e2, ?_, by rw [b2, b1], by rw [t2, t1], by rw [p2, p1]; ring,
    by rw [x2, x1]⟩
  rw [d2, d1, t1]
  funext j
  have hne : s.top_of_stack ≠ s.top_of_stack - 1 := by omega
  by_cases hj1 : j = s.top_of_stack - 1
  · subst hj1
    simp [hne]
  · by_cases hj2 : j = s.top_of_stack
    · subst hj2
      simp [hne]
    · simp [hj1, hj2]

theorem C30_swap_twice_witness :
    ∃ s1 s2, step ideal_platform 1
        (operand_state [opr 22, opr 22] 1 [Memory_cell.mk_int 0 1, Memory_cell.mk_string 0 "a"])
          = Outcome.ok () s1
      ∧ step ideal_platform 1 s1 = Outcome.ok () s2
      ∧ s2.data_store = (operand_state [opr 22, opr 22] 1
          [Memory_cell.mk_int 0 1, Memory_cell.mk_string 0 "a"]).data_store
      ∧ s2.program_counter = 1 + 2 := by
  obtain ⟨s1, s2, h1, h2, h3, _, _, h6, _⟩ := C30_swap_twice ideal_platform 1
    (operand_state [opr 22, opr 22] 1 [Memory_cell.mk_int 0 1, Memory_cell.mk_string 0 "a"])
    rfl rfl rfl rfl
  exact ⟨s1, s2, h1, h2, h3, h6⟩

end Conversions

end PAL

/-! ## The loader (C22 - C26) -/

namespace PAL

section Loader

variable {F In : Type}

/-- The vector `tokenize` has built so far stays at the front of its result. -/
theorem tokenize_loop_append (l : List Char) :
    ∀ (start : Option (List Char)) (v : List (List Char)),
      tokenize_loop l start v = v ++ tokenize_loop l start [] := by
  induction l with
  | nil =>
    intro start v
    cases start <;> simp [tokenize_loop]
  | cons c cs ih =>
    intro start v
    cases start with
    | none =>
      by_cases hc : isspace c = true
      · simp only [tokenize_loop, hc]
        exact ih none v
      · simp only [tokenize_loop, hc]
        exact ih _ v
    | some tok =>
      by_cases hc : isspace c = true
      · simp only [tokenize_loop, hc]
        rw [ih none (v ++ [tok]), ih none ([] ++ [tok])]
        simp
      · simp only [tokenize_loop, hc]
        exact ih _ v

/-- A token under construction always ends up in the result. -/
theorem tokenize_loop_some_ne_nil (l : List Char) :
    ∀ (tok : List Char), tokenize_loop l (some tok) [] ≠ [] := by
  induction l with
  | nil =>
    intro tok
    simp [tokenize_loop]
  | cons c cs ih =>
    intro tok
    by_cases hc : isspace c = true
    · have h := tokenize_loop_append cs none [tok]
      simp only [tokenize_loop, hc]
      simp [h]
    · simp only [tokenize_loop, hc]
      exact ih _

/-- Characters that are not white space extend the token under construction. -/
theorem tokenize_loop_word (w : List Char) (hw : ∀ c ∈ w, isspace c = false) :
    ∀ (l tok : List Char) (v : List (List Char)),
      tokenize_loop (w ++ l) (some tok) v = tokenize_loop l (some (tok ++ w)) v := by
  induction w with
  | nil =>
    intro l tok v
    simp
  | cons c cs ih =>
    intro l tok v
    have hc : isspace c = false := hw c (List.mem_cons_self _ _)
    have h := ih (fun d hd => hw d (List.mem_cons_of_mem _ hd)) l (tok ++ [c]) v
    simp only [List.cons_append, tokenize_loop, hc]
    simpa using h

/-- A word followed by white space is the next token. -/
theorem tokenize_loop_first (c : Char) (w : List Char) (sp : Char) (l : List Char)
    (hc : isspace c = false) (hw : ∀ d ∈ w, isspace d = false) (hsp : isspace sp = true)
    (v : List (List Char)) :
    tokenize_loop (c :: (w ++ sp :: l)) none v = tokenize_loop l none (v ++ [c :: w]) := by
  simp only [tokenize_loop, hc]
  rw [tokenize_loop_word w hw]
  simp [tokenize_loop, hsp]

/-- Every token `tokenize` returns is non-empty and free of white space. -/
theorem tokenize_loop_tokens (l : List Char) :
    ∀ (start : Option (List Char)) (v : List (List Char)),
      (∀ tok, start = some tok → tok ≠ [] ∧ ∀ c ∈ tok, isspace c = false) →
      (∀ t ∈ v, t ≠ [] ∧ ∀ c ∈ t, isspace c = false) →
      ∀ t ∈ tokenize_loop l start v, t ≠ [] ∧ ∀ c ∈ t, isspace c = false := by
  induction l with
  | nil =>
    intro start v hs hv t ht
    cases start with
    | none => exact hv t (by simpa [tokenize_loop] using ht)
    | some tok =>
      simp only [tokenize_loop, List.mem_append, List.mem_singleton] at ht
      rcases ht with ht | ht
      · exact hv t ht
      · rw [ht]
        exact hs tok rfl
  | cons c cs ih =>
    intro start v hs hv t ht
    by_cases hc : isspace c = true
    · cases start with
      | none =>
        simp only [tokenize_loop, hc] at ht
        exact ih none v (by simp) hv t ht
      | some tok =>
        simp only [tokenize_loop, hc] at ht
        refine ih none (v ++ [tok]) (by simp) ?_ t ht
        intro t' ht'
        simp only [List.mem_append, List.mem_singleton] at ht'
        rcases ht' with h | h
        · exact hv t' h
        · rw [h]
          exact hs tok rfl
    · have hc' : isspace c = false := by simpa using hc
      cases start with
      | none =>
        simp only [tokenize_loop, hc] at ht
        refine ih (some [c]) v ?_ hv t ht
        intro tok htok
        cases htok
        simp [hc']
      | some tok =>
        simp only [tokenize_loop, hc] at ht
        refine ih (some (tok ++ [c])) v ?_ hv t ht
        intro tok' htok
        cases htok
        refine ⟨by simp, ?_⟩
        intro d hd
        simp only [List.mem_append, List.mem_singleton] at hd
        rcases hd with h | h
        · exact (hs tok rfl).2 d h
        · rw [h]
          exact hc'

theorem tokenize_tokens (line : List Char) :
    ∀ t ∈ tokenize line, t ≠ [] ∧ ∀ c ∈ t, isspace c = false :=
  tokenize_loop_tokens line none [] (by simp) (by simp)

theorem skip_while_ok (p : Char → Bool) :
    ∀ (l : List Char) (pos pos' : Nat), skip_while p l pos = Except.ok pos' →
      ∃ n, pos' = pos + n ∧ l.drop n = l.dropWhile p ∧ l.dropWhile p ≠ [] := by
  intro l
  induction l with
  | nil =>
    intro pos pos' h
    simp [skip_while] at h
  | cons c cs ih =>
    intro pos pos' h
    by_cases hc : p c = true
    · simp only [skip_while, hc, if_true] at h
      obtain ⟨n, hn, hd, hne⟩ := ih (pos + 1) pos' h
      refine ⟨n + 1, by omega, ?_, ?_⟩
      · simpa [List.dropWhile, hc] using hd
      · simpa [List.dropWhile, hc] using hne
    · simp only [skip_while, hc] at h
      refine ⟨0, ?_, ?_, ?_⟩
      · simpa using h.symm
      · simp [List.dropWhile, hc]
      · simp [List.dropWhile, hc]

theorem skip_while_of_ne_nil (p : Char → Bool) :
    ∀ (l : List Char) (pos : Nat), l.dropWhile p ≠ [] →
      ∃ pos', skip_while p l pos = Except.ok pos' := by
  intro l
  induction l with
  | nil =>
    intro pos h
    simp at h
  | cons c cs ih =>
    intro pos h
    by_cases hc : p c = true
    · simp only [skip_while, hc, if_true]
      exact ih (pos + 1) (by simpa [List.dropWhile, hc] using h)
    · simp [skip_while, hc]

/-- A scan that starts at index `pos` of the line stops at the first index
from `pos` on whose character fails the test. -/
theorem skip_while_drop (p : Char → Bool) (line : List Char) (pos pos' : Nat)
    (h : skip_while p (line.drop pos) pos = Except.ok pos') :
    line.drop pos' = (line.drop pos).dropWhile p ∧ (line.drop pos).dropWhile p ≠ [] := by
  obtain ⟨n, hn, hd, hne⟩ := skip_while_ok p _ _ _ h
  refine ⟨?_, hne⟩
  rw [hn, ← hd, List.drop_drop]

theorem copy_string_eq :
    ∀ (l : List Char) (pos : Nat) (str : List Char),
      copy_string l pos str
        = (str ++ l.takeWhile (fun c => c ≠ quote), pos + (l.takeWhile (fun c => c ≠ quote)).length) := by
  intro l
  induction l with
  | nil =>
    intro pos str
    simp [copy_string]
  | cons c cs ih =>
    intro pos str
    by_cases hc : c = quote
    · simp [copy_string, hc, List.takeWhile]
    · simp [copy_string, hc, List.takeWhile, ih]
      omega


theorem takeWhile_length_eq_iff (l : List Char) :
    (l.takeWhile (fun c => c ≠ quote)).length = l.length ↔ quote ∉ l := by
  induction l with
  | nil => simp
  | cons c cs ih =>
    by_cases hc : c = quote
    · simp [List.takeWhile, hc]
    · have hc' : ¬ quote = c := fun h => hc h.symm
      simp only [ne_eq, decide_not] at ih
      simp [List.takeWhile, hc, hc', ih]

/-- The position the LCS branch of `load` reaches at the opening-quote test is
the beginning of the third field. -/
theorem load_string_scan (line : List Char) (p0 p1 p2 p3 pos : Nat)
    (h0 : skip_while isspace line 0 = Except.ok p0)
    (h1 : skip_while (fun c => !isspace c) (line.drop p0) p0 = Except.ok p1)
    (h2 : skip_while isspace (line.drop p1) p1 = Except.ok p2)
    (h3 : skip_while (fun c => !isspace c) (line.drop p2) p2 = Except.ok p3)
    (h4 : skip_while isspace (line.drop p3) p3 = Except.ok pos) :
    line.drop pos = third_field line ∧ third_field line ≠ [] := by
  have e0 := skip_while_drop isspace line 0 p0 (by simpa using h0)
  have e1 := skip_while_drop _ line p0 p1 h1
  have e2 := skip_while_drop _ line p1 p2 h2
  have e3 := skip_while_drop _ line p2 p3 h3
  have e4 := skip_while_drop _ line p3 pos h4
  have e : line.drop pos = third_field line := by
    rw [e4.1, e3.1, e2.1, e1.1, e0.1]
    simp [third_field]
  refine ⟨e, ?_⟩
  rw [← e, e4.1]
  exact e4.2

/-- The scan of the LCS branch succeeds when the line has a third field. -/
theorem load_string_scan_ok (line : List Char) (h : third_field line ≠ []) :
    ∃ p0 p1 p2 p3 pos, skip_while isspace line 0 = Except.ok p0
      ∧ skip_while (fun c => !isspace c) (line.drop p0) p0 = Except.ok p1
      ∧ skip_while isspace (line.drop p1) p1 = Except.ok p2
      ∧ skip_while (fun c => !isspace c) (line.drop p2) p2 = Except.ok p3
      ∧ skip_while isspace (line.drop p3) p3 = Except.ok pos := by
  have n4 : (((line.dropWhile isspace).dropWhile (fun c => !isspace c)).dropWhile isspace).dropWhile
      (fun c => !isspace c) ≠ [] := by
    intro hn
    exact h (by simp [third_field, hn])
  have n3 : ((line.dropWhile isspace).dropWhile (fun c => !isspace c)).dropWhile isspace ≠ [] := by
    intro hn
    exact n4 (by simp [hn])
  have n2 : (line.dropWhile isspace).dropWhile (fun c => !isspace c) ≠ [] := by
    intro hn
    exact n3 (by simp [hn])
  have n1 : line.dropWhile isspace ≠ [] := by
    intro hn
    exact n2 (by simp [hn])
  obtain ⟨p0, h0⟩ := skip_while_of_ne_nil isspace line 0 n1
  have e0 := skip_while_drop isspace line 0 p0 (by simpa using h0)
  obtain ⟨p1, h1⟩ := skip_while_of_ne_nil (fun c => !isspace c) (line.drop p0) p0
    (by rw [e0.1]; simpa using n2)
  have e1 := skip_while_drop _ line p0 p1 h1
  obtain ⟨p2, h2⟩ := skip_while_of_ne_nil isspace (line.drop p1) p1
    (by rw [e1.1, e0.1]; simpa using n3)
  have e2 := skip_while_drop _ line p1 p2 h2
  obtain ⟨p3, h3⟩ := skip_while_of_ne_nil (fun c => !isspace c) (line.drop p2) p2
    (by rw [e2.1, e1.1, e0.1]; simpa using n4)
  have e3 := skip_while_drop _ line p2 p3 h3
  obtain ⟨pos, h4⟩ := skip_while_of_ne_nil isspace (line.drop p3) p3
    (by rw [e3.1, e2.1, e1.1, e0.1]; simpa [third_field] using h)
  exact ⟨p0, p1, p2, p3, pos, h0, h1, h2, h3, h4⟩

/-- What the LCS branch does once it stands at the beginning of the third field. -/
theorem load_string_eq (line : List Char) (h : third_field line ≠ []) :
    load_string line =
      match third_field line with
      | [] => Except.error load_failure.out_of_range
      | c :: body =>
        if c ≠ quote then Except.error (load_failure.malformed_string line)
        else if quote ∉ body ∨ body.takeWhile (fun c => c ≠ quote) = [] then
          Except.error (load_failure.malformed_string line)
        else Except.ok (body.takeWhile (fun c => c ≠ quote)) := by
  obtain ⟨p0, p1, p2, p3, pos, h0, h1, h2, h3, h4⟩ := load_string_scan_ok line h
  obtain ⟨e, _⟩ := load_string_scan line p0 p1 p2 p3 pos h0 h1 h2 h3 h4
  cases hb : third_field line with
  | nil => exact absurd hb h
  | cons c body =>
    rw [hb] at e
    have hget : line.get? pos = some c := by
      have := congrArg List.head? e
      simpa [List.head?_drop] using this
    have hrest : line.drop (pos + 1) = body := by
      have := congrArg (List.drop 1) e
      simpa [List.drop_drop] using this
    have hlen : line.length = pos + 1 + body.length := by
      have := congrArg List.length e
      simp at this
      omega
    simp only [load_string, third_token_position, quoted_string, h0, h1, h2, h3, h4, bind,
      Except.bind, hget, hrest, copy_string_eq]
    have key := takeWhile_length_eq_iff body
    simp only [ne_eq, decide_not] at key
    by_cases hc : c = quote
    · simp [hc, hlen, key]
    · simp [hc]

theorem strtofun_some (key : String) (f : fun_code) (h : strtofun key = some f) :
    funtostr f = key := by
  simp only [strtofun, fun_code_map, List.find?] at h
  repeat' split at h
  all_goals (try simp at h)
  all_goals
    subst h
    rename_i hk
    rw [← beq_iff_eq.mp hk]
    rfl

theorem strtofun_none_iff (key : String) :
    strtofun key = none ↔ key ∉ fun_code_map.map Prod.fst := by
  simp only [strtofun, Option.map_eq_none', List.find?_eq_none, List.mem_map, not_exists,
    not_and, beq_iff_eq, Bool.not_eq_true, beq_eq_false_iff_ne, ne_eq, Prod.forall]


theorem stoi_invalid_iff (tok : List Char) (hsp : ∀ c ∈ tok, isspace c = false) :
    stoi tok = Except.error load_failure.invalid_argument ↔ begins_with_integer tok = false := by
  cases tok with
  | nil => simp [stoi, begins_with_integer]
  | cons c rest =>
    have hc : isspace c = false := hsp c (List.mem_cons_self _ _)
    by_cases hs : c = Char.ofNat 45 ∨ c = Char.ofNat 43
    · cases rest with
      | nil => simp [stoi, begins_with_integer, List.dropWhile, hc, hs]
      | cons d ds =>
        by_cases hd : d.isDigit = true
        · simp only [stoi, begins_with_integer, List.dropWhile, hc, hs, List.head?, List.tail,
            Option.some.injEq, if_true, List.takeWhile, hd]
          simp
          repeat' split
          all_goals (intro h; simp at h)
        · simp [stoi, begins_with_integer, List.dropWhile, hc, hs, List.takeWhile, hd]
    · by_cases hd : c.isDigit = true
      · simp only [stoi, begins_with_integer, List.dropWhile, hc, hs, List.head?,
          Option.some.injEq, if_false, List.takeWhile, hd]
        simp
        repeat' split
        all_goals (intro h; simp at h)
      · simp [stoi, begins_with_integer, List.dropWhile, hc, hs, List.takeWhile, hd]

/-- What `load` has checked and stored when it accepts a line. -/
theorem load_line_ok (zero : F) (stof : List Char → Option F) (top : Nat) (line : List Char)
    (i : instruction F) (h : load_line zero stof top line = Except.ok i) :
    ∃ t0 t1 t2 rest, tokenize line = t0 :: t1 :: t2 :: rest
      ∧ strtofun (String.mk (t0.map toupper)) = some i.f
      ∧ stoi t1 = Except.ok i.l
      ∧ top < code_size
      ∧ (i.f = fun_code.fun_LCR → ∃ r, stof t2 = some r ∧ i.a = Memory_cell.mk_real zero r)
      ∧ (i.f = fun_code.fun_LCS →
          ∃ str, load_string line = Except.ok str
            ∧ i.a = Memory_cell.mk_string zero (String.mk str))
      ∧ (i.f ≠ fun_code.fun_LCR → i.f ≠ fun_code.fun_LCS →
          ∃ v, stoi t2 = Except.ok v ∧ i.a = Memory_cell.mk_int zero v) := by
  unfold load_line at h
  split at h
  · rename_i t0 t1 t2 rest htok
    refine ⟨t0, t1, t2, rest, htok, ?_⟩
    split at h
    · simp at h
    · rename_i instr hfun
      cases hl : stoi t1 with
      | error e => simp [hl, bind, Except.bind] at h
      | ok lev =>
        simp only [hl, bind, Except.bind] at h
        by_cases htop : top ≥ code_size
        · simp [htop] at h
        · simp only [htop, if_false] at h
          by_cases hr : instr = fun_code.fun_LCR
          · simp only [hr, if_true] at h
            cases hs : stof t2 with
            | none => simp [hs] at h
            | some r =>
              simp only [hs, Except.ok.injEq] at h
              subst h
              subst hr
              exact ⟨hfun, rfl, by omega, fun _ => ⟨r, rfl, rfl⟩, by simp, by simp⟩
          · simp only [hr, if_false] at h
            by_cases hs : instr = fun_code.fun_LCS
            · simp only [hs, if_true] at h
              cases hstr : load_string line with
              | error e => simp [hstr] at h
              | ok str =>
                simp only [hstr, Except.ok.injEq] at h
                subst h
                subst hs
                exact ⟨hfun, rfl, by omega, by simp, fun _ => ⟨str, rfl, rfl⟩, by simp⟩
            · simp only [hs, if_false] at h
              cases hv : stoi t2 with
              | error e => simp [hv] at h
              | ok v =>
                simp only [hv, Except.ok.injEq] at h
                subst h
                exact ⟨hfun, rfl, by omega, fun h1 => absurd h1 hr, fun h1 => absurd h1 hs,
                  fun _ _ => ⟨v, rfl, rfl⟩⟩
  · simp at h

/-- The capacity test is the only place where the address of the line matters. -/
theorem load_line_capacity (zero : F) (stof : List Char → Option F) (line : List Char)
    (i : instruction F) (h : load_line zero stof 1 line = Except.ok i) (top : Nat) :
    (top < code_size → load_line zero stof top line = Except.ok i)
      ∧ (code_size ≤ top →
          load_line zero stof top line = Except.error load_failure.code_store_full) := by
  unfold load_line at h ⊢
  split at h
  · rename_i t0 t1 t2 rest htok
    split at h
    · simp at h
    · rename_i instr hfun
      cases hl : stoi t1 with
      | error e => simp [hl, bind, Except.bind] at h
      | ok lev =>
        have h1 : ¬ (1 ≥ code_size) := by decide
        simp only [hl, bind, Except.bind, h1, if_false] at h
        constructor
        · intro htop
          have h2 : ¬ (top ≥ code_size) := by omega
          simp only [hl, bind, Except.bind, h2, if_false]
          exact h
        · intro htop
          have h2 : top ≥ code_size := htop
          simp [hl, bind, Except.bind, h2]
  · simp at h

/-- A line that fails before the capacity test fails wherever it stands. -/
theorem load_line_error_of_tokens (zero : F) (stof : List Char → Option F) (top : Nat)
    (line : List Char)
    (h : (tokenize line).length < 3
      ∨ (∃ t0, (tokenize line).head? = some t0 ∧ strtofun (String.mk (t0.map toupper)) = none)
      ∨ (∃ t1, (tokenize line)[1]? = some t1 ∧ ∀ v, stoi t1 ≠ Except.ok v)) :
    ∃ e, load_line zero stof top line = Except.error e := by
  cases hr : load_line zero stof top line with
  | error e => exact ⟨e, rfl⟩
  | ok i =>
    exfalso
    obtain ⟨t0, t1, t2, rest, htok, hfun, hl, _⟩ := load_line_ok zero stof top line i hr
    rw [htok] at h
    rcases h with h | ⟨t, ht, hn⟩ | ⟨t, ht, hn⟩
    · simp at h
      omega
    · simp at ht
      subst ht
      rw [hfun] at hn
      simp at hn
    · simp at ht
      subst ht
      exact hn _ hl

/-- An LCS line whose string is malformed fails wherever it stands. -/
theorem load_line_error_of_string (zero : F) (stof : List Char → Option F) (top : Nat)
    (line : List Char)
    (hlcs : ∃ t0, (tokenize line).head? = some t0 ∧ String.mk (t0.map toupper) = "LCS")
    (hstr : ∀ str, load_string line ≠ Except.ok str) :
    ∃ e, load_line zero stof top line = Except.error e := by
  cases hr : load_line zero stof top line with
  | error e => exact ⟨e, rfl⟩
  | ok i =>
    exfalso
    obtain ⟨t0, t1, t2, rest, htok, hfun, _, _, _, hs, _⟩ := load_line_ok zero stof top line i hr
    obtain ⟨t, ht, hk⟩ := hlcs
    rw [htok] at ht
    simp at ht
    subst ht
    rw [hk] at hfun
    have hf : i.f = fun_code.fun_LCS := by
      have : strtofun "LCS" = some fun_code.fun_LCS := by decide
      rw [this] at hfun
      simpa using hfun.symm
    obtain ⟨str, h1, _⟩ := hs hf
    exact hstr str h1

/-- One line that `load` rejects makes `load` fail. -/
theorem load_lines_error (zero : F) (stof : List Char → Option F) (line : List Char)
    (hbad : ∀ top, ∃ e, load_line zero stof top line = Except.error e) :
    ∀ (lines : List (List Char)), line ∈ lines → ∀ (top : Nat) (cs : Int → instruction F),
      ∃ e, load_lines zero stof lines top cs = Except.error e := by
  intro lines
  induction lines with
  | nil =>
    intro h
    simp at h
  | cons l ls ih =>
    intro hmem top cs
    cases hl : load_line zero stof (top + 1) l with
    | error e => exact ⟨(top + 1, e), by simp [load_lines, hl]⟩
    | ok i =>
      have hne : line ≠ l := by
        intro he
        subst he
        obtain ⟨e, he⟩ := hbad (top + 1)
        rw [he] at hl
        cases hl
      have hmem' : line ∈ ls := by
        rcases List.mem_cons.mp hmem with h | h
        · exact absurd h hne
        · exact h
      obtain ⟨e, he⟩ := ih hmem' (top + 1) _
      exact ⟨e, by simp only [load_lines, hl]; exact he⟩

/-- When `load` returns, each line has been stored at its address. -/
theorem load_lines_ok (zero : F) (stof : List Char → Option F) :
    ∀ (lines : List (List Char)) (top : Nat) (cs cs' : Int → instruction F) (last : Nat),
      load_lines zero stof lines top cs = Except.ok (cs', last) →
      last = top + lines.length
        ∧ (∀ (k : Nat) (line : List Char), lines[k]? = some line →
            load_line zero stof (top + k + 1) line = Except.ok (cs' ((top + k + 1 : Nat) : Int)))
        ∧ (∀ j : Int, j ≤ top → cs' j = cs j) := by
  intro lines
  induction lines with
  | nil =>
    intro top cs cs' last h
    simp [load_lines] at h
    obtain ⟨h1, h2⟩ := h
    subst h1 h2
    simp
  | cons l ls ih =>
    intro top cs cs' last h
    cases hl : load_line zero stof (top + 1) l with
    | error e => simp [load_lines, hl] at h
    | ok i =>
      simp only [load_lines, hl] at h
      obtain ⟨h1, h2, h3⟩ := ih (top + 1) _ cs' last h
      refine ⟨by simp; omega, ?_, ?_⟩
      · intro k line hk
        cases k with
        | zero =>
          simp at hk
          subst hk
          have := h3 ((top + 1 : Nat) : Int) (by simp)
          simp only [if_true] at this
          rw [this]
          exact hl
        | succ k =>
          simp at hk
          have := h2 k line hk
          have e : top + (k + 1) + 1 = top + 1 + k + 1 := by omega
          rw [e]
          exact this
      · intro j hj
        have := h3 j (by push_cast; omega)
        have hne : j ≠ ((top + 1 : Nat) : Int) := by push_cast; omega
        rw [this, if_neg hne]

/-- An object file of well-formed lines is loaded if and only if it has fewer
lines than the code store has slots. -/
theorem load_lines_well_formed (zero : F) (stof : List Char → Option F) :
    ∀ (lines : List (List Char)) (top : Nat) (cs : Int → instruction F),
      (∀ line ∈ lines, well_formed_line zero stof line) →
      (top + lines.length < code_size →
          ∃ cs', load_lines zero stof lines top cs = Except.ok (cs', top + lines.length))
        ∧ (top < code_size → code_size ≤ top + lines.length →
          load_lines zero stof lines top cs
            = Except.error (code_size, load_failure.code_store_full)) := by
  intro lines
  induction lines with
  | nil =>
    intro top cs _
    constructor
    · intro _
      exact ⟨cs, by simp [load_lines]⟩
    · intro h1 h2
      simp at h2
      omega
  | cons l ls ih =>
    intro top cs hwf
    obtain ⟨i, hi⟩ := hwf l (List.mem_cons_self _ _)
    have hcap := load_line_capacity zero stof l i hi (top + 1)
    have hwf' : ∀ line ∈ ls, well_formed_line zero stof line :=
      fun line hm => hwf line (List.mem_cons_of_mem _ hm)
    constructor
    · intro hlt
      simp only [List.length_cons] at hlt
      have h1 := hcap.1 (by omega)
      simp only [load_lines, h1]
      obtain ⟨cs', h2⟩ := (ih (top + 1) _ hwf').1 (by omega)
      refine ⟨cs', ?_⟩
      rw [h2]
      simp only [List.length_cons]
      congr 2
      omega
    · intro hlt hge
      simp only [List.length_cons] at hge
      by_cases hfull : code_size ≤ top + 1
      · have h1 := hcap.2 hfull
        have h2 : top + 1 = code_size := by omega
        simp only [load_lines, h1]
        rw [h2]
      · have h1 := hcap.1 (by omega)
        simp only [load_lines, h1]
        exact (ih (top + 1) _ hwf').2 (by omega) (by omega)

end Loader

end PAL

/-! ## The loader: the claims C22 - C26 -/

namespace PAL

section LoaderClaims

variable {F In : Type}

/-- The LCS branch returns the text between the quotes, and only when the
third field has the shape it demands. -/
theorem load_string_ok (line str : List Char) (h : load_string line = Except.ok str) :
    ∃ body, third_field line = quote :: body ∧ quote ∈ body ∧ str ≠ []
      ∧ str = body.takeWhile (fun c => c ≠ quote) := by
  have hne : third_field line ≠ [] := by
    intro hn
    have h' := h
    unfold load_string third_token_position at h'
    cases h0 : skip_while isspace line 0 with
    | error e => simp [h0, bind, Except.bind] at h'
    | ok p0 =>
      simp only [h0, bind, Except.bind] at h'
      cases h1 : skip_while (fun c => !isspace c) (line.drop p0) p0 with
      | error e => simp [h1] at h'
      | ok p1 =>
        simp only [h1] at h'
        cases h2 : skip_while isspace (line.drop p1) p1 with
        | error e => simp [h2] at h'
        | ok p2 =>
          simp only [h2] at h'
          cases h3 : skip_while (fun c => !isspace c) (line.drop p2) p2 with
          | error e => simp [h3] at h'
          | ok p3 =>
            simp only [h3] at h'
            cases h4 : skip_while isspace (line.drop p3) p3 with
            | error e => simp [h4] at h'
            | ok pos => exact (load_string_scan line p0 p1 p2 p3 pos h0 h1 h2 h3 h4).2 hn
  rw [load_string_eq line hne] at h
  cases hb : third_field line with
  | nil => exact absurd hb hne
  | cons c body =>
    rw [hb] at h
    dsimp only at h
    by_cases hc : c = quote
    · rw [if_neg (not_not.mpr hc)] at h
      by_cases hcond : quote ∉ body ∨ body.takeWhile (fun c => c ≠ quote) = []
      · rw [if_pos hcond] at h
        cases h
      · rw [if_neg hcond] at h
        injection h with h
        subst hc
        refine ⟨body, rfl, ?_, ?_, h.symm⟩
        · by_contra hq
          exact hcond (Or.inl hq)
        · rw [← h]
          intro he
          exact hcond (Or.inr he)
    · rw [if_pos hc] at h
      cases h

/-- A string literal that is not of the demanded shape makes the LCS branch throw. -/
theorem load_string_error (line : List Char)
    (hbad : (∀ body, third_field line ≠ quote :: body)
      ∨ (∃ body, third_field line = quote :: body ∧ quote ∉ body)
      ∨ (∃ body, third_field line = quote :: quote :: body)) :
    ∀ str, load_string line ≠ Except.ok str := by
  intro str h
  obtain ⟨body, hb, hq, hne, hstr⟩ := load_string_ok line str h
  rcases hbad with h1 | ⟨b, h2, h3⟩ | ⟨b, h2⟩
  · exact h1 body hb
  · rw [hb] at h2
    simp only [List.cons.injEq, true_and] at h2
    subst h2
    exact h3 hq
  · rw [hb] at h2
    simp only [List.cons.injEq, true_and] at h2
    subst h2
    apply hne
    rw [hstr]
    simp [List.takeWhile]

theorem takeWhile_before_quote (s rest : List Char) (hq : quote ∉ s) :
    (s ++ quote :: rest).takeWhile (fun c => c ≠ quote) = s := by
  induction s with
  | nil => simp [List.takeWhile]
  | cons c cs ih =>
    have hc : c ≠ quote := fun h => hq (by simp [h])
    have hcs : quote ∉ cs := fun h => hq (List.mem_cons_of_mem _ h)
    have ih' := ih hcs
    simp only [ne_eq, decide_not] at ih'
    simp [List.takeWhile, hc, ih']

/-- The tokens of a line LCS 0 followed by a quoted string. -/
theorem tokenize_lcs_line (text : List Char) :
    ∃ t2 rest, tokenize ("LCS 0 ".toList ++ quote :: text)
      = "LCS".toList :: "0".toList :: t2 :: rest := by
  have e1 : tokenize ("LCS 0 ".toList ++ quote :: text)
      = tokenize_loop (quote :: text) none ["LCS".toList, "0".toList] := by
    have a := tokenize_loop_first (Char.ofNat 76) [Char.ofNat 67, Char.ofNat 83] (Char.ofNat 32)
      (Char.ofNat 48 :: Char.ofNat 32 :: quote :: text) (by decide) (by decide) (by decide) []
    have b := tokenize_loop_first (Char.ofNat 48) [] (Char.ofNat 32) (quote :: text)
      (by decide) (by decide) (by decide) [[Char.ofNat 76, Char.ofNat 67, Char.ofNat 83]]
    exact a.trans b
  rw [e1, tokenize_loop_append]
  have hq : isspace quote = false := by decide
  cases ht : tokenize_loop (quote :: text) none [] with
  | nil =>
    exfalso
    simp only [tokenize_loop, hq] at ht
    exact tokenize_loop_some_ne_nil text _ ht
  | cons t2 rest => exact ⟨t2, rest, rfl⟩

theorem third_field_lcs_line (text : List Char) :
    third_field ("LCS 0 ".toList ++ quote :: text) = quote :: text := by
  have h1 : isspace (Char.ofNat 76) = false := by decide
  have h2 : isspace (Char.ofNat 67) = false := by decide
  have h3 : isspace (Char.ofNat 83) = false := by decide
  have h4 : isspace (Char.ofNat 32) = true := by decide
  have h5 : isspace (Char.ofNat 48) = false := by decide
  have h6 : isspace quote = false := by decide
  show third_field (Char.ofNat 76 :: Char.ofNat 67 :: Char.ofNat 83 :: Char.ofNat 32
    :: Char.ofNat 48 :: Char.ofNat 32 :: quote :: text) = quote :: text
  simp [third_field, List.dropWhile, h1, h2, h3, h4, h5, h6]

theorem program_output_put (s : State F In) (cout : List Output) (text : String)
    (h : cout = s.cout ++ [Output.program text]) :
    State.program_output { s with cout := cout } = s.program_output ++ text := by
  subst h
  simp [State.program_output, String.join, List.foldl_append]

theorem exec_lcs_eq (pf : Platform F In) (fuel : Nat) (s : State F In) (ir : instruction F)
    (a : String) (hf : ir.f = fun_code.fun_LCS) (ha : ir.a.get_string = Except.ok a) :
    exec_instruction pf fuel ir s = Outcome.ok ()
      { s with top_of_stack := s.top_of_stack + 1,
               data_store := fun j => if j = s.top_of_stack + 1 then
                 (s.data_store j).set_string a else s.data_store j } := by
  simp [exec_instruction, hf, ha, Exec.bind, set_top, set_cell]

theorem exec_write_string_eq (pf : Platform F In) (fuel : Nat) (s : State F In)
    (ir : instruction F) (str : String) (hf : ir.f = fun_code.fun_OPR)
    (ha : ir.a.get_int = Except.ok 20)
    (hstr : (s.data_store s.top_of_stack).get_string = Except.ok str) :
    exec_instruction pf fuel ir s = Outcome.ok ()
      { s with cout := s.cout ++ [Output.program str],
               top_of_stack := s.top_of_stack - 1 } := by
  have hstr' := Memory_cell.get_string_eq_ok.mp hstr
  rw [exec_instruction_opr pf fuel ir 20 hf ha]
  simp [exec_opr, Exec.bind, Memory_cell.get_type, hstr', hstr, put_program]

theorem foldl_load_echo (lines : List (List Char)) :
    ∀ (top : Nat) (acc : String),
      List.foldl (fun r s => r ++ s) acc
        ((load_echo lines top).map (fun o => match o with
          | Output.program t => t
          | Output.listing _ => "")) = acc := by
  induction lines with
  | nil =>
    intro top acc
    rfl
  | cons l ls ih =>
    intro top acc
    simp only [load_echo, List.map_cons, List.foldl_cons, String.append_empty]
    exact ih _ _

/-- Text for the listing adds nothing to the output of the program. -/
theorem program_output_echo (s : State F In) (cout : List Output) (cerr : String)
    (lines : List (List Char)) (top : Nat)
    (h : cout = s.cout ∨ cout = s.cout ++ load_echo lines top) :
    State.program_output { s with cout := cout, cerr := cerr } = s.program_output := by
  rcases h with h | h
  · subst h
    rfl
  · subst h
    simp only [State.program_output, String.join, List.map_append, List.foldl_append]
    exact foldl_load_echo _ _ _

/-- When `load` fails, `main` ends in `abort()` with the diagnostic of the
failure on `cerr`, and the machine has executed nothing. -/
theorem load_and_execute_of_error (pf : Platform F In) (stof : List Char → Option F)
    (fuel n : Nat) (lines : List (List Char)) (s : State F In)
    (h : ∃ e, load (pf.f_of_int 0) stof lines = Except.error e) :
    ∃ msg s1, load_and_execute pf stof fuel n lines s = Outcome.aborted msg s1
      ∧ s1.cerr = s.cerr ++ msg ∧ nothing_executed s s1 := by
  obtain ⟨⟨top, e⟩, he⟩ := h
  refine ⟨load_diagnostic top e,
    { s with
      cout := if s.debugging_pal_code then s.cout ++ load_echo (lines.take top) 0 else s.cout,
      cerr := s.cerr ++ load_diagnostic top e },
    by simp only [load_and_execute, he], rfl, ?_⟩
  refine ⟨rfl, rfl, rfl, rfl, rfl, rfl, rfl, rfl, rfl, rfl, ?_⟩
  apply program_output_echo s _ _ (lines.take top) 0
  cases s.debugging_pal_code
  · exact Or.inl rfl
  · exact Or.inr rfl

/-- C22: when `load` returns, the instruction stored for the line with index
`k` (at address `k + 1`) has the opcode whose mnemonic is the first token in
upper case, the level `stoi` reads from the second token, and an operand cell
tagged by the opcode: `Str` holding the text between the quotes of the third
field for LCS, `Real` holding what `stof` reads from the third token for LCR,
`Int` holding what `stoi` reads from the third token for the 18 other opcodes. -/
theorem C22_loaded_instruction (zero : F) (stof : List Char → Option F)
    (lines : List (List Char)) (cs : Int → instruction F) (last k : Nat) (line : List Char)
    (hload : load zero stof lines = Except.ok (cs, last)) (hk : lines[k]? = some line) :
    ∃ t0 t1 t2 rest, tokenize line = t0 :: t1 :: t2 :: rest
      ∧ funtostr (cs ((k + 1 : Nat) : Int)).f = String.mk (t0.map toupper)
      ∧ stoi t1 = Except.ok (cs ((k + 1 : Nat) : Int)).l
      ∧ ((cs ((k + 1 : Nat) : Int)).f = fun_code.fun_LCS →
          ∃ body, third_field line = quote :: body
            ∧ (cs ((k + 1 : Nat) : Int)).a.get_string
              = Except.ok (String.mk (body.takeWhile (fun c => c ≠ quote))))
      ∧ ((cs ((k + 1 : Nat) : Int)).f = fun_code.fun_LCR →
          ∃ r, stof t2 = some r ∧ (cs ((k + 1 : Nat) : Int)).a.get_real = Except.ok r)
      ∧ ((cs ((k + 1 : Nat) : Int)).f ≠ fun_code.fun_LCS →
          (cs ((k + 1 : Nat) : Int)).f ≠ fun_code.fun_LCR →
          ∃ v, stoi t2 = Except.ok v ∧ (cs ((k + 1 : Nat) : Int)).a.get_int = Except.ok v) := by
  unfold load at hload
  obtain ⟨_, hst, _⟩ := load_lines_ok zero stof lines 0 _ cs last hload
  have hl := hst k line hk
  simp only [Nat.zero_add] at hl
  obtain ⟨t0, t1, t2, rest, htok, hfun, hlev, _, hr, hs, hv⟩ := load_line_ok zero stof _ line _ hl
  refine ⟨t0, t1, t2, rest, htok, strtofun_some _ _ hfun, hlev, ?_, ?_, ?_⟩
  · intro hf
    obtain ⟨str, h1, h2⟩ := hs hf
    obtain ⟨body, hb, _, _, hstr⟩ := load_string_ok line str h1
    refine ⟨body, hb, ?_⟩
    rw [h2, hstr]
    rfl
  · intro hf
    obtain ⟨r, h1, h2⟩ := hr hf
    refine ⟨r, h1, ?_⟩
    rw [h2]
    rfl
  · intro h1 h2
    obtain ⟨v, h3, h4⟩ := hv h2 h1
    refine ⟨v, h3, ?_⟩
    rw [h4]
    rfl

theorem C22_loaded_instruction_witness :
    ∃ t0 t1 t2 rest, tokenize "lcs 0 \x27 a\tb \x27 the text".toList = t0 :: t1 :: t2 :: rest
      ∧ funtostr (program_string_code ((0 + 1 : Nat) : Int)).f = String.mk (t0.map toupper)
      ∧ stoi t1 = Except.ok (program_string_code ((0 + 1 : Nat) : Int)).l
      ∧ ((program_string_code ((0 + 1 : Nat) : Int)).f = fun_code.fun_LCS →
          ∃ body, third_field "lcs 0 \x27 a\tb \x27 the text".toList = quote :: body
            ∧ (program_string_code ((0 + 1 : Nat) : Int)).a.get_string
              = Except.ok (String.mk (body.takeWhile (fun c => c ≠ quote))))
      ∧ ((program_string_code ((0 + 1 : Nat) : Int)).f = fun_code.fun_LCR →
          ∃ r, ideal_stof t2 = some r
            ∧ (program_string_code ((0 + 1 : Nat) : Int)).a.get_real = Except.ok r)
      ∧ ((program_string_code ((0 + 1 : Nat) : Int)).f ≠ fun_code.fun_LCS →
          (program_string_code ((0 + 1 : Nat) : Int)).f ≠ fun_code.fun_LCR →
          ∃ v, stoi t2 = Except.ok v
            ∧ (program_string_code ((0 + 1 : Nat) : Int)).a.get_int = Except.ok v) :=
  C22_loaded_instruction (0 : ℚ) ideal_stof program_string_lines program_string_code 3 0
    "lcs 0 \x27 a\tb \x27 the text".toList rfl rfl

/-- C23 (the code does not do what its comments say): the object file
LCI 3x 5; OPR 0 20; JMP 0 0 is loaded although the second token of its first
line, 3x, is not an integer: `load` stores LCI with level 3 and operand
`Int(5)` at address 1 and sets `last_instruction` to 3, and the machine runs
the program, which writes 5.  The comments in `load` demand that a line adhere
to a strict structure and that the second field be an integer. -/
theorem C23_level_suffix_accepted :
    run_summary (load_and_execute ideal_platform ideal_stof 100 100 program_level_suffix
        (initial_state ideal_platform [] false)) = some (true, "5")
      ∧ (load (0 : ℚ) ideal_stof program_level_suffix).toOption.map
          (fun r => (r.2, (r.1 1).f, (r.1 1).l, (r.1 1).a.type, (r.1 1).a.ivalue))
        = some (3, fun_code.fun_LCI, 3, types.types_INT, 5) := by
  constructor <;> decide!

/-- The lines `load` rejects on their first two tokens: `load` fails, and
`main` aborts with the machine having executed nothing, for every object file
that contains a line with fewer than three tokens, or whose first token in
upper case is not one of the 20 mnemonics, or whose second token does not begin
with a decimal signed integer (an optional sign, then a digit).  That is
exactly when `stoi` rejects the second token as not a number. -/
theorem load_rejects_line (pf : Platform F In) (zero : F) (stof : List Char → Option F)
    (lines : List (List Char)) (line : List Char) (hmem : line ∈ lines)
    (hbad : (tokenize line).length < 3
      ∨ (∃ t0, (tokenize line).head? = some t0
          ∧ String.mk (t0.map toupper) ∉ fun_code_map.map Prod.fst)
      ∨ (∃ t1, (tokenize line)[1]? = some t1 ∧ begins_with_integer t1 = false)) :
    (∃ e, load zero stof lines = Except.error e)
      ∧ (∀ (fuel n : Nat) (s : State F In),
          ∃ msg s1, load_and_execute pf stof fuel n lines s = Outcome.aborted msg s1
            ∧ s1.cerr = s.cerr ++ msg ∧ nothing_executed s s1)
      ∧ (∀ t1, (tokenize line)[1]? = some t1 →
          (stoi t1 = Except.error load_failure.invalid_argument
            ↔ begins_with_integer t1 = false)) := by
  have hsp : ∀ t1, (tokenize line)[1]? = some t1 → ∀ c ∈ t1, isspace c = false := by
    intro t1 ht
    exact (tokenize_tokens line t1 (List.getElem?_mem ht)).2
  have hline : ∀ (z : F) (top : Nat), ∃ e, load_line z stof top line = Except.error e := by
    intro z top
    apply load_line_error_of_tokens
    rcases hbad with h | ⟨t0, h0, h1⟩ | ⟨t1, h0, h1⟩
    · exact Or.inl h
    · exact Or.inr (Or.inl ⟨t0, h0, (strtofun_none_iff _).mpr h1⟩)
    · refine Or.inr (Or.inr ⟨t1, h0, ?_⟩)
      intro v hv
      have := (stoi_invalid_iff t1 (hsp t1 h0)).mpr h1
      rw [this] at hv
      cases hv
  refine ⟨load_lines_error zero stof line (hline zero) lines hmem 0 _, ?_, ?_⟩
  · intro fuel n s
    exact load_and_execute_of_error pf stof fuel n lines s
      (load_lines_error (pf.f_of_int 0) stof line (hline _) lines hmem 0 _)
  · intro t1 ht
    exact stoi_invalid_iff t1 (hsp t1 ht)

/-- The object file whose first line is LCI x3 5 is rejected. -/
theorem load_rejects_line_bad_level :
    (∃ e, load (0 : ℚ) ideal_stof program_bad_level = Except.error e)
      ∧ (∀ (fuel n : Nat) (s : State ℚ Bool),
          ∃ msg s1, load_and_execute ideal_platform ideal_stof fuel n program_bad_level s
              = Outcome.aborted msg s1
            ∧ s1.cerr = s.cerr ++ msg ∧ nothing_executed s s1)
      ∧ (∀ t1, (tokenize "LCI x3 5".toList)[1]? = some t1 →
          (stoi t1 = Except.error load_failure.invalid_argument
            ↔ begins_with_integer t1 = false)) :=
  load_rejects_line ideal_platform (0 : ℚ) ideal_stof program_bad_level "LCI x3 5".toList
    (by decide) (Or.inr (Or.inr ⟨"x3".toList, by decide, by decide⟩))

/-- C24: for every non-empty string `s` without a single quote, whatever
`comment` follows the closing quote, `load` turns the line LCS 0 's' into the
instruction LCS with level 0 and operand `Str(s)` (at every address below the
capacity of the code store), and executing that instruction and then OPR 0 20
appends exactly `s` to the output of the program, with T as it was.  The lines
`getline` delivers contain no line break.  The object file lcs 0 ' a<tab>b '
the text; OPR 0 20; JMP 0 0 writes " a<tab>b ". -/
theorem C24_string_round_trip (pf : Platform F In) (zero : F) (stof : List Char → Option F)
    (top fuel : Nat) (s comment : List Char) (hs : s ≠ []) (hq : quote ∉ s)
    (htop : top < code_size) :
    load_line zero stof top ("LCS 0 ".toList ++ quote :: (s ++ quote :: comment))
        = Except.ok
          { f := fun_code.fun_LCS, l := 0, a := Memory_cell.mk_string zero (String.mk s) }
      ∧ (∀ (st : State F In) (ir : instruction F), ir.f = fun_code.fun_OPR →
          ir.a.get_int = Except.ok 20 →
          ∃ st1 st2,
            exec_instruction pf fuel
                { f := fun_code.fun_LCS, l := 0, a := Memory_cell.mk_string zero (String.mk s) }
                st = Outcome.ok () st1
              ∧ exec_instruction pf fuel ir st1 = Outcome.ok () st2
              ∧ st2.cout = st.cout ++ [Output.program (String.mk s)]
              ∧ st2.program_output = st.program_output ++ String.mk s
              ∧ st2.top_of_stack = st.top_of_stack)
      ∧ run_summary (load_and_execute ideal_platform ideal_stof 100 100 program_string_lines
          (initial_state ideal_platform [] false)) = some (true, " a\tb ") := by
  refine ⟨?_, ?_, by decide!⟩
  · obtain ⟨t2, rest, htok⟩ := tokenize_lcs_line (s ++ quote :: comment)
    have hthird := third_field_lcs_line (s ++ quote :: comment)
    have hstr : load_string ("LCS 0 ".toList ++ quote :: (s ++ quote :: comment))
        = Except.ok s := by
      rw [load_string_eq _ (by rw [hthird]; simp), hthird]
      have htw := takeWhile_before_quote s comment hq
      have hmem : quote ∈ s ++ quote :: comment := by simp
      dsimp only
      rw [if_neg (not_not.mpr rfl), htw, if_neg]
      intro h
      rcases h with h | h
      · exact h hmem
      · exact hs h
    have hfun : strtofun (String.mk ("LCS".toList.map toupper)) = some fun_code.fun_LCS := by
      decide
    have hlev : stoi "0".toList = Except.ok 0 := rfl
    have hcap : ¬ (top ≥ code_size) := by omega
    simp only [load_line, htok, hfun, hlev, bind, Except.bind, hcap, if_false, hstr]
    simp
  · intro st ir hf ha
    refine ⟨_, _, exec_lcs_eq pf fuel st _ (String.mk s) rfl rfl,
      exec_write_string_eq pf fuel _ ir (String.mk s) hf ha ?_, rfl, ?_, ?_⟩
    · simp [Memory_cell.get_string, Memory_cell.set_string]
    · exact program_output_put _ _ _ rfl
    · simp

theorem C24_string_round_trip_witness :
    load_line (0 : ℚ) ideal_stof 1 ("LCS 0 ".toList ++ quote :: (" a".toList ++ quote :: []))
        = Except.ok
          { f := fun_code.fun_LCS, l := 0,
            a := Memory_cell.mk_string (0 : ℚ) (String.mk " a".toList) }
      ∧ (∀ (st : State ℚ Bool) (ir : instruction ℚ), ir.f = fun_code.fun_OPR →
          ir.a.get_int = Except.ok 20 →
          ∃ st1 st2,
            exec_instruction ideal_platform 1
                { f := fun_code.fun_LCS, l := 0,
                  a := Memory_cell.mk_string (0 : ℚ) (String.mk " a".toList) }
                st = Outcome.ok () st1
              ∧ exec_instruction ideal_platform 1 ir st1 = Outcome.ok () st2
              ∧ st2.cout = st.cout ++ [Output.program (String.mk " a".toList)]
              ∧ st2.program_output = st.program_output ++ String.mk " a".toList
              ∧ st2.top_of_stack = st.top_of_stack)
      ∧ run_summary (load_and_execute ideal_platform ideal_stof 100 100 program_string_lines
          (initial_state ideal_platform [] false)) = some (true, " a\tb ") :=
  C24_string_round_trip ideal_platform (0 : ℚ) ideal_stof 1 1 " a".toList [] (by decide)
    (by decide) (by decide)

/-- C25: `load` fails for every object file that contains an LCS line (first
token LCS in any case) whose third field does not begin with a single quote,
or has no closing single quote before the end of the line, or begins with two
single quotes (a zero-length body): the line is rejected at every address, and
`main` aborts before `execute_code` is entered, with the diagnostic of `load` on
`cerr`, so no instruction is executed: the stores, the registers and the output
of the program are as they were.  For the object file LCI 0 5; LCS 0 'abc;
JMP 0 0 the diagnostic is EXCEPTION (instruction 2): Malformed string: LCS 0 'abc. -/
theorem C25_malformed_string (pf : Platform F In) (zero : F) (stof : List Char → Option F)
    (lines : List (List Char)) (line : List Char) (hmem : line ∈ lines)
    (hlcs : ∃ t0, (tokenize line).head? = some t0 ∧ String.mk (t0.map toupper) = "LCS")
    (hbad : (∀ body, third_field line ≠ quote :: body)
      ∨ (∃ body, third_field line = quote :: body ∧ quote ∉ body)
      ∨ (∃ body, third_field line = quote :: quote :: body)) :
    (∃ e, load zero stof lines = Except.error e)
      ∧ (∀ top, ∃ e, load_line zero stof top line = Except.error e)
      ∧ (∀ (fuel n : Nat) (s : State F In),
          ∃ msg s1, load_and_execute pf stof fuel n lines s = Outcome.aborted msg s1
            ∧ s1.cerr = s.cerr ++ msg ∧ nothing_executed s s1)
      ∧ fatal_message (load_and_execute ideal_platform ideal_stof 100 100 program_open_string
          (initial_state ideal_platform [] false))
        = some "EXCEPTION (instruction 2): Malformed string: LCS 0 \x27abc\n" := by
  have hline : ∀ (z : F) (top : Nat), ∃ e, load_line z stof top line = Except.error e :=
    fun z top => load_line_error_of_string z stof top line hlcs (load_string_error line hbad)
  refine ⟨load_lines_error zero stof line (hline zero) lines hmem 0 _, hline zero, ?_,
    by decide!⟩
  intro fuel n s
  exact load_and_execute_of_error pf stof fuel n lines s
    (load_lines_error (pf.f_of_int 0) stof line (hline _) lines hmem 0 _)

theorem C25_malformed_string_witness :
    (∃ e, load (0 : ℚ) ideal_stof program_open_string = Except.error e)
      ∧ (∀ top, ∃ e, load_line (0 : ℚ) ideal_stof top "LCS 0 \x27abc".toList = Except.error e)
      ∧ (∀ (fuel n : Nat) (s : State ℚ Bool),
          ∃ msg s1, load_and_execute ideal_platform ideal_stof fuel n program_open_string s
              = Outcome.aborted msg s1
            ∧ s1.cerr = s.cerr ++ msg ∧ nothing_executed s s1)
      ∧ fatal_message (load_and_execute ideal_platform ideal_stof 100 100 program_open_string
          (initial_state ideal_platform [] false))
        = some "EXCEPTION (instruction 2): Malformed string: LCS 0 \x27abc\n" :=
  C25_malformed_string ideal_platform (0 : ℚ) ideal_stof program_open_string
    "LCS 0 \x27abc".toList (by decide) ⟨"LCS".toList, by decide, by decide⟩
    (Or.inr (Or.inl ⟨"abc".toList, by decide, by decide⟩))

/-- C26 (counterexample): an object file of exactly 10,000 well-formed lines
JMP 0 0 is not accepted: `load` fails with the store-overflow error at its last
line, because the test is `top >= code_size` and slot 0 is never used. -/
theorem C26_ten_thousand_lines :
    (List.replicate 10000 "JMP 0 0".toList).length = 10000
      ∧ (∀ line ∈ List.replicate 10000 "JMP 0 0".toList, well_formed_line (0 : ℚ) ideal_stof line)
      ∧ load (0 : ℚ) ideal_stof (List.replicate 10000 "JMP 0 0".toList)
        = Except.error (10000, load_failure.code_store_full) := by
  have hwf : ∀ line ∈ List.replicate 10000 "JMP 0 0".toList,
      well_formed_line (0 : ℚ) ideal_stof line := by
    intro line hl
    rw [List.eq_of_mem_replicate hl]
    exact ⟨_, rfl⟩
  refine ⟨List.length_replicate _ _, hwf, ?_⟩
  exact (load_lines_well_formed (0 : ℚ) ideal_stof _ 0 _ hwf).2 (by decide)
    (by rw [List.length_replicate]; decide)

/-- C26 (amended): an object file of well-formed lines is accepted when it has
at most 9,999 lines, and then `last_instruction` is the number of lines; it
fails with the store-overflow error when it has 10,000 lines or more. -/
theorem C26_capacity (zero : F) (stof : List Char → Option F) (lines : List (List Char))
    (hwf : ∀ line ∈ lines, well_formed_line zero stof line) :
    (lines.length ≤ 9999 → ∃ cs, load zero stof lines = Except.ok (cs, lines.length))
      ∧ (10000 ≤ lines.length →
          load zero stof lines = Except.error (10000, load_failure.code_store_full)) := by
  have h := load_lines_well_formed zero stof lines 0
    (fun _ => { f := .fun_MST, l := 0, a := Memory_cell.mk_undef zero }) hwf
  simp only [Nat.zero_add, code_size] at h
  constructor
  · intro hl
    exact h.1 (by omega)
  · intro hl
    exact h.2 (by omega) hl

theorem C26_capacity_witness :
    (program_level_suffix.length ≤ 9999 →
        ∃ cs, load (0 : ℚ) ideal_stof program_level_suffix
          = Except.ok (cs, program_level_suffix.length))
      ∧ (10000 ≤ program_level_suffix.length →
          load (0 : ℚ) ideal_stof program_level_suffix
            = Except.error (10000, load_failure.code_store_full)) :=
  C26_capacity (0 : ℚ) ideal_stof program_level_suffix (by
    intro line hl
    simp only [program_level_suffix, List.mem_cons, List.mem_singleton, List.not_mem_nil,
      or_false] at hl
    rcases hl with h | h | h <;> subst h <;> exact ⟨_, rfl⟩)

end LoaderClaims

end PAL

/-! ## Duplicate and drop, the handler slot, negative exponents (C31 - C34) -/

namespace PAL

section HandlerSlot

variable {F In : Type}

theorem exec_dup_eq (pf : Platform F In) (fuel : Nat) (s : State F In) (ir : instruction F)
    (hf : ir.f = fun_code.fun_OPR) (ha : ir.a.get_int = Except.ok 23) :
    exec_instruction pf fuel ir s = Outcome.ok ()
      { s with top_of_stack := s.top_of_stack + 1,
               data_store := fun j =>
                 if j = s.top_of_stack + 1 then s.data_store (s.top_of_stack + 1 - 1)
                 else s.data_store j } := by
  rw [exec_instruction_opr pf fuel ir 23 hf ha]
  simp [exec_opr, Exec.bind, store_cell, set_cell, set_top]

theorem exec_drop_eq (pf : Platform F In) (fuel : Nat) (s : State F In) (ir : instruction F)
    (hf : ir.f = fun_code.fun_OPR) (ha : ir.a.get_int = Except.ok 24) :
    exec_instruction pf fuel ir s = Outcome.ok ()
      { s with top_of_stack := s.top_of_stack - 1 } := by
  rw [exec_instruction_opr pf fuel ir 24 hf ha]
  simp [exec_opr, Exec.bind, set_top]

/-- A dispatch step that executes OPR 0 23 copies the top cell into the cell above it. -/
theorem step_dup (pf : Platform F In) (fuel : Nat) (s : State F In)
    (hf : (s.code_store s.program_counter).f = fun_code.fun_OPR)
    (ha : (s.code_store s.program_counter).a.get_int = Except.ok 23) :
    ∃ s1, step pf fuel s = Outcome.ok () s1
      ∧ s1.data_store = (fun j =>
          if j = s.top_of_stack + 1 then s.data_store (s.top_of_stack + 1 - 1)
          else s.data_store j)
      ∧ s1.base_register = s.base_register
      ∧ s1.top_of_stack = s.top_of_stack + 1
      ∧ s1.program_counter = s.program_counter + 1
      ∧ s1.code_store = s.code_store
      ∧ s1.pal_exception = s.pal_exception := by
  refine ⟨_, step_of_exec_ok_eq pf fuel s _
    (exec_dup_eq pf fuel (fetched pf s) (s.code_store s.program_counter) hf ha), ?_⟩
  simp [fetched]

/-- A dispatch step that executes OPR 0 24 lowers T by one. -/
theorem step_drop (pf : Platform F In) (fuel : Nat) (s : State F In)
    (hf : (s.code_store s.program_counter).f = fun_code.fun_OPR)
    (ha : (s.code_store s.program_counter).a.get_int = Except.ok 24) :
    ∃ s1, step pf fuel s = Outcome.ok () s1
      ∧ s1.data_store = s.data_store
      ∧ s1.base_register = s.base_register
      ∧ s1.top_of_stack = s.top_of_stack - 1
      ∧ s1.program_counter = s.program_counter + 1
      ∧ s1.code_store = s.code_store
      ∧ s1.pal_exception = s.pal_exception := by
  refine ⟨_, step_of_exec_ok_eq pf fuel s _
    (exec_drop_eq pf fuel (fetched pf s) (s.code_store s.program_counter) hf ha), ?_⟩
  simp [fetched]

/-- C31: in every state, a dispatch step that executes OPR 0 23 followed by one
that executes OPR 0 24 returns with B and T as they were and PC advanced by two;
the only data cell written is the one at index T+1, above the stack, which
holds a copy of the top cell: every cell at an index other than T+1, so every
cell at an index <= T, is unchanged; the current exception is unchanged too. -/
theorem C31_dup_drop (pf : Platform F In) (fuel : Nat) (s : State F In)
    (h1 : (s.code_store s.program_counter).f = fun_code.fun_OPR)
    (h1a : (s.code_store s.program_counter).a.get_int = Except.ok 23)
    (h2 : (s.code_store (s.program_counter + 1)).f = fun_code.fun_OPR)
    (h2a : (s.code_store (s.program_counter + 1)).a.get_int = Except.ok 24) :
    ∃ s1 s2, step pf fuel s = Outcome.ok () s1 ∧ step pf fuel s1 = Outcome.ok () s2
      ∧ s2.base_register = s.base_register
      ∧ s2.top_of_stack = s.top_of_stack
      ∧ (∀ j, j ≠ s.top_of_stack + 1 → s2.data_store j = s.data_store j)
      ∧ (∀ j, j ≤ s.top_of_stack → s2.data_store j = s.data_store j)
      ∧ s2.data_store (s.top_of_stack + 1) = s.data_store s.top_of_stack
      ∧ s2.program_counter = s.program_counter + 2
      ∧ s2.pal_exception = s.pal_exception := by
  obtain ⟨s1, e1, d1, b1, t1, p1, c1, x1⟩ := step_dup pf fuel s h1 h1a
  obtain ⟨s2, e2, d2, b2, t2, p2, _, x2⟩ := step_drop pf fuel s1
    (by rw [c1, p1]; exact h2) (by rw [c1, p1]; exact h2a)
  have hd : ∀ j, j ≠ s.top_of_stack + 1 → s2.data_store j = s.data_store j := by
    intro j hj
    rw [d2, d1]
    simp [hj]
  refine ⟨s1, s2, e1, e2, by rw [b2, b1], by rw [t2, t1]; ring, hd, ?_, ?_,
    by rw [p2, p1]; ring, by rw [x2, x1]⟩
  · intro j hj
    exact hd j (by omega)
  · rw [d2, d1]
    simp

theorem C31_dup_drop_witness :
    ∃ s1 s2, step ideal_platform 1
        (operand_state [opr 23, opr 24] 1 [Memory_cell.mk_int 0 1]) = Outcome.ok () s1
      ∧ step ideal_platform 1 s1 = Outcome.ok () s2
      ∧ s2.top_of_stack = (operand_state [opr 23, opr 24] 1 [Memory_cell.mk_int 0 1]).top_of_stack
      ∧ s2.program_counter = 1 + 2 := by
  obtain ⟨s1, s2, h1, h2, _, h4, _, _, _, h8, _⟩ := C31_dup_drop ideal_platform 1
    (operand_state [opr 23, opr 24] 1 [Memory_cell.mk_int 0 1]) rfl rfl rfl rfl
  exact ⟨s1, s2, h1, h2, h4, h8⟩

/-- One iteration of the loop of `unwind` on a frame whose handler slot holds a
handler address in range: the handler is found. -/
theorem unwind_loop_found (pf : Platform F In) (fuel : Nat) (exc lp lb h : Int)
    (s : State F In) (hs : (s.data_store (lb - 1)).get_int = Except.ok h)
    (h0 : 0 < h) (h1 : h < s.last_instruction) :
    ∃ s', unwind_loop pf (fuel + 1) exc lp lb s = Outcome.ok (h, lb) s'
      ∧ s'.top_of_stack = s.top_of_stack ∧ s'.data_store = s.data_store := by
  have hi := Memory_cell.is_int_of_get_int hs
  have hne : h ≠ 0 := by omega
  rw [unwind_loop]
  cases hd : s.debugging_pal_code <;>
    simp [Exec.bind, hd, hi, hs, hne, h0, h1, put_listing, trace_stack]

/-- One iteration on a frame whose handler slot holds an address out of range. -/
theorem unwind_loop_invalid (pf : Platform F In) (fuel : Nat) (exc lp lb h : Int)
    (s : State F In) (hs : (s.data_store (lb - 1)).get_int = Except.ok h) (hne : h ≠ 0)
    (hbad : h < 0 ∨ s.last_instruction ≤ h) :
    ∃ s', unwind_loop pf (fuel + 1) exc lp lb s
        = Outcome.aborted "Exception handler address is invalid" s'
      ∧ s'.top_of_stack = s.top_of_stack ∧ s'.data_store = s.data_store := by
  have hi := Memory_cell.is_int_of_get_int hs
  have hc : ¬ (h > 0 ∧ h < s.last_instruction) := by omega
  rw [unwind_loop]
  cases hd : s.debugging_pal_code <;>
    simp [Exec.bind, hd, hi, hs, hne, hc, put_listing, trace_stack, fatal_error_eq]

/-- One iteration on a frame whose handler slot is not an `Int`. -/
theorem unwind_loop_wrong_type (pf : Platform F In) (fuel : Nat) (exc lp lb : Int)
    (s : State F In) (hs : (s.data_store (lb - 1)).is_int = false) :
    ∃ s', unwind_loop pf (fuel + 1) exc lp lb s
        = Outcome.aborted "Exception handler address has the wrong type!" s'
      ∧ s'.top_of_stack = s.top_of_stack ∧ s'.data_store = s.data_store := by
  rw [unwind_loop]
  cases hd : s.debugging_pal_code <;>
    simp [Exec.bind, hd, hs, put_listing, trace_stack, fatal_error_eq]

/-- One iteration on a frame without handler: the frame is discarded and the
loop goes on with the frame the dynamic link designates. -/
theorem unwind_loop_discard (pf : Platform F In) (fuel : Nat) (exc lp lb r d : Int)
    (s : State F In) (hs : (s.data_store (lb - 1)).get_int = Except.ok 0)
    (hr : (s.data_store (lb - 2)).get_int = Except.ok r)
    (hd : (s.data_store (lb - 3)).get_int = Except.ok d) (hd0 : d ≠ 0) :
    ∃ s1, unwind_loop pf (fuel + 1) exc lp lb s = unwind_loop pf fuel exc r d s1
      ∧ s1.top_of_stack = lb - 5 ∧ s1.data_store = s.data_store
      ∧ s1.last_instruction = s.last_instruction
      ∧ s1.debugging_pal_code = s.debugging_pal_code := by
  have hi := Memory_cell.is_int_of_get_int hs
  have e3 : lb - 5 + 3 = lb - 2 := by ring
  have e2 : lb - 5 + 2 = lb - 3 := by ring
  rw [unwind_loop]
  cases hdb : s.debugging_pal_code
  · refine ⟨{ s with top_of_stack := lb - 5 }, ?_, rfl, rfl, rfl, hdb⟩
    simp [Exec.bind, hdb, hi, hs, e3, e2, hr, hd, hd0]
  · refine ⟨{ s with
        top_of_stack := lb - 5,
        cout := s.cout ++ [Output.listing "Unwinding\n"]
          ++ [Output.listing (stack_dump pf
            { s with cout := s.cout ++ [Output.listing "Unwinding\n"] } lb s.top_of_stack)]
          ++ [Output.listing "\n"] ++ [Output.listing "No handler in this frame.\n"] },
      ?_, rfl, rfl, rfl, hdb⟩
    simp [Exec.bind, hdb, hi, hs, e3, e2, hr, hd, hd0, put_listing, trace_stack]

/-- One iteration on the last frame without handler: the dynamic link is 0. -/
theorem unwind_loop_last (pf : Platform F In) (fuel : Nat) (exc lp lb r : Int)
    (s : State F In) (hs : (s.data_store (lb - 1)).get_int = Except.ok 0)
    (hr : (s.data_store (lb - 2)).get_int = Except.ok r)
    (hd : (s.data_store (lb - 3)).get_int = Except.ok 0) :
    ∃ s', unwind_loop pf (fuel + 1) exc lp lb s
        = Outcome.aborted "Exception never handled." s'
      ∧ s'.top_of_stack = lb - 5 ∧ s'.data_store = s.data_store := by
  have hi := Memory_cell.is_int_of_get_int hs
  have e3 : lb - 5 + 3 = lb - 2 := by ring
  have e2 : lb - 5 + 2 = lb - 3 := by ring
  rw [unwind_loop]
  cases hdb : s.debugging_pal_code <;>
    simp [Exec.bind, hdb, hi, hs, e3, e2, hr, hd, put_listing, trace_stack, fatal_error_eq]

/-- C32: one iteration of the loop of `unwind` on the frame with base `lb`.
The handler slot (cell lb-1) is taken as a found handler when it is `Int(h)`
with 0 < h < last_instruction: the loop ends with `lp = h`, T unchanged.
`Int(h)` with h /= 0 and h < 0 or h >= last_instruction ends in the fatal
termination "Exception handler address is invalid", and a slot that is not an
`Int` in the fatal termination "Exception handler address has the wrong type!",
both with T unchanged.  Only `Int(0)` discards the frame (T becomes lb-5): the
loop goes on with the frame the dynamic link designates, or ends in "Exception
never handled." when the link is 0. -/
theorem C32_handler_slot (pf : Platform F In) (fuel : Nat) (exc lp lb : Int)
    (s : State F In) :
    (∀ h, (s.data_store (lb - 1)).get_int = Except.ok h → 0 < h → h < s.last_instruction →
        ∃ s', unwind_loop pf (fuel + 1) exc lp lb s = Outcome.ok (h, lb) s'
          ∧ s'.top_of_stack = s.top_of_stack ∧ s'.data_store = s.data_store)
      ∧ (∀ h, (s.data_store (lb - 1)).get_int = Except.ok h → h ≠ 0 →
          h < 0 ∨ s.last_instruction ≤ h →
          ∃ s', unwind_loop pf (fuel + 1) exc lp lb s
              = Outcome.aborted "Exception handler address is invalid" s'
            ∧ s'.top_of_stack = s.top_of_stack ∧ s'.data_store = s.data_store)
      ∧ ((s.data_store (lb - 1)).is_int = false →
          ∃ s', unwind_loop pf (fuel + 1) exc lp lb s
              = Outcome.aborted "Exception handler address has the wrong type!" s'
            ∧ s'.top_of_stack = s.top_of_stack ∧ s'.data_store = s.data_store)
      ∧ ((s.data_store (lb - 1)).get_int = Except.ok 0 →
          ∀ r d, (s.data_store (lb - 2)).get_int = Except.ok r →
            (s.data_store (lb - 3)).get_int = Except.ok d →
            (d ≠ 0 →
              ∃ s1, unwind_loop pf (fuel + 1) exc lp lb s = unwind_loop pf fuel exc r d s1
                ∧ s1.top_of_stack = lb - 5 ∧ s1.data_store = s.data_store
                ∧ s1.last_instruction = s.last_instruction)
              ∧ (d = 0 →
                ∃ s', unwind_loop pf (fuel + 1) exc lp lb s
                    = Outcome.aborted "Exception never handled." s'
                  ∧ s'.top_of_stack = lb - 5 ∧ s'.data_store = s.data_store)) := by
  refine ⟨?_, ?_, ?_, ?_⟩
  · intro h hs h0 h1
    exact unwind_loop_found pf fuel exc lp lb h s hs h0 h1
  · intro h hs hne hbad
    exact unwind_loop_invalid pf fuel exc lp lb h s hs hne hbad
  · intro hs
    exact unwind_loop_wrong_type pf fuel exc lp lb s hs
  · intro hs r d hr hd
    constructor
    · intro hd0
      obtain ⟨s1, h1, h2, h3, h4, _⟩ := unwind_loop_discard pf fuel exc lp lb r d s hs hr hd hd0
      exact ⟨s1, h1, h2, h3, h4⟩
    · intro hd0
      subst hd0
      exact unwind_loop_last pf fuel exc lp lb r s hs hr hd

theorem C32_handler_slot_witness :
    ∃ s', unwind_loop ideal_platform (0 + 1) 1 1 6
        (operand_state program_handler 1 [Memory_cell.mk_int 0 3]) = Outcome.ok (3, 6) s'
      ∧ s'.top_of_stack = (operand_state program_handler 1 [Memory_cell.mk_int 0 3]).top_of_stack
      ∧ s'.data_store = (operand_state program_handler 1 [Memory_cell.mk_int 0 3]).data_store :=
  (C32_handler_slot ideal_platform 0 1 1 6
    (operand_state program_handler 1 [Memory_cell.mk_int 0 3])).1 3 rfl (by decide) (by decide)

theorem exec_reh_eq (pf : Platform F In) (fuel : Nat) (s : State F In) (ir : instruction F)
    (A : Int) (hf : ir.f = fun_code.fun_REH) (ha : ir.a.get_int = Except.ok A) :
    exec_instruction pf fuel ir s = Outcome.ok ()
      { s with data_store := fun j =>
          if j = s.base_register - 1 then (s.data_store j).set_int A else s.data_store j } := by
  simp [exec_instruction, hf, ha, Exec.bind, set_cell]

/-- MST in a state whose static links are `Int`: the four cells of the stack
mark are written above T, and T is raised by four. -/
theorem exec_mst (pf : Platform F In) (fuel : Nat) (s : State F In) (ir : instruction F)
    (hf : ir.f = fun_code.fun_MST)
    (hl : static_links_int s.data_store ir.l.toNat s.base_register) :
    ∃ s1, exec_instruction pf fuel ir s = Outcome.ok () s1
      ∧ s1.top_of_stack = s.top_of_stack + 4
      ∧ s1.base_register = s.base_register
      ∧ s1.program_counter = s.program_counter
      ∧ s1.code_store = s.code_store
      ∧ s1.pal_exception = s.pal_exception
      ∧ (s1.data_store (s.top_of_stack + 1)).get_int
          = Except.ok (follow_static_links s.data_store ir.l.toNat s.base_register)
      ∧ (s1.data_store (s.top_of_stack + 2)).get_int = Except.ok s.base_register
      ∧ (s1.data_store (s.top_of_stack + 3)).get_int = Except.ok 0
      ∧ (s1.data_store (s.top_of_stack + 4)).get_int = Except.ok 0
      ∧ (∀ i, i ≤ s.top_of_stack → s1.data_store i = s.data_store i) := by
  have hb := base_eq pf fuel s ir.l hl
  simp [exec_instruction, hf, Exec.bind, hb, set_cell, set_top, Memory_cell.get_int_eq_ok,
    Memory_cell.set_int]
  intro i hi
  have h1 : i ≠ s.top_of_stack + 1 := by omega
  have h2 : i ≠ s.top_of_stack + 2 := by omega
  have h3 : i ≠ s.top_of_stack + 3 := by omega
  have h4 : i ≠ s.top_of_stack + 4 := by omega
  simp [h1, h2, h3, h4]

/-- C33 (counterexample): the main program REH 0 99; JMP 0 0 has two
instructions; after its first step the handler slot of the current frame
(cell B-1 = cell 4) holds `Int(99)`, an address outside 1..last_instruction. -/
theorem C33_handler_out_of_range :
    (final_state (execute_first ideal_platform 100 1
        (initial_state ideal_platform program_bad_handler false))).map
          (fun s => (s.base_register, (s.data_store 4).type, (s.data_store 4).ivalue,
            s.last_instruction))
      = some (5, types.types_INT, 99, 2) := by
  decide!

/-- C33 (amended): the handler slot holds `Int(0)` when a frame is created:
`execute_code` initialises cell B-1 of the main frame to `Int(0)`, and MST
writes `Int(0)` into the fourth cell of the stack mark, which is cell B-1 of
the frame a CAL then enters.  REH 0 A stores `Int(A)` in cell B-1 for every
`Int` A, in range or not, and changes nothing else; an address A /= 0 outside
0 < A < last_instruction stays in the slot until `unwind` reads it and ends in
the fatal termination "Exception handler address is invalid". -/
theorem C33_handler_slot_contents (pf : Platform F In) (fuel : Nat) (s : State F In)
    (ir : instruction F) (A : Int) (hf : ir.f = fun_code.fun_REH)
    (ha : ir.a.get_int = Except.ok A) :
    exec_instruction pf fuel ir s = Outcome.ok ()
        { s with data_store := fun j =>
            if j = s.base_register - 1 then (s.data_store j).set_int A else s.data_store j }
      ∧ (∃ s1, init_machine pf s = Outcome.ok () s1
          ∧ (s1.data_store (s1.base_register - 1)).get_int = Except.ok 0)
      ∧ (∀ irm : instruction F, irm.f = fun_code.fun_MST →
          static_links_int s.data_store irm.l.toNat s.base_register →
          ∃ s1, exec_instruction pf fuel irm s = Outcome.ok () s1
            ∧ s1.top_of_stack = s.top_of_stack + 4
            ∧ (s1.data_store s1.top_of_stack).get_int = Except.ok 0)
      ∧ (∀ (irc : instruction F) (T : Int), irc.f = fun_code.fun_CAL →
          (∃ a, irc.a.get_int = Except.ok a) → s.top_of_stack = T + irc.l →
          (s.data_store T).get_int = Except.ok 0 →
          ∃ s1, exec_instruction pf fuel irc s = Outcome.ok () s1
            ∧ s1.base_register - 1 = T
            ∧ (s1.data_store (s1.base_register - 1)).get_int = Except.ok 0)
      ∧ (∀ (exc lp : Int) (n : Nat), A ≠ 0 → A < 0 ∨ s.last_instruction ≤ A →
          ∃ s', unwind_loop pf (n + 1) exc lp s.base_register
              { s with data_store := fun j =>
                  if j = s.base_register - 1 then (s.data_store j).set_int A
                  else s.data_store j }
            = Outcome.aborted "Exception handler address is invalid" s') := by
  refine ⟨exec_reh_eq pf fuel s ir A hf ha, ?_, ?_, ?_, ?_⟩
  · simp only [init_machine, Bind.bind, Exec.bind, set_top, set_base, set_pc, store_cell,
      set_cell, Exec.modify]
    exact ⟨_, rfl, rfl⟩
  · intro irm hm hl
    obtain ⟨s1, h1, h2, _, _, _, _, _, _, _, h10, _⟩ := exec_mst pf fuel s irm hm hl
    exact ⟨s1, h1, h2, by rw [h2]; exact h10⟩
  · intro irc T hc hcall hT h0
    obtain ⟨a, hca⟩ := hcall
    simp [exec_instruction, hc, hca, Exec.bind, set_base, set_cell, set_pc, hT]
    rw [if_neg (by omega)]
    exact h0
  · intro exc lp n hne hbad
    obtain ⟨s', h1, _, _⟩ := unwind_loop_invalid pf n exc lp s.base_register A
      { s with data_store := fun j =>
          if j = s.base_register - 1 then (s.data_store j).set_int A else s.data_store j }
      (by simp [Memory_cell.get_int, Memory_cell.set_int]) hne hbad
    exact ⟨s', h1⟩

theorem C33_handler_slot_contents_witness :
    exec_instruction ideal_platform 1 (instr_int ideal_platform .fun_REH 0 99)
        (operand_state program_bad_handler 1 [])
      = Outcome.ok ()
        { operand_state program_bad_handler 1 [] with data_store := fun j =>
            if j = (operand_state program_bad_handler 1 []).base_register - 1 then
              ((operand_state program_bad_handler 1 []).data_store j).set_int 99
            else (operand_state program_bad_handler 1 []).data_store j } :=
  (C33_handler_slot_contents ideal_platform 1 (operand_state program_bad_handler 1 [])
    (instr_int ideal_platform .fun_REH 0 99) 99 rfl rfl).1

/-- OPR 0 7 with an `Int` base and a negative exponent leaves the base. -/
theorem exec_power_negative_int (pf : Platform F In) (fuel : Nat) (s : State F In)
    (ir : instruction F) (x e : Int) (hf : ir.f = fun_code.fun_OPR)
    (hk : ir.a.get_int = Except.ok 7)
    (hx : (s.data_store (s.top_of_stack - 1)).get_int = Except.ok x)
    (he : (s.data_store s.top_of_stack).get_int = Except.ok e) (hneg : e < 0) :
    exec_instruction pf fuel ir s = Outcome.ok ()
      { s with top_of_stack := s.top_of_stack - 1,
               data_store := fun j => if j = s.top_of_stack - 1 then
                 (s.data_store j).set_int x else s.data_store j } := by
  have hx' := Memory_cell.get_int_eq_ok.mp hx
  have he' := Memory_cell.get_int_eq_ok.mp he
  have h0 : ¬ e = 0 := by omega
  have h1 : e.toNat - 1 = 0 := by omega
  rw [exec_instruction_opr pf fuel ir 7 hf hk, exec_opr_power]
  simp only [opr_power, Exec.bind_apply, Exec.modify_apply, Exec.get_apply]
  simp [Exec.bind, Memory_cell.get_type, hx', he', hx, he, set_cell, h0, h1, pow_loop_int]

/-- OPR 0 7 with a `Real` base and a negative exponent leaves the base. -/
theorem exec_power_negative_real (pf : Platform F In) (fuel : Nat) (s : State F In)
    (ir : instruction F) (x : F) (e : Int) (hf : ir.f = fun_code.fun_OPR)
    (hk : ir.a.get_int = Except.ok 7)
    (hx : (s.data_store (s.top_of_stack - 1)).get_real = Except.ok x)
    (he : (s.data_store s.top_of_stack).get_int = Except.ok e) (hneg : e < 0) :
    exec_instruction pf fuel ir s = Outcome.ok ()
      { s with top_of_stack := s.top_of_stack - 1,
               data_store := fun j => if j = s.top_of_stack - 1 then
                 (s.data_store j).set_real x else s.data_store j } := by
  have hx' := Memory_cell.get_real_eq_ok.mp hx
  have he' := Memory_cell.get_int_eq_ok.mp he
  have h0 : ¬ e = 0 := by omega
  have h1 : e.toNat - 1 = 0 := by omega
  rw [exec_instruction_opr pf fuel ir 7 hf hk, exec_opr_power]
  simp only [opr_power, Exec.bind_apply, Exec.modify_apply, Exec.get_apply]
  simp [Exec.bind, Memory_cell.get_type, hx', he', hx, he, set_cell, h0, h1, pow_loop_real]

/-- C34 (the code does not do what the claim says): with a negative exponent
OPR 0 7 neither takes the run-time error path nor leaves zero.  The loop
`for (j = 1; j <= n - 1; j++)` makes no iteration, so the result is the base
itself: for every `Int` x and every exponent -(n+1), `Int(x)`; for every `Real`
r, `Real(r)`; T is lowered by one and nothing is written on standard error.
For instance 2 to the power -1 is `Int(2)`. -/
theorem C34_negative_exponent (x : Int) (r : ℚ) (n : Nat) :
    (final_state (exec_instruction ideal_platform 1 (opr 7)
        (operand_state [] 1 [Memory_cell.mk_int 0 x, Memory_cell.mk_int 0 (-((n : Int) + 1))]))).map
          (fun s => (s.top_of_stack, (s.data_store 5).type, (s.data_store 5).ivalue, s.cerr))
        = some (5, types.types_INT, x, "")
      ∧ (final_state (exec_instruction ideal_platform 1 (opr 7)
        (operand_state [] 1 [Memory_cell.mk_real 0 r, Memory_cell.mk_int 0 (-((n : Int) + 1))]))).map
          (fun s => (s.top_of_stack, (s.data_store 5).type, (s.data_store 5).rvalue, s.cerr))
        = some (5, types.types_REAL, r, "")
      ∧ (final_state (exec_instruction ideal_platform 1 (opr 7)
        (operand_state [] 1 [Memory_cell.mk_int 0 2, Memory_cell.mk_int 0 (-1)]))).map
          (fun s => (s.top_of_stack, (s.data_store 5).type, (s.data_store 5).ivalue, s.cerr))
        = some (5, types.types_INT, 2, "") := by
  refine ⟨?_, ?_, by decide!⟩
  · rw [exec_power_negative_int ideal_platform 1
      (operand_state [] 1 [Memory_cell.mk_int 0 x, Memory_cell.mk_int 0 (-((n : Int) + 1))])
      (opr 7) x (-((n : Int) + 1)) rfl rfl rfl rfl (by omega)]
    rfl
  · rw [exec_power_negative_real ideal_platform 1
      (operand_state [] 1 [Memory_cell.mk_real 0 r, Memory_cell.mk_int 0 (-((n : Int) + 1))])
      (opr 7) r (-((n : Int) + 1)) rfl rfl rfl rfl (by omega)]
    rfl

end HandlerSlot

end PAL

/-! ## The current exception; call and return (C35, C36) -/

namespace PAL

section CurrentException

variable {F In γ : Type}

theorem set_pc_fixes {g : State F In → γ}
    (hpc : ∀ (s : State F In) p, g { s with program_counter := p } = g s) (p : Int) :
    Exec.Fixes g (set_pc p : Exec (State F In) Unit) := by
  apply Exec.Fixes.modify
  intro s
  exact hpc s p

theorem set_base_fixes {g : State F In → γ}
    (hb : ∀ (s : State F In) b, g { s with base_register := b } = g s) (b : Int) :
    Exec.Fixes g (set_base b : Exec (State F In) Unit) := by
  apply Exec.Fixes.modify
  intro s
  exact hb s b

/-- Every operation, the two returns included, leaves alone whatever does not
depend on the stack, the output streams, the program counter and the base
register. -/
theorem exec_opr_fixes_all {g : State F In → γ} (hg : stack_independent g)
    (hpc : ∀ (s : State F In) p, g { s with program_counter := p } = g s)
    (hb : ∀ (s : State F In) b, g { s with base_register := b } = g s)
    (pf : Platform F In) (fuel : Nat) (k : Int) :
    Exec.Fixes g (exec_opr pf fuel k) := by
  by_cases h0 : k = 0
  · unfold exec_opr
    simp only [h0, ↓reduceIte]
    repeat' with_reducible (first
      | apply Exec.Fixes.bind
      | apply Exec.Fixes.ite
      | apply Exec.Fixes.get
      | apply Exec.Fixes.lift
      | apply Exec.Fixes.pure
      | apply set_top_fixes hg
      | apply set_pc_fixes hpc
      | apply set_base_fixes hb
      | apply trace_stack_fixes hg.unwind
      | intro _)
  · by_cases h1 : k = 1
    · unfold exec_opr
      simp only [h1, ↓reduceIte]
      repeat' with_reducible (first
        | apply Exec.Fixes.bind
        | apply Exec.Fixes.ite
        | apply Exec.Fixes.get
        | apply Exec.Fixes.lift
        | apply Exec.Fixes.pure
        | apply set_top_fixes hg
        | apply store_cell_fixes hg
        | apply set_pc_fixes hpc
        | apply set_base_fixes hb
        | apply trace_stack_fixes hg.unwind
        | intro _)
    · exact exec_opr_fixes hg pf fuel k h0 h1

/-- Every instruction other than SIG leaves alone whatever depends only on the
code store, the current exception and `last_instruction`. -/
theorem exec_instruction_fixes_of {g : State F In → γ} (hg : stack_independent g)
    (hpc : ∀ (s : State F In) p, g { s with program_counter := p } = g s)
    (hb : ∀ (s : State F In) b, g { s with base_register := b } = g s)
    (hcin : ∀ (s : State F In) c, g { s with cin := c } = g s)
    (hdbg : ∀ (s : State F In) d, g { s with debugging_pal_code := d } = g s)
    (pf : Platform F In) (fuel : Nat) (ir : instruction F)
    (hsig : ir.f ≠ fun_code.fun_SIG) :
    Exec.Fixes g (exec_instruction pf fuel ir) := by
  have hg' : ∀ (s : State F In) (ds : Int → Memory_cell F),
      g { s with data_store := ds } = g s :=
    fun s ds => hg s ds s.top_of_stack s.cout s.cerr
  unfold exec_instruction
  split <;> first
    | contradiction
    | (repeat' with_reducible (first
        | apply Exec.Fixes.bind
        | apply Exec.Fixes.ite
        | apply Exec.Fixes.get
        | apply Exec.Fixes.lift
        | apply Exec.Fixes.pure
        | apply set_cell_fixes hg
        | apply store_cell_fixes hg
        | apply set_top_fixes hg
        | apply pop_fixes hg
        | apply set_pc_fixes hpc
        | apply set_base_fixes hb
        | apply base_fixes hg.unwind
        | apply error_fixes hg.unwind
        | apply exec_opr_fixes_all hg hpc hb
        | intro _
        | dsimp only
        | (apply Exec.Fixes.modify; intro s; first
            | exact hcin s _
            | exact hdbg s _
            | exact hg' s _)))

theorem pal_exception_stack_independent :
    stack_independent (fun s : State F In => s.pal_exception) := by
  intro s ds t c e
  rfl

theorem code_store_stack_independent :
    stack_independent (fun s : State F In => s.code_store) := by
  intro s ds t c e
  rfl

/-- No instruction changes the code store. -/
theorem exec_instruction_fixes_code (pf : Platform F In) (fuel : Nat) (ir : instruction F) :
    Exec.Fixes (fun s : State F In => s.code_store) (exec_instruction pf fuel ir) := by
  by_cases hsig : ir.f = fun_code.fun_SIG
  · intro s s' h
    cases ha : ir.a.get_int with
    | error msg =>
      simp [exec_instruction, hsig, ha, Exec.bind, final_state] at h
      rw [← h]
    | ok a =>
      by_cases h0 : a = 0
      · simp [exec_instruction, hsig, ha, Exec.bind, final_state, h0] at h
        rw [← h]
      · simp [exec_instruction, hsig, ha, Exec.bind, final_state, h0] at h
        rw [← h]
  · exact exec_instruction_fixes_of code_store_stack_independent (fun _ _ => rfl)
      (fun _ _ => rfl) (fun _ _ => rfl) (fun _ _ => rfl) pf fuel ir hsig

/-- What holds before a dispatch step and is kept by it holds after any number
of steps. -/
theorem run_steps_invariant (pf : Platform F In) (fuel : Nat) (P : State F In → Prop)
    (hstep : ∀ s s', P s → final_state (step pf fuel s) = some s' → P s') :
    ∀ (n : Nat) (s s' : State F In), P s → final_state (run_steps pf fuel n s) = some s' →
      P s' := by
  intro n
  induction n with
  | zero =>
    intro s s' hP h
    simp [run_steps, final_state] at h
    rw [← h]
    exact hP
  | succ k ih =>
    intro s s' hP h
    rw [run_steps] at h
    simp only [Exec.bind_apply, Exec.bind] at h
    cases hs : step pf fuel s with
    | ok a s1 =>
      have hP1 : P s1 := hstep s s1 hP (by rw [hs]; rfl)
      simp only [hs, Exec.get_apply] at h
      by_cases hpc : s1.program_counter ≠ 0
      · rw [if_pos hpc] at h
        exact ih s1 s' hP1 h
      · simp [hpc, final_state] at h
        rw [← h]
        exact hP1
    | aborted msg s1 =>
      simp [hs, final_state] at h
      rw [← h]
      exact hstep s s1 hP (by rw [hs]; rfl)
    | uncaught msg s1 =>
      simp [hs, final_state] at h
      rw [← h]
      exact hstep s s1 hP (by rw [hs]; rfl)
    | timeout =>
      simp [hs, final_state] at h

/-- A dispatch step leaves the code store as it is, however it ends. -/
theorem step_fixes_code (pf : Platform F In) (fuel : Nat) (s s' : State F In)
    (h : final_state (step pf fuel s) = some s') : s'.code_store = s.code_store :=
  step_fixes (fun s : State F In => s.code_store) code_store_stack_independent.unwind pf fuel
    s s' (exec_instruction_fixes_code pf fuel _) h

/-- A dispatch step that executes an instruction other than SIG leaves the
current exception as it is, however it ends. -/
theorem step_fixes_exception (pf : Platform F In) (fuel : Nat) (s s' : State F In)
    (hsig : (s.code_store s.program_counter).f ≠ fun_code.fun_SIG)
    (h : final_state (step pf fuel s) = some s') : s'.pal_exception = s.pal_exception :=
  step_fixes (fun s : State F In => s.pal_exception) pal_exception_independent pf fuel s s'
    (exec_instruction_fixes_of pal_exception_stack_independent (fun _ _ => rfl)
      (fun _ _ => rfl) (fun _ _ => rfl) (fun _ _ => rfl) pf fuel _ hsig) h

theorem exec_sig_eq (pf : Platform F In) (fuel : Nat) (s : State F In) (ir : instruction F)
    (I : Int) (hf : ir.f = fun_code.fun_SIG) (ha : ir.a.get_int = Except.ok I) :
    exec_instruction pf fuel ir s
      = Outcome.ok () (if I ≠ 0 then { s with pal_exception := I } else s) := by
  by_cases h0 : I = 0
  · simp [exec_instruction, hf, ha, Exec.bind, h0]
  · simp [exec_instruction, hf, ha, Exec.bind, h0]

/-- C35: the current exception E is 1 (program abort) when the program starts;
SIG 0 I with I /= 0 sets E to I and changes nothing else; SIG 0 0 changes
nothing at all, so that its dispatch step only advances PC (E, B, T and the data
store are as they were, nothing is unwound); every other instruction leaves E
as it is however it ends, and so does the run-time error path (`error`,
`unwind`).  Hence E is still what it was after any number of steps of a
program without SIG. -/
theorem C35_current_exception (pf : Platform F In) (fuel : Nat) (s : State F In)
    (ir : instruction F) :
    (∀ prog input, (initial_state pf prog input).pal_exception = 1)
      ∧ (∀ I, ir.f = fun_code.fun_SIG → ir.a.get_int = Except.ok I → I ≠ 0 →
          exec_instruction pf fuel ir s = Outcome.ok () { s with pal_exception := I })
      ∧ (ir.f = fun_code.fun_SIG → ir.a.get_int = Except.ok 0 →
          exec_instruction pf fuel ir s = Outcome.ok () s)
      ∧ (s.code_store s.program_counter = ir → ir.f = fun_code.fun_SIG →
          ir.a.get_int = Except.ok 0 →
          ∃ s', step pf fuel s = Outcome.ok () s'
            ∧ s'.pal_exception = s.pal_exception ∧ s'.base_register = s.base_register
            ∧ s'.top_of_stack = s.top_of_stack ∧ s'.data_store = s.data_store
            ∧ s'.program_counter = s.program_counter + 1 ∧ s'.cerr = s.cerr)
      ∧ (ir.f ≠ fun_code.fun_SIG →
          ∀ s', final_state (exec_instruction pf fuel ir s) = some s' →
            s'.pal_exception = s.pal_exception)
      ∧ (∀ s', (s.code_store s.program_counter).f ≠ fun_code.fun_SIG →
          final_state (step pf fuel s) = some s' → s'.pal_exception = s.pal_exception)
      ∧ (∀ (message : String) (exc : Int) s',
          final_state (error pf fuel message exc s) = some s' →
            s'.pal_exception = s.pal_exception)
      ∧ (∀ (exc lp lb : Int) s', final_state (unwind pf fuel exc lp lb s) = some s' →
            s'.pal_exception = s.pal_exception)
      ∧ (∀ (n : Nat) s', (∀ i, (s.code_store i).f ≠ fun_code.fun_SIG) →
          final_state (execute_first pf fuel n s) = some s' →
            s'.pal_exception = s.pal_exception) := by
  refine ⟨fun _ _ => rfl, ?_, ?_, ?_, ?_, ?_, ?_, ?_, ?_⟩
  · intro I hf ha h0
    rw [exec_sig_eq pf fuel s ir I hf ha, if_pos h0]
  · intro hf ha
    rw [exec_sig_eq pf fuel s ir 0 hf ha]
    simp
  · intro hir hf ha
    have hex : exec_instruction pf fuel (s.code_store s.program_counter) (fetched pf s)
        = Outcome.ok () (fetched pf s) := by
      rw [hir, exec_sig_eq pf fuel (fetched pf s) ir 0 hf ha]
      simp
    obtain ⟨s', h1, h2, h3, h4, h5, h6, h7⟩ := step_of_exec_ok pf fuel s _ hex
    exact ⟨s', h1, h6, h4, h5, h2, h3, h7⟩
  · intro hsig s' h
    exact exec_instruction_fixes_of pal_exception_stack_independent (fun _ _ => rfl)
      (fun _ _ => rfl) (fun _ _ => rfl) (fun _ _ => rfl) pf fuel ir hsig s s' h
  · intro s' hsig h
    exact step_fixes_exception pf fuel s s' hsig h
  · intro message exc s' h
    exact error_fixes pal_exception_independent pf fuel message exc s s' h
  · intro exc lp lb s' h
    exact unwind_fixes pal_exception_independent pf fuel exc lp lb s s' h
  · intro n s' hcode h
    have hinit : init_machine pf s = Outcome.ok ()
        { s with
          top_of_stack := 4, base_register := 5, program_counter := 1,
          data_store := fun j =>
            if j = 4 then Memory_cell.mk_int (pf.f_of_int 0) 0
            else if j = 3 then Memory_cell.mk_int (pf.f_of_int 0) 0
            else if j = 2 then Memory_cell.mk_int (pf.f_of_int 0) 0
            else if j = 1 then Memory_cell.mk_int (pf.f_of_int 0) 0
            else s.data_store j } := by
      simp [init_machine, Exec.bind, set_top, set_base, set_pc, store_cell, set_cell]
    simp only [execute_first, Exec.bind_apply, Exec.bind, hinit] at h
    have hP := run_steps_invariant pf fuel
      (fun t : State F In => t.pal_exception = s.pal_exception
        ∧ ∀ i, (t.code_store i).f ≠ fun_code.fun_SIG)
      (by
        intro t t' ht hstep
        refine ⟨?_, ?_⟩
        · rw [step_fixes_exception pf fuel t t' (ht.2 _) hstep]
          exact ht.1
        · intro i
          rw [step_fixes_code pf fuel t t' hstep]
          exact ht.2 i)
      n
    refine (hP _ s' ?_ h).1
    exact ⟨rfl, hcode⟩

theorem C35_current_exception_witness :
    exec_instruction ideal_platform 1 (instr_int ideal_platform .fun_SIG 0 7)
        (operand_state program_handler 2 [])
      = Outcome.ok () { operand_state program_handler 2 [] with pal_exception := 7 } :=
  (C35_current_exception ideal_platform 1 (operand_state program_handler 2 [])
    (instr_int ideal_platform .fun_SIG 0 7)).2.1 7 rfl rfl (by decide)

/-- A dispatch step that executes MST in a state whose static links are `Int`. -/
theorem step_mst (pf : Platform F In) (fuel : Nat) (s : State F In)
    (hf : (s.code_store s.program_counter).f = fun_code.fun_MST)
    (hl : static_links_int s.data_store (s.code_store s.program_counter).l.toNat
      s.base_register) :
    ∃ s1, step pf fuel s = Outcome.ok () s1
      ∧ s1.top_of_stack = s.top_of_stack + 4
      ∧ s1.base_register = s.base_register
      ∧ s1.program_counter = s.program_counter + 1
      ∧ s1.code_store = s.code_store
      ∧ (s1.data_store (s.top_of_stack + 2)).get_int = Except.ok s.base_register
      ∧ (s1.data_store (s.top_of_stack + 4)).get_int = Except.ok 0
      ∧ (∀ i, i ≤ s.top_of_stack → s1.data_store i = s.data_store i) := by
  obtain ⟨t, h1, h2, h3, h4, _, _, _, h8, _, h10, h11⟩ :=
    exec_mst pf fuel (fetched pf s) (s.code_store s.program_counter) hf hl
  obtain ⟨s1, e1, d1, p1, b1, t1, _, _⟩ := step_of_exec_ok pf fuel s t h1
  refine ⟨s1, e1, by rw [t1, h2]; rfl, by rw [b1, h3]; rfl, by rw [p1, h4]; rfl,
    step_fixes_code pf fuel s s1 (by rw [e1]; rfl), by rw [d1]; exact h8,
    by rw [d1]; exact h10, ?_⟩
  intro i hi
  rw [d1]
  exact h11 i hi

/-- A dispatch step that executes CAL. -/
theorem step_cal (pf : Platform F In) (fuel : Nat) (s : State F In) (A : Int)
    (hf : (s.code_store s.program_counter).f = fun_code.fun_CAL)
    (ha : (s.code_store s.program_counter).a.get_int = Except.ok A) :
    ∃ s1, step pf fuel s = Outcome.ok () s1
      ∧ s1.base_register = s.top_of_stack - (s.code_store s.program_counter).l + 1
      ∧ (s1.data_store (s.top_of_stack - (s.code_store s.program_counter).l + 1 - 2)).get_int
          = Except.ok (s.program_counter + 1)
      ∧ s1.program_counter = A
      ∧ (∀ i, i ≠ s.top_of_stack - (s.code_store s.program_counter).l + 1 - 2 →
          s1.data_store i = s.data_store i)
      ∧ s1.top_of_stack = s.top_of_stack
      ∧ s1.code_store = s.code_store := by
  have hexec : ∃ t, exec_instruction pf fuel (s.code_store s.program_counter) (fetched pf s)
        = Outcome.ok () t
      ∧ t.base_register = s.top_of_stack - (s.code_store s.program_counter).l + 1
      ∧ (t.data_store (s.top_of_stack - (s.code_store s.program_counter).l + 1 - 2)).get_int
          = Except.ok (s.program_counter + 1)
      ∧ t.program_counter = A
      ∧ (∀ i, i ≠ s.top_of_stack - (s.code_store s.program_counter).l + 1 - 2 →
          t.data_store i = s.data_store i)
      ∧ t.top_of_stack = s.top_of_stack := by
    simp [exec_instruction, hf, ha, Exec.bind, fetched, set_base, set_cell, set_pc,
      Memory_cell.get_int_eq_ok, Memory_cell.set_int]
    intro i hi hi'
    exact absurd hi' hi
  obtain ⟨t, h1, hb, hc, hp, hd, ht⟩ := hexec
  obtain ⟨s1, e1, d1, p1, b1, t1, _, _⟩ := step_of_exec_ok pf fuel s t h1
  refine ⟨s1, e1, by rw [b1, hb], by rw [d1]; exact hc, by rw [p1, hp], ?_, by rw [t1, ht],
    step_fixes_code pf fuel s s1 (by rw [e1]; rfl)⟩
  intro i hi
  rw [d1]
  exact hd i hi

/-- A dispatch step that executes the procedure return OPR 0 0 in a frame whose
return address and dynamic link are `Int`. -/
theorem step_return (pf : Platform F In) (fuel : Nat) (s : State F In) (p b : Int)
    (hf : (s.code_store s.program_counter).f = fun_code.fun_OPR)
    (ha : (s.code_store s.program_counter).a.get_int = Except.ok 0)
    (hp : (s.data_store (s.base_register - 2)).get_int = Except.ok p)
    (hb : (s.data_store (s.base_register - 3)).get_int = Except.ok b) :
    ∃ s1, step pf fuel s = Outcome.ok () s1
      ∧ s1.top_of_stack = s.base_register - 5
      ∧ s1.program_counter = p
      ∧ s1.base_register = b
      ∧ s1.data_store = s.data_store := by
  have e3 : s.base_register - 5 + 3 = s.base_register - 2 := by ring
  have e2 : s.base_register - 5 + 2 = s.base_register - 3 := by ring
  have hexec : ∃ t, exec_instruction pf fuel (s.code_store s.program_counter) (fetched pf s)
        = Outcome.ok () t
      ∧ t.top_of_stack = s.base_register - 5 ∧ t.program_counter = p
      ∧ t.base_register = b ∧ t.data_store = s.data_store := by
    rw [exec_instruction_opr pf fuel _ 0 hf ha]
    cases hd : s.debugging_pal_code <;>
      simp [exec_opr, Exec.bind, fetched, hd, e3, e2, hp, hb, set_top, set_pc, set_base,
        trace_stack, put_listing]
  obtain ⟨t, h1, ht, hpc, hbr, hds⟩ := hexec
  obtain ⟨s1, e1, d1, p1, b1, t1, _, _⟩ := step_of_exec_ok pf fuel s t h1
  exact ⟨s1, e1, by rw [t1, ht], by rw [p1, hpc], by rw [b1, hbr], by rw [d1, hds]⟩

/-- C36: call and return.  In every state with registers (B0, T0) whose static
links needed by base(L) are `Int`, the step that executes MST L 0 returns with
T = T0 + 4; and from every state the program reaches from there by pushing M
cells (T is M higher, B and the cells up to T0 + 4 are as they were), the step
that executes CAL M A and then the step that executes OPR 0 0, the instruction
at A, end with B = B0, T = T0, PC = the address of the instruction following
the CAL, and every data cell at an index <= T0 as it was before the MST.  The
program MST 0 0; LCI 0 7; LCI 0 8; CAL 2 6; JMP 0 0; OPR 0 0 is back at
(PC, B, T) = (5, 5, 4) after five steps. -/
theorem C36_call_return (pf : Platform F In) (fuel : Nat) (s : State F In) (M A : Int)
    (hmst : (s.code_store s.program_counter).f = fun_code.fun_MST)
    (hlinks : static_links_int s.data_store (s.code_store s.program_counter).l.toNat
      s.base_register) :
    (∃ s1, step pf fuel s = Outcome.ok () s1
      ∧ s1.top_of_stack = s.top_of_stack + 4
      ∧ s1.base_register = s.base_register
      ∧ s1.program_counter = s.program_counter + 1
      ∧ s1.code_store = s.code_store
      ∧ ∀ s2, pushed_cells M s1 s2 →
          (s2.code_store s2.program_counter).f = fun_code.fun_CAL →
          (s2.code_store s2.program_counter).l = M →
          (s2.code_store s2.program_counter).a.get_int = Except.ok A →
          (s2.code_store A).f = fun_code.fun_OPR →
          (s2.code_store A).a.get_int = Except.ok 0 →
          ∃ s3 s4, step pf fuel s2 = Outcome.ok () s3 ∧ step pf fuel s3 = Outcome.ok () s4
            ∧ s4.base_register = s.base_register
            ∧ s4.top_of_stack = s.top_of_stack
            ∧ s4.program_counter = s2.program_counter + 1
            ∧ ∀ i, i ≤ s.top_of_stack → s4.data_store i = s.data_store i)
      ∧ registers (execute_first ideal_platform 100 5
          (initial_state ideal_platform program_call_return false)) = some (5, 5, 4) := by
  refine ⟨?_, by decide!⟩
  obtain ⟨s1, e1, t1, b1, p1, c1, hdl, _, hlow⟩ := step_mst pf fuel s hmst hlinks
  refine ⟨s1, e1, t1, b1, p1, c1, ?_⟩
  intro s2 hpush hcal hm hca hopr hoa
  obtain ⟨ht2, hb2, hd2⟩ := hpush
  obtain ⟨s3, e3, b3, r3, p3, d3, t3, c3⟩ := step_cal pf fuel s2 A hcal hca
  rw [hm] at b3 r3 d3
  have hbase : s3.base_register = s.top_of_stack + 5 := by
    rw [b3, ht2, t1]
    ring
  have hret : (s3.data_store (s3.base_register - 2)).get_int
      = Except.ok (s2.program_counter + 1) := by
    rw [b3]
    exact r3
  have hlink : (s3.data_store (s3.base_register - 3)).get_int = Except.ok s.base_register := by
    have hne : s3.base_register - 3 ≠ s2.top_of_stack - M + 1 - 2 := by
      rw [hbase, ht2, t1]
      omega
    rw [d3 _ hne, hbase, hd2 _ (by rw [t1]; omega)]
    have e : s.top_of_stack + 5 - 3 = s.top_of_stack + 2 := by ring
    rw [e]
    exact hdl
  obtain ⟨s4, e4, t4, p4, b4, d4⟩ := step_return pf fuel s3 _ _
    (by rw [c3, p3]; exact hopr) (by rw [c3, p3]; exact hoa) hret hlink
  refine ⟨s3, s4, e3, e4, b4, by rw [t4, hbase]; ring, p4, ?_⟩
  intro i hi
  have hne : i ≠ s2.top_of_stack - M + 1 - 2 := by
    rw [ht2, t1]
    omega
  rw [d4, d3 i hne, hd2 i (by rw [t1]; omega), hlow i hi]

theorem C36_call_return_witness :
    ∃ s1 s2 s3 s4,
      step ideal_platform 1 (operand_state program_call_return 1 []) = Outcome.ok () s1
      ∧ pushed_cells 2 s1 s2
      ∧ step ideal_platform 1 s2 = Outcome.ok () s3
      ∧ step ideal_platform 1 s3 = Outcome.ok () s4
      ∧ s4.base_register = (operand_state program_call_return 1 []).base_register
      ∧ s4.top_of_stack = (operand_state program_call_return 1 []).top_of_stack
      ∧ s4.program_counter = 4 + 1 := by
  obtain ⟨⟨s1, h1, _, _, _, hc, hrest⟩, _⟩ := C36_call_return ideal_platform 1
    (operand_state program_call_return 1 []) 2 6 rfl trivial
  obtain ⟨s3, s4, h3, h4, hb, ht, hp, _⟩ := hrest
    { s1 with top_of_stack := s1.top_of_stack + 2, program_counter := 4 }
    ⟨rfl, rfl, fun _ _ => rfl⟩
    (by show (s1.code_store 4).f = _; rw [hc]; rfl)
    (by show (s1.code_store 4).l = _; rw [hc]; rfl)
    (by show (s1.code_store 4).a.get_int = _; rw [hc]; rfl)
    (by show (s1.code_store 6).f = _; rw [hc]; rfl)
    (by show (s1.code_store 6).a.get_int = _; rw [hc]; rfl)
  exact ⟨s1, { s1 with top_of_stack := s1.top_of_stack + 2, program_counter := 4 }, s3, s4,
    h1, ⟨rfl, rfl, fun _ _ => rfl⟩, h3, h4, hb, ht, hp⟩

end CurrentException

end PAL

/-! ## Loads, unwinding, the scan of the loader, comparisons (C37 - C40) -/

namespace PAL

section LoadsAndComparisons

variable {F In : Type}

theorem exec_lda_eq (pf : Platform F In) (fuel : Nat) (s : State F In) (ir : instruction F)
    (D : Int) (hf : ir.f = fun_code.fun_LDA) (ha : ir.a.get_int = Except.ok D)
    (hl : static_links_int s.data_store ir.l.toNat s.base_register) :
    exec_instruction pf fuel ir s = Outcome.ok ()
      { s with top_of_stack := s.top_of_stack + 1,
               data_store := fun j => if j = s.top_of_stack + 1 then
                 (s.data_store j).set_int
                   (follow_static_links s.data_store ir.l.toNat s.base_register + D)
                 else s.data_store j } := by
  have hb := base_eq pf fuel { s with top_of_stack := s.top_of_stack + 1 } ir.l hl
  simp [exec_instruction, hf, ha, Exec.bind, set_top, set_cell, hb]

theorem exec_ldi_eq (pf : Platform F In) (fuel : Nat) (s : State F In) (ir : instruction F)
    (a : Int) (hf : ir.f = fun_code.fun_LDI)
    (ha : (s.data_store s.top_of_stack).get_int = Except.ok a) :
    exec_instruction pf fuel ir s = Outcome.ok ()
      { s with data_store := fun j =>
          if j = s.top_of_stack then s.data_store a else s.data_store j } := by
  simp [exec_instruction, hf, ha, Exec.bind, store_cell, set_cell]

theorem exec_ldv_eq (pf : Platform F In) (fuel : Nat) (s : State F In) (ir : instruction F)
    (D : Int) (hf : ir.f = fun_code.fun_LDV) (ha : ir.a.get_int = Except.ok D)
    (hl : static_links_int s.data_store ir.l.toNat s.base_register) :
    exec_instruction pf fuel ir s = Outcome.ok ()
      { s with top_of_stack := s.top_of_stack + 1,
               data_store := fun j => if j = s.top_of_stack + 1 then
                 s.data_store (follow_static_links s.data_store ir.l.toNat s.base_register + D)
                 else s.data_store j } := by
  have hb := base_eq pf fuel { s with top_of_stack := s.top_of_stack + 1 } ir.l hl
  simp [exec_instruction, hf, ha, Exec.bind, set_top, store_cell, set_cell, hb]

/-- C37: let a = base(L) + D, with the static links used by base(L) `Int`.
LDA L D followed by LDI 0 0, and LDV L D, both return with T one higher and B
unchanged, and with the same cells at every index <= T (the cells the
instructions found there).  If a /= T+1, in particular if a designates a live
cell (1 <= a <= T), the two data stores are equal: the new top cell is a copy of
cell a, tag and value.  If a = T+1, the cell being pushed into, LDA; LDI leaves
`Int(a)` in the top cell and LDV leaves the cell as it was. -/
theorem C37_load_indirect (pf : Platform F In) (fuel : Nat) (s : State F In)
    (lda ldi ldv : instruction F) (D : Int)
    (h1 : lda.f = fun_code.fun_LDA) (h1a : lda.a.get_int = Except.ok D)
    (h2 : ldi.f = fun_code.fun_LDI)
    (h3 : ldv.f = fun_code.fun_LDV) (h3a : ldv.a.get_int = Except.ok D)
    (hlev : ldv.l = lda.l)
    (hl : static_links_int s.data_store lda.l.toNat s.base_register) :
    ∃ s1 s2 s3, exec_instruction pf fuel lda s = Outcome.ok () s1
      ∧ exec_instruction pf fuel ldi s1 = Outcome.ok () s2
      ∧ exec_instruction pf fuel ldv s = Outcome.ok () s3
      ∧ s2.top_of_stack = s.top_of_stack + 1 ∧ s3.top_of_stack = s.top_of_stack + 1
      ∧ s2.base_register = s.base_register ∧ s3.base_register = s.base_register
      ∧ (∀ j, j ≤ s.top_of_stack →
          s2.data_store j = s.data_store j ∧ s3.data_store j = s.data_store j)
      ∧ (follow_static_links s.data_store lda.l.toNat s.base_register + D ≠ s.top_of_stack + 1 →
          s2.data_store = s3.data_store
            ∧ s2.data_store s2.top_of_stack
              = s.data_store (follow_static_links s.data_store lda.l.toNat s.base_register + D))
      ∧ (follow_static_links s.data_store lda.l.toNat s.base_register + D = s.top_of_stack + 1 →
          s2.data_store s2.top_of_stack
              = (s.data_store (s.top_of_stack + 1)).set_int (s.top_of_stack + 1)
            ∧ s3.data_store s3.top_of_stack = s.data_store (s.top_of_stack + 1)) := by
  have hl' : static_links_int s.data_store ldv.l.toNat s.base_register := by
    rw [hlev]
    exact hl
  refine ⟨_, _, _, exec_lda_eq pf fuel s lda D h1 h1a hl,
    exec_ldi_eq pf fuel _ ldi
      (follow_static_links s.data_store lda.l.toNat s.base_register + D) h2 ?_,
    exec_ldv_eq pf fuel s ldv D h3 h3a hl', rfl, rfl, rfl, rfl, ?_, ?_, ?_⟩
  · simp [Memory_cell.get_int, Memory_cell.set_int]
  · intro j hj
    have hne : j ≠ s.top_of_stack + 1 := by omega
    simp [hne]
  · intro hne
    constructor
    · funext j
      by_cases hj : j = s.top_of_stack + 1
      · simp [hj, hne, hlev]
      · simp [hj]
    · simp [hne]
  · intro he
    simp [he, hlev]

theorem C37_load_indirect_witness :
    ∃ s1 s2 s3, exec_instruction ideal_platform 1 (instr_int ideal_platform .fun_LDA 0 0)
        (operand_state [] 1 [Memory_cell.mk_int 0 42]) = Outcome.ok () s1
      ∧ exec_instruction ideal_platform 1 (instr_int ideal_platform .fun_LDI 0 0) s1
        = Outcome.ok () s2
      ∧ exec_instruction ideal_platform 1 (instr_int ideal_platform .fun_LDV 0 0)
        (operand_state [] 1 [Memory_cell.mk_int 0 42]) = Outcome.ok () s3
      ∧ s2.top_of_stack = 5 + 1 ∧ s3.top_of_stack = 5 + 1
      ∧ s2.data_store = s3.data_store := by
  obtain ⟨s1, s2, s3, e1, e2, e3, t2, t3, _, _, _, heq, _⟩ := C37_load_indirect ideal_platform 1
    (operand_state [] 1 [Memory_cell.mk_int 0 42]) (instr_int ideal_platform .fun_LDA 0 0)
    (instr_int ideal_platform .fun_LDI 0 0) (instr_int ideal_platform .fun_LDV 0 0) 0
    rfl rfl rfl rfl rfl rfl trivial
  exact ⟨s1, s2, s3, e1, e2, e3, t2, t3, (heq (by decide)).1⟩

/-- The Boolean a comparison leaves for two `Int` operands. -/
theorem compare_result_int (pf : Platform F In) (fuel : Nat) (k : Int)
    (hk : k = 10 ∨ k = 11 ∨ k = 12 ∨ k = 13 ∨ k = 14 ∨ k = 15) (s : State F In) (a b : Int)
    (ha : (s.data_store (s.top_of_stack - 1)).get_int = Except.ok a)
    (hb : (s.data_store s.top_of_stack).get_int = Except.ok b) :
    compare_result pf fuel k s = compare_int k a b := by
  have ha' := Memory_cell.get_int_eq_ok.mp ha
  have hb' := Memory_cell.get_int_eq_ok.mp hb
  unfold compare_result
  rw [exec_instruction_opr pf fuel (instr_int pf .fun_OPR 0 k) k rfl rfl,
    exec_opr_compare pf fuel k hk]
  rcases hk with h | h | h | h | h | h <;> subst h <;>
    simp [Exec.bind, opr_compare, compare_int, Memory_cell.get_type, ha', hb', ha, hb,
      set_cell, Memory_cell.get_boolean, Memory_cell.set_boolean]

/-- The Boolean a comparison leaves for two `Bool` operands. -/
theorem compare_result_bool (pf : Platform F In) (fuel : Nat) (k : Int)
    (hk : k = 10 ∨ k = 11 ∨ k = 12 ∨ k = 13 ∨ k = 14 ∨ k = 15) (s : State F In) (a b : Bool)
    (ha : (s.data_store (s.top_of_stack - 1)).get_boolean = Except.ok a)
    (hb : (s.data_store s.top_of_stack).get_boolean = Except.ok b) :
    compare_result pf fuel k s = compare_int k (bool_to_int a) (bool_to_int b) := by
  have ha' := Memory_cell.get_boolean_eq_ok.mp ha
  have hb' := Memory_cell.get_boolean_eq_ok.mp hb
  unfold compare_result
  rw [exec_instruction_opr pf fuel (instr_int pf .fun_OPR 0 k) k rfl rfl,
    exec_opr_compare pf fuel k hk]
  rcases hk with h | h | h | h | h | h <;> subst h <;>
    simp [Exec.bind, opr_compare, compare_int, Memory_cell.get_type, ha', hb', ha, hb,
      set_cell, Memory_cell.get_boolean, Memory_cell.set_boolean]

/-- The six comparisons on integers: each is the negation of its partner, and
`>` is `<` with the operands exchanged. -/
theorem compare_int_relations (a b : Int) :
    ∃ r10 r12 r14, compare_int 10 a b = some r10 ∧ compare_int 11 a b = some (!r10)
      ∧ compare_int 12 a b = some r12 ∧ compare_int 13 a b = some (!r12)
      ∧ compare_int 14 a b = some r14 ∧ compare_int 15 a b = some (!r14)
      ∧ compare_int 12 b a = some r14 := by
  refine ⟨decide (a = b), decide (a < b), decide (a > b), ?_, ?_, ?_, ?_, ?_, ?_, ?_⟩ <;>
    simp [compare_int] <;> (by_cases h : a < b <;> by_cases h' : b < a <;> simp [h, h'] <;> omega)

/-- C40: in every state whose top two cells have the same tag, `Int` or `Bool`,
the Boolean OPR 0 11 produces is the negation of the one OPR 0 10 produces from
that state, OPR 0 13 (>=) produces the negation of OPR 0 12 (<), and OPR 0 15
(<=) the negation of OPR 0 14 (>); and OPR 0 14 produces what OPR 0 12 produces
from the state with the two operands exchanged. -/
theorem C40_comparison_pairs (pf : Platform F In) (fuel : Nat) (s : State F In)
    (h : (∃ a b : Int, (s.data_store (s.top_of_stack - 1)).get_int = Except.ok a
          ∧ (s.data_store s.top_of_stack).get_int = Except.ok b)
      ∨ (∃ a b : Bool, (s.data_store (s.top_of_stack - 1)).get_boolean = Except.ok a
          ∧ (s.data_store s.top_of_stack).get_boolean = Except.ok b)) :
    ∃ r10 r12 r14, compare_result pf fuel 10 s = some r10
      ∧ compare_result pf fuel 11 s = some (!r10)
      ∧ compare_result pf fuel 12 s = some r12
      ∧ compare_result pf fuel 13 s = some (!r12)
      ∧ compare_result pf fuel 14 s = some r14
      ∧ compare_result pf fuel 15 s = some (!r14)
      ∧ compare_result pf fuel 12 (swap_operands s) = some r14 := by
  have hne : s.top_of_stack ≠ s.top_of_stack - 1 := by omega
  rcases h with ⟨a, b, ha, hb⟩ | ⟨a, b, ha, hb⟩
  · have hsa : ((swap_operands s).data_store ((swap_operands s).top_of_stack - 1)).get_int
        = Except.ok b := by
      simp [swap_operands, hb]
    have hsb : ((swap_operands s).data_store (swap_operands s).top_of_stack).get_int
        = Except.ok a := by
      simp [swap_operands, hne, ha]
    rw [compare_result_int pf fuel 10 (by simp) s a b ha hb,
      compare_result_int pf fuel 11 (by simp) s a b ha hb,
      compare_result_int pf fuel 12 (by simp) s a b ha hb,
      compare_result_int pf fuel 13 (by simp) s a b ha hb,
      compare_result_int pf fuel 14 (by simp) s a b ha hb,
      compare_result_int pf fuel 15 (by simp) s a b ha hb,
      compare_result_int pf fuel 12 (by simp) (swap_operands s) b a hsa hsb]
    exact compare_int_relations a b
  · have hsa : ((swap_operands s).data_store ((swap_operands s).top_of_stack - 1)).get_boolean
        = Except.ok b := by
      simp [swap_operands, hb]
    have hsb : ((swap_operands s).data_store (swap_operands s).top_of_stack).get_boolean
        = Except.ok a := by
      simp [swap_operands, hne, ha]
    rw [compare_result_bool pf fuel 10 (by simp) s a b ha hb,
      compare_result_bool pf fuel 11 (by simp) s a b ha hb,
      compare_result_bool pf fuel 12 (by simp) s a b ha hb,
      compare_result_bool pf fuel 13 (by simp) s a b ha hb,
      compare_result_bool pf fuel 14 (by simp) s a b ha hb,
      compare_result_bool pf fuel 15 (by simp) s a b ha hb,
      compare_result_bool pf fuel 12 (by simp) (swap_operands s) b a hsa hsb]
    exact compare_int_relations (bool_to_int a) (bool_to_int b)

theorem C40_comparison_pairs_witness :
    ∃ r10 r12 r14,
      compare_result ideal_platform 1 10
          (operand_state [] 1 [Memory_cell.mk_int 0 3, Memory_cell.mk_int 0 4]) = some r10
      ∧ compare_result ideal_platform 1 11
          (operand_state [] 1 [Memory_cell.mk_int 0 3, Memory_cell.mk_int 0 4]) = some (!r10)
      ∧ compare_result ideal_platform 1 12
          (operand_state [] 1 [Memory_cell.mk_int 0 3, Memory_cell.mk_int 0 4]) = some r12
      ∧ compare_result ideal_platform 1 13
          (operand_state [] 1 [Memory_cell.mk_int 0 3, Memory_cell.mk_int 0 4]) = some (!r12)
      ∧ compare_result ideal_platform 1 14
          (operand_state [] 1 [Memory_cell.mk_int 0 3, Memory_cell.mk_int 0 4]) = some r14
      ∧ compare_result ideal_platform 1 15
          (operand_state [] 1 [Memory_cell.mk_int 0 3, Memory_cell.mk_int 0 4]) = some (!r14)
      ∧ compare_result ideal_platform 1 12
          (swap_operands (operand_state [] 1 [Memory_cell.mk_int 0 3, Memory_cell.mk_int 0 4]))
          = some r14 :=
  C40_comparison_pairs ideal_platform 1
    (operand_state [] 1 [Memory_cell.mk_int 0 3, Memory_cell.mk_int 0 4])
    (Or.inl ⟨3, 4, rfl, rfl⟩)

end LoadsAndComparisons

end PAL

/-! ## Termination of `unwind`; the scan of the LCS branch (C38, C39) -/

namespace PAL

section Termination

variable {F In : Type}

/-- The frames visited from the next frame are visited from this one. -/
theorem unwind_visits_next (ds : Int → Memory_cell F) (lb d : Int)
    (hs : (ds (lb - 1)).get_int = Except.ok 0) (hd : (ds (lb - 3)).get_int = Except.ok d)
    (hd0 : d ≠ 0) (b : Int) (h : unwind_visits ds d b) : unwind_visits ds lb b := by
  induction h with
  | start => exact unwind_visits.next lb d unwind_visits.start hs hd hd0
  | next b' d' _ h1 h2 h3 ih => exact unwind_visits.next b' d' ih h1 h2 h3

theorem Memory_cell.get_int_of_is_int {c : Memory_cell F} (h : c.is_int = true) :
    c.get_int = Except.ok c.ivalue := by
  apply Memory_cell.get_int_eq_ok.mpr
  refine ⟨?_, rfl⟩
  simpa [Memory_cell.is_int] using h

/-- With dynamic links that go down, the loop of `unwind` ends, in a handler
or in a fatal termination, within one iteration per unit of the base. -/
theorem unwind_loop_terminates (pf : Platform F In) (exc : Int) :
    ∀ (n : Nat) (lb lp : Int) (s : State F In) (fuel : Nat), lb ≤ n → n < fuel →
      (∀ b, unwind_visits s.data_store lb b → frame_links_down s.data_store b) →
      (∃ h b s', unwind_loop pf fuel exc lp lb s = Outcome.ok (h, b) s')
        ∨ (∃ msg s', unwind_loop pf fuel exc lp lb s = Outcome.aborted msg s') := by
  intro n
  induction n with
  | zero =>
    intro lb lp s fuel hlb _ hframes
    obtain ⟨_, _, d, _, hd0, hdl⟩ := hframes lb unwind_visits.start
    exfalso
    simp at hlb
    omega
  | succ k ih =>
    intro lb lp s fuel hlb hfuel hframes
    obtain ⟨m, rfl⟩ : ∃ m, fuel = m + 1 := ⟨fuel - 1, by omega⟩
    obtain ⟨hslot, hret, d, hd, hd0, hdl⟩ := hframes lb unwind_visits.start
    have hs := Memory_cell.get_int_of_is_int hslot
    have hr := Memory_cell.get_int_of_is_int hret
    by_cases hz : (s.data_store (lb - 1)).ivalue = 0
    · rw [hz] at hs
      by_cases hdz : d = 0
      · subst hdz
        obtain ⟨s', h1, _⟩ := unwind_loop_last pf m exc lp lb _ s hs hr hd
        exact Or.inr ⟨_, s', h1⟩
      · obtain ⟨s1, h1, _, hds, _, _⟩ := unwind_loop_discard pf m exc lp lb _ d s hs hr hd hdz
        rw [h1]
        apply ih d _ s1 m (by push_cast at hlb; omega) (by omega)
        intro b hb
        rw [hds] at hb ⊢
        exact hframes b (unwind_visits_next s.data_store lb d hs hd hdz b hb)
    · by_cases hv : 0 < (s.data_store (lb - 1)).ivalue
          ∧ (s.data_store (lb - 1)).ivalue < s.last_instruction
      · obtain ⟨s', h1, _⟩ := unwind_loop_found pf m exc lp lb _ s hs hv.1 hv.2
        exact Or.inl ⟨_, _, s', h1⟩
      · obtain ⟨s', h1, _⟩ := unwind_loop_invalid pf m exc lp lb _ s hs hz (by omega)
        exact Or.inr ⟨_, s', h1⟩

/-- A frame without handler whose dynamic link is its own base keeps the loop
of `unwind` going for ever: whatever the fuel, it is used up. -/
theorem unwind_loop_self_link (pf : Platform F In) (exc lb r : Int) (hlb : lb ≠ 0) :
    ∀ (fuel : Nat) (lp : Int) (s : State F In),
      (s.data_store (lb - 1)).get_int = Except.ok 0 →
      (s.data_store (lb - 2)).get_int = Except.ok r →
      (s.data_store (lb - 3)).get_int = Except.ok lb →
      unwind_loop pf fuel exc lp lb s = Outcome.timeout := by
  intro fuel
  induction fuel with
  | zero =>
    intro lp s _ _ _
    rfl
  | succ m ih =>
    intro lp s hs hr hd
    obtain ⟨s1, h1, _, hds, _, _⟩ := unwind_loop_discard pf m exc lp lb r lb s hs hr hd hlb
    rw [h1]
    apply ih
    · rw [hds]; exact hs
    · rw [hds]; exact hr
    · rw [hds]; exact hd

/-- C38: `unwind` ends, by returning with a handler found or in a fatal
termination, from every state in which each frame visited along the dynamic
chain has an `Int` handler slot, an `Int` return address and an `Int` dynamic
link d with 0 <= d < b, b the base of the frame: one iteration per unit of `lb`
is enough.  Without the decrease it need not end: when the frame with base
`lb /= 0` has the handler slot `Int(0)`, an `Int` return address and the dynamic
link `Int(lb)`, the loop uses up whatever number of iterations it is given.
The program LCI 0 8; LCI 0 0; LCI 0 0; CAL 0 5; JIF 0 0 builds such a frame and
raises a run-time error in it: it does not end within 100 iterations of the
loop of `unwind`. -/
theorem C38_unwind_terminates (pf : Platform F In) (exc lp lb : Int) (s : State F In) :
    ((∀ b, unwind_visits s.data_store lb b → frame_links_down s.data_store b) →
        ∀ fuel, lb.toNat < fuel →
          (∃ s', unwind pf fuel exc lp lb s = Outcome.ok () s')
            ∨ (∃ msg s', unwind pf fuel exc lp lb s = Outcome.aborted msg s'))
      ∧ (lb ≠ 0 → (s.data_store (lb - 1)).get_int = Except.ok 0 →
          (∃ r, (s.data_store (lb - 2)).get_int = Except.ok r) →
          (s.data_store (lb - 3)).get_int = Except.ok lb →
          ∀ fuel, unwind pf fuel exc lp lb s = Outcome.timeout)
      ∧ run_summary (execute_code ideal_platform 100 10
          (initial_state ideal_platform program_self_link false)) = none := by
  refine ⟨?_, ?_, by decide!⟩
  · intro hframes fuel hfuel
    rcases unwind_loop_terminates pf exc lb.toNat lb lp s fuel (by omega) hfuel hframes with
      ⟨h, b, s', h1⟩ | ⟨msg, s', h1⟩
    · left
      cases hd : s'.debugging_pal_code <;>
        simp [unwind, Exec.bind, h1, hd, put_listing, trace_stack]
    · right
      exact ⟨msg, s', by simp [unwind, Exec.bind, h1]⟩
  · intro hlb hs hr hd fuel
    obtain ⟨r, hr⟩ := hr
    simp [unwind, Exec.bind, unwind_loop_self_link pf exc lb r hlb fuel lp s hs hr hd]

theorem C38_unwind_terminates_witness :
    ((∃ s', unwind ideal_platform 7 1 1 6
          (operand_state program_handler 1 [Memory_cell.mk_int 0 3]) = Outcome.ok () s')
        ∨ (∃ msg s', unwind ideal_platform 7 1 1 6
          (operand_state program_handler 1 [Memory_cell.mk_int 0 3]) = Outcome.aborted msg s'))
      ∧ unwind ideal_platform 50 1 1 8
          (operand_state [] 1
            [Memory_cell.mk_int 0 8, Memory_cell.mk_int 0 0, Memory_cell.mk_int 0 0])
        = Outcome.timeout :=
  ⟨(C38_unwind_terminates ideal_platform 1 1 6
      (operand_state program_handler 1 [Memory_cell.mk_int 0 3])).1
      (by
        have hv : ∀ b, unwind_visits
            (operand_state program_handler 1 [Memory_cell.mk_int 0 3]).data_store 6 b →
            b = 6 := by
          intro b hb
          induction hb with
          | start => rfl
          | next b' d _ h1 _ _ ih =>
            subst ih
            have h5 : ((operand_state program_handler 1 [Memory_cell.mk_int 0 3]).data_store
                (6 - 1)).get_int = Except.ok 3 := rfl
            rw [h5] at h1
            cases h1
        intro b hb
        rw [hv b hb]
        exact ⟨rfl, rfl, 0, rfl, by decide, by decide⟩)
      7 (by decide),
    (C38_unwind_terminates ideal_platform 1 1 8
      (operand_state [] 1
        [Memory_cell.mk_int 0 8, Memory_cell.mk_int 0 0, Memory_cell.mk_int 0 0])).2.1
      (by decide) rfl ⟨0, rfl⟩ rfl 50⟩

/-- The first character `dropWhile` leaves fails the test. -/
theorem dropWhile_head_false (p : Char → Bool) :
    ∀ (l : List Char) (c : Char) (w : List Char), l.dropWhile p = c :: w → p c = false := by
  intro l
  induction l with
  | nil =>
    intro c w h
    simp at h
  | cons a as ih =>
    intro c w h
    by_cases ha : p a = true
    · simp only [List.dropWhile, ha] at h
      exact ih c w h
    · simp only [List.dropWhile, ha] at h
      injection h with h1 _
      rw [← h1]
      simpa using ha

/-- A token under construction is completed by the characters up to the next
white space; the rest of the line is tokenized afresh. -/
theorem tokenize_loop_some (l : List Char) :
    ∀ tok : List Char, tokenize_loop l (some tok) []
      = (tok ++ l.takeWhile (fun c => !isspace c))
        :: tokenize (l.dropWhile (fun c => !isspace c)) := by
  induction l with
  | nil =>
    intro tok
    simp [tokenize_loop, tokenize]
  | cons c cs ih =>
    intro tok
    by_cases hc : isspace c = true
    · have h := tokenize_loop_append cs none [tok]
      simp only [tokenize_loop, hc]
      simp [h, List.takeWhile, List.dropWhile, hc, tokenize, tokenize_loop]
    · have hc' : isspace c = false := by simpa using hc
      simp only [tokenize_loop, hc]
      simp [ih, List.takeWhile, List.dropWhile, hc']

/-- The tokens of a line, in their order of appearance: skip the white space;
the first token is the run of other characters that follows; the remaining
tokens are the tokens of what comes after it. -/
theorem tokenize_eq (l : List Char) :
    tokenize l =
      match l.dropWhile isspace with
      | [] => []
      | c :: w => (c :: w).takeWhile (fun c => !isspace c)
          :: tokenize ((c :: w).dropWhile (fun c => !isspace c)) := by
  induction l with
  | nil => simp [tokenize, tokenize_loop]
  | cons a as ih =>
    by_cases ha : isspace a = true
    · have e : tokenize (a :: as) = tokenize as := by
        simp [tokenize, tokenize_loop, ha]
      rw [e, ih]
      simp [List.dropWhile, ha]
    · have ha' : isspace a = false := by simpa using ha
      have e : tokenize (a :: as) = tokenize_loop as (some [a]) [] := by
        simp [tokenize, tokenize_loop, ha']
      rw [e, tokenize_loop_some]
      simp [List.dropWhile, List.takeWhile, ha']

/-- White space between two parts of a line separates their tokens. -/
theorem tokenize_loop_space (a : List Char) (c : Char) (b : List Char) (hc : isspace c = true) :
    ∀ (start : Option (List Char)) (v : List (List Char)),
      tokenize_loop (a ++ c :: b) start v = tokenize_loop b none (tokenize_loop a start v) := by
  induction a with
  | nil =>
    intro start v
    cases start <;> simp [tokenize_loop, hc]
  | cons d ds ih =>
    intro start v
    by_cases hd : isspace d = true
    · cases start <;> simp only [List.cons_append, tokenize_loop, hd] <;> exact ih _ _
    · cases start <;> simp only [List.cons_append, tokenize_loop, hd] <;> exact ih _ _

theorem tokenize_space (a : List Char) (c : Char) (b : List Char) (hc : isspace c = true) :
    tokenize (a ++ c :: b) = tokenize a ++ tokenize b := by
  unfold tokenize
  rw [tokenize_loop_space a c b hc, tokenize_loop_append b none]

/-- A run of white space in front of a text holds no token. -/
theorem tokenize_spaces_append (s b : List Char) (hs : ∀ c ∈ s, isspace c = true) :
    tokenize (s ++ b) = tokenize b := by
  induction s with
  | nil => rfl
  | cons c cs ih =>
    have e := tokenize_space [] c (cs ++ b) (hs c (List.mem_cons_self _ _))
    simp only [List.nil_append] at e
    rw [List.cons_append, e, ih (fun d hd => hs d (List.mem_cons_of_mem _ hd))]
    rfl

/-- The tokens of a line are those before and those after an index that a
scan over white space reaches from a white-space character. -/
theorem tokenize_take_drop (line : List Char) (p pos : Nat)
    (hd : line.drop pos = (line.drop p).dropWhile isspace)
    (hsp : ∃ c w, line.drop p = c :: w ∧ isspace c = true) :
    tokenize line = tokenize (line.take pos) ++ tokenize (line.drop pos) := by
  obtain ⟨c, w, hcw, hc⟩ := hsp
  have hdw : line.drop pos = w.dropWhile isspace := by
    rw [hd, hcw]
    simp [List.dropWhile, hc]
  have hs : ∀ d ∈ w.takeWhile isspace, isspace d = true := fun d hd => List.mem_takeWhile_imp hd
  have e1 : line = line.take p ++ c :: (w.takeWhile isspace ++ line.drop pos) := by
    rw [hdw, List.takeWhile_append_dropWhile, ← hcw, List.take_append_drop]
  have e2 : line.take pos = line.take p ++ c :: w.takeWhile isspace := by
    have e3 : line.take pos ++ line.drop pos
        = (line.take p ++ c :: w.takeWhile isspace) ++ line.drop pos := by
      rw [List.take_append_drop]
      simpa using e1
    exact List.append_cancel_right e3
  have t1 : tokenize line = tokenize (line.take p) ++ tokenize (line.drop pos) := by
    have e := tokenize_space (line.take p) c (w.takeWhile isspace ++ line.drop pos) hc
    rw [← e1] at e
    rw [e, tokenize_spaces_append _ _ hs]
  have t2 : tokenize (line.take pos) = tokenize (line.take p) := by
    rw [e2, tokenize_space _ c _ hc]
    have e := tokenize_spaces_append (w.takeWhile isspace) [] hs
    rw [List.append_nil] at e
    rw [e]
    simp [tokenize, tokenize_loop]
  rw [t2]
  exact t1


/-- The scan of the LCS branch is the succession of its five loops. -/
theorem third_token_position_eq (line : List Char) (p0 p1 p2 p3 pos : Nat)
    (h0 : skip_while isspace line 0 = Except.ok p0)
    (h1 : skip_while (fun c => !isspace c) (line.drop p0) p0 = Except.ok p1)
    (h2 : skip_while isspace (line.drop p1) p1 = Except.ok p2)
    (h3 : skip_while (fun c => !isspace c) (line.drop p2) p2 = Except.ok p3)
    (h4 : skip_while isspace (line.drop p3) p3 = Except.ok pos) :
    third_token_position line = Except.ok pos := by
  simp only [third_token_position, h0, h1, h2, h3, h4, bind, Except.bind]

/-- C39: on every line on which `tokenize` returns at least three tokens the
scan of the LCS branch of `load` succeeds: each of the five loops that skip
the leading white space and the first two tokens stops at an index inside the
line (no access `line.at(pos)` is out of range), so that `third_token_position`
returns a position, and `load_string` goes on to the opening-quote test at that
position and never ends in `std::out_of_range`.  The position is the index at
which the third token starts: it is inside the line, the text before it holds
the first two tokens and no other, the character tested for the quote is the
first of the third token, the characters from there up to the next white space
are the third token, and the tokens from there on are the third and the
following ones.  On every line, `tokenize` returns only non-empty tokens free
of white space, in their order of appearance: the first token is the run of
other characters after the leading white space, the remaining tokens are the
tokens of what follows it. -/
theorem C39_third_token_scan (line : List Char) :
    (3 ≤ (tokenize line).length →
      ∃ t0 t1 t2 rest p0 p1 p2 p3 pos,
        tokenize line = t0 :: t1 :: t2 :: rest
        ∧ skip_while isspace line 0 = Except.ok p0
        ∧ skip_while (fun c => !isspace c) (line.drop p0) p0 = Except.ok p1
        ∧ skip_while isspace (line.drop p1) p1 = Except.ok p2
        ∧ skip_while (fun c => !isspace c) (line.drop p2) p2 = Except.ok p3
        ∧ skip_while isspace (line.drop p3) p3 = Except.ok pos
        ∧ p0 ≤ p1 ∧ p1 ≤ p2 ∧ p2 ≤ p3 ∧ p3 ≤ pos ∧ pos < line.length
        ∧ third_token_position line = Except.ok pos
        ∧ load_string line = quoted_string line pos
        ∧ load_string line =
            (if t2.head? ≠ some quote then Except.error (load_failure.malformed_string line)
              else if (copy_string (line.drop (pos + 1)) (pos + 1) []).2 = line.length
                  ∨ (copy_string (line.drop (pos + 1)) (pos + 1) []).1.length = 0 then
                Except.error (load_failure.malformed_string line)
              else Except.ok (copy_string (line.drop (pos + 1)) (pos + 1) []).1)
        ∧ load_string line ≠ Except.error load_failure.out_of_range
        ∧ tokenize (line.take pos) = [t0, t1]
        ∧ line.get? pos = t2.head?
        ∧ (line.drop pos).takeWhile (fun c => !isspace c) = t2
        ∧ tokenize (line.drop pos) = t2 :: rest)
      ∧ (∀ t ∈ tokenize line, t ≠ [] ∧ ∀ c ∈ t, isspace c = false)
      ∧ tokenize line =
          (match line.dropWhile isspace with
            | [] => []
            | c :: w => (c :: w).takeWhile (fun c => !isspace c)
                :: tokenize ((c :: w).dropWhile (fun c => !isspace c))) := by
  refine ⟨?_, tokenize_tokens line, tokenize_eq line⟩
  intro h3
  have key : third_field line ≠ []
      ∧ ∃ t0 t1, tokenize line = t0 :: t1 :: tokenize (third_field line) := by
    have e1 := tokenize_eq line
    cases h1 : line.dropWhile isspace with
    | nil =>
      rw [h1] at e1
      dsimp only at e1
      rw [e1] at h3
      simp at h3
    | cons c1 w1 =>
      rw [h1] at e1
      dsimp only at e1
      have e2 := tokenize_eq ((c1 :: w1).dropWhile (fun c => !isspace c))
      cases h2 : ((c1 :: w1).dropWhile (fun c => !isspace c)).dropWhile isspace with
      | nil =>
        rw [h2] at e2
        dsimp only at e2
        rw [e1, e2] at h3
        simp at h3
      | cons c2 w2 =>
        rw [h2] at e2
        dsimp only at e2
        have e3 := tokenize_eq ((c2 :: w2).dropWhile (fun c => !isspace c))
        have hthird : third_field line
            = ((c2 :: w2).dropWhile (fun c => !isspace c)).dropWhile isspace := by
          simp only [third_field, h1, h2]
        cases h4 : ((c2 :: w2).dropWhile (fun c => !isspace c)).dropWhile isspace with
        | nil =>
          rw [h4] at e3
          dsimp only at e3
          rw [e1, e2, e3] at h3
          simp at h3
        | cons c3 w3 =>
          rw [h4] at hthird e3
          dsimp only at e3
          refine ⟨by rw [hthird]; simp, (c1 :: w1).takeWhile (fun c => !isspace c),
            (c2 :: w2).takeWhile (fun c => !isspace c), ?_⟩
          rw [e1, e2, e3, hthird]
          have hc3 : isspace c3 = false := dropWhile_head_false isspace _ c3 w3 h4
          rw [tokenize_eq (c3 :: w3)]
          simp [List.dropWhile, hc3]
  obtain ⟨hne, t0, t1, htok⟩ := key
  obtain ⟨p0, p1, p2, p3, pos, h0, h1, h2, h3', h4⟩ := load_string_scan_ok line hne
  obtain ⟨hdrop, _⟩ := load_string_scan line p0 p1 p2 p3 pos h0 h1 h2 h3' h4
  obtain ⟨n0, hn0, _⟩ := skip_while_ok _ _ _ _ h0
  obtain ⟨n1, hn1, _⟩ := skip_while_ok _ _ _ _ h1
  obtain ⟨n2, hn2, _⟩ := skip_while_ok _ _ _ _ h2
  obtain ⟨n3, hn3, _⟩ := skip_while_ok _ _ _ _ h3'
  obtain ⟨n4, hn4, _⟩ := skip_while_ok _ _ _ _ h4
  have hpos : pos < line.length := by
    by_contra hge
    apply hne
    rw [← hdrop]
    exact List.drop_eq_nil_of_le (by omega)
  have e5 := tokenize_eq (third_field line)
  cases hf : third_field line with
  | nil => exact absurd hf hne
  | cons c body =>
    have hidem : (third_field line).dropWhile isspace = third_field line := by
      have hc : isspace c = false := by
        have : ((((line.dropWhile isspace).dropWhile (fun c => !isspace c)).dropWhile
            isspace).dropWhile (fun c => !isspace c)).dropWhile isspace = c :: body := hf
        exact dropWhile_head_false isspace _ c body this
      rw [hf]
      simp [List.dropWhile, hc]
    rw [hidem, hf] at e5
    dsimp only at e5
    have hp1 : p0 ≤ p1 := by omega
    have hp2 : p1 ≤ p2 := by omega
    have hp3 : p2 ≤ p3 := by omega
    have hp4 : p3 ≤ pos := by omega
    have hc : isspace c = false := by
      have : ((((line.dropWhile isspace).dropWhile (fun c => !isspace c)).dropWhile
          isspace).dropWhile (fun c => !isspace c)).dropWhile isspace = c :: body := hf
      exact dropWhile_head_false isspace _ c body this
    have htp := third_token_position_eq line p0 p1 p2 p3 pos h0 h1 h2 h3' h4
    have hls : load_string line = quoted_string line pos := by
      simp only [load_string, htp, bind, Except.bind]
    have e3 := skip_while_drop _ line p2 p3 h3'
    have e4 := skip_while_drop _ line p3 pos h4
    have hsp : ∃ d w, line.drop p3 = d :: w ∧ isspace d = true := by
      cases hd : line.drop p3 with
      | nil =>
        rw [hd] at e3
        exact absurd e3.1.symm e3.2
      | cons d w =>
        refine ⟨d, w, rfl, ?_⟩
        have := dropWhile_head_false (fun c => !isspace c) (line.drop p2) d w
          (by rw [← e3.1, hd])
        simpa using this
    have hsplit := tokenize_take_drop line p3 pos e4.1 hsp
    have htd : tokenize (line.drop pos)
        = (c :: body).takeWhile (fun c => !isspace c)
          :: tokenize ((c :: body).dropWhile (fun c => !isspace c)) := by
      rw [hdrop, hf, e5]
    refine ⟨t0, t1, (c :: body).takeWhile (fun c => !isspace c),
      tokenize ((c :: body).dropWhile (fun c => !isspace c)), p0, p1, p2, p3, pos, ?_,
      h0, h1, h2, h3', h4, hp1, hp2, hp3, hp4, hpos, htp, hls, ?_, ?_, ?_, ?_, ?_, htd⟩
    · rw [htok, hf, e5]
    · have hg : line.get? pos = some c := by
        have := congrArg List.head? hdrop
        rw [hf] at this
        simpa [List.head?_drop] using this
      have hh : ((c :: body).takeWhile (fun c => !isspace c)).head? = some c := by
        simp [List.takeWhile, hc]
      rw [hls, hh]
      simp only [quoted_string, hg]
      by_cases hq : c = quote
      · simp [hq]
      · simp [hq]
    · rw [load_string_eq line hne, hf]
      dsimp only
      split_ifs <;> simp
    · rw [htok, hf, e5, htd] at hsplit
      have hsplit' : [t0, t1] ++ ((c :: body).takeWhile (fun c => !isspace c)
            :: tokenize ((c :: body).dropWhile (fun c => !isspace c)))
          = tokenize (line.take pos) ++ ((c :: body).takeWhile (fun c => !isspace c)
            :: tokenize ((c :: body).dropWhile (fun c => !isspace c))) := by
        simpa using hsplit
      exact (List.append_cancel_right hsplit').symm
    · have hg : line.get? pos = some c := by
        have := congrArg List.head? hdrop
        rw [hf] at this
        simpa [List.head?_drop] using this
      rw [hg]
      simp [List.takeWhile, hc]
    · rw [hdrop, hf]

theorem C39_third_token_scan_witness :
    ∃ pos, third_token_position "LCS 0 \x27a b\x27".toList = Except.ok pos
      ∧ pos < "LCS 0 \x27a b\x27".toList.length
      ∧ load_string "LCS 0 \x27a b\x27".toList = quoted_string "LCS 0 \x27a b\x27".toList pos
      ∧ load_string "LCS 0 \x27a b\x27".toList ≠ Except.error load_failure.out_of_range := by
  obtain ⟨_, _, _, _, _, _, _, _, pos, _, _, _, _, _, _, _, _, _, _, hpos, htp, hls, _, hne, _⟩ :=
    (C39_third_token_scan "LCS 0 \x27a b\x27".toList).1 (by decide)
  exact ⟨pos, htp, hpos, hls, hne⟩

end Termination

end PAL
